import Mathlib

/-!
Verification of the cpp-chess move-generation core against its specification.

This file shallowly embeds the C++ sources (defs.hpp, utils.hpp, move.hpp,
movelist.hpp, board.hpp, zobrist.hpp, lookup.hpp, game.hpp, movegen.hpp,
helper.hpp) into Lean.  Bitboards are 64-bit unsigned integers in the C++
source; they are modelled as `Nat` with explicit reduction `% 2 ^ 64`
wherever the C++ arithmetic wraps.  C++ `while`-loops over bitboards
(`popLSB` loops) terminate because clearing the lowest set bit strictly
decreases the value; they are modelled by structural recursion on a fuel
argument that is always large enough (the fuel is the bitboard itself,
which bounds the number of iterations).
-/

set_option maxRecDepth 1000000

namespace CppChess

/-! ### Bit primitives (utils.hpp)

`popcount` models `__builtin_popcountll`, `ctz` models `__builtin_ctzll`
(which the source wraps as `toSquare`), and `bitIndices` models the
ubiquitous `while (b != 0) { use popLSB(b); }` loop: it lists the indices
of the set bits of `b` from lowest to highest, exactly in the order the
loop visits them (`popLSB` returns `ctz b` and replaces `b` by
`b &&& (b - 1)`). -/

def popcountAux : Nat → Nat → Nat
  | 0, _ => 0
  | fuel+1, n => if n = 0 then 0 else n % 2 + popcountAux fuel (n / 2)

def popcount (n : Nat) : Nat := popcountAux n n

def ctzAux : Nat → Nat → Nat
  | 0, _ => 0
  | fuel+1, n => if n % 2 = 0 ∧ n ≠ 0 then ctzAux fuel (n / 2) + 1 else 0

def ctz (n : Nat) : Nat := ctzAux n n

def bitIndicesAux : Nat → Nat → List Nat
  | 0, _ => []
  | fuel+1, b => if b = 0 then [] else ctz b :: bitIndicesAux fuel (b &&& (b - 1))

def bitIndices (b : Nat) : List Nat := bitIndicesAux b b

theorem popcountAux_irrel : ∀ f g n, n ≤ f → n ≤ g → popcountAux f n = popcountAux g n := by
  intro f
  induction f with
  | zero =>
    intro g n hf _
    interval_cases n
    cases g <;> simp [popcountAux]
  | succ f ih =>
    intro g n hf hg
    rcases n with _ | n
    · cases g <;> simp [popcountAux]
    · rcases g with _ | g
      · omega
      · simp only [popcountAux]
        rw [if_neg (by omega), if_neg (by omega), ih g ((n+1)/2) (by omega) (by omega)]

theorem popcount_zero : popcount 0 = 0 := rfl

theorem popcount_rec (n : Nat) (h : n ≠ 0) : popcount n = n % 2 + popcount (n / 2) := by
  unfold popcount
  match n, h with
  | n+1, _ =>
    simp only [popcountAux, Nat.succ_ne_zero, if_false]
    rw [popcountAux_irrel n ((n+1)/2) ((n+1)/2) (by omega) (by omega)]

theorem ctzAux_irrel : ∀ f g n, n ≤ f → n ≤ g → ctzAux f n = ctzAux g n := by
  intro f
  induction f with
  | zero =>
    intro g n hf _
    interval_cases n
    cases g <;> simp [ctzAux]
  | succ f ih =>
    intro g n hf hg
    rcases n with _ | n
    · cases g <;> simp [ctzAux]
    · rcases g with _ | g
      · omega
      · simp only [ctzAux]
        by_cases h : (n+1) % 2 = 0
        · rw [if_pos ⟨h, by omega⟩, if_pos ⟨h, by omega⟩,
            ih g ((n+1)/2) (by omega) (by omega)]
        · rw [if_neg (fun hc => h hc.1), if_neg (fun hc => h hc.1)]

theorem ctz_rec (n : Nat) : ctz n = if n % 2 = 0 ∧ n ≠ 0 then ctz (n / 2) + 1 else 0 := by
  unfold ctz
  rcases n with _ | n
  · simp [ctzAux]
  · simp only [ctzAux]
    by_cases h : (n+1) % 2 = 0
    · rw [if_pos ⟨h, by omega⟩, if_pos ⟨h, by omega⟩,
        ctzAux_irrel n ((n+1)/2) ((n+1)/2) (by omega) (by omega)]
    · rw [if_neg (fun hc => h hc.1), if_neg (fun hc => h hc.1)]

theorem ctz_odd (n : Nat) (h : n % 2 = 1) : ctz n = 0 := by
  rw [ctz_rec]; simp [h]

theorem ctz_even (n : Nat) (h0 : n ≠ 0) (h : n % 2 = 0) : ctz n = ctz (n / 2) + 1 := by
  rw [ctz_rec]; simp [h, h0]

theorem ctz_two_mul (n : Nat) (h : n ≠ 0) : ctz (2 * n) = ctz n + 1 := by
  rw [ctz_even (2 * n) (by omega) (by omega)]
  congr 1
  congr 1
  omega

theorem ctz_two_mul_add_one (n : Nat) : ctz (2 * n + 1) = 0 :=
  ctz_odd _ (by omega)

theorem bitIndicesAux_irrel : ∀ f g b, b ≤ f → b ≤ g → bitIndicesAux f b = bitIndicesAux g b := by
  intro f
  induction f with
  | zero =>
    intro g b hf _
    interval_cases b
    cases g <;> simp [bitIndicesAux]
  | succ f ih =>
    intro g b hf hg
    rcases b with _ | b
    · cases g <;> simp [bitIndicesAux]
    · rcases g with _ | g
      · omega
      · simp only [bitIndicesAux]
        rw [if_neg (by omega), if_neg (by omega)]
        rw [ih g ((b+1) &&& ((b+1) - 1))
          (le_trans (show (b+1) &&& ((b+1) - 1) ≤ b from Nat.and_le_right) (by omega))
          (le_trans (show (b+1) &&& ((b+1) - 1) ≤ b from Nat.and_le_right) (by omega))]

theorem bitIndices_zero : bitIndices 0 = [] := rfl

theorem bitIndices_rec (b : Nat) (h : b ≠ 0) :
    bitIndices b = ctz b :: bitIndices (b &&& (b - 1)) := by
  unfold bitIndices
  rcases b with _ | b
  · exact absurd rfl h
  · simp only [bitIndicesAux]
    rw [if_neg (by omega)]
    rw [bitIndicesAux_irrel b ((b+1) &&& ((b+1) - 1)) ((b+1) &&& ((b+1) - 1))
      (show (b+1) &&& ((b+1) - 1) ≤ b from Nat.and_le_right) (le_refl _)]

/-! Parity decomposition lemmas for the bitwise operations, used to reason
about `popLSB`-style loops by induction on the binary representation. -/

theorem testBit_two_mul_add (a x : Nat) (hx : x < 2) :
    ∀ i, (2 * a + x).testBit i = if i = 0 then decide (x = 1) else a.testBit (i - 1) := by
  intro i
  rcases i with _ | i
  · simp only [Nat.testBit_zero, if_pos rfl]
    exact decide_eq_decide.mpr (by omega)
  · simp only [Nat.testBit_succ, if_neg (Nat.succ_ne_zero i), Nat.succ_sub_one]
    congr 1
    omega

theorem land_bits (a c x y : Nat) (hx : x < 2) (hy : y < 2) :
    (2 * a + x) &&& (2 * c + y) = 2 * (a &&& c) + x * y := by
  apply Nat.eq_of_testBit_eq
  intro i
  have hxy : x * y < 2 := by nlinarith
  rw [Nat.testBit_and, testBit_two_mul_add a x hx, testBit_two_mul_add c y hy,
    testBit_two_mul_add (a &&& c) (x * y) hxy]
  rcases i with _ | i
  · simp only [if_pos rfl]
    rcases (by omega : x = 0 ∨ x = 1) with rfl | rfl <;>
      rcases (by omega : y = 0 ∨ y = 1) with rfl | rfl <;> simp
  · simp [Nat.testBit_and]

theorem lor_bits (a c x y : Nat) (hx : x < 2) (hy : y < 2) :
    (2 * a + x) ||| (2 * c + y) = 2 * (a ||| c) + (x ||| y) := by
  apply Nat.eq_of_testBit_eq
  intro i
  have hxy : (x ||| y) < 2 := by
    rcases (by omega : x = 0 ∨ x = 1) with rfl | rfl <;>
      rcases (by omega : y = 0 ∨ y = 1) with rfl | rfl <;> decide
  rw [Nat.testBit_or, testBit_two_mul_add a x hx, testBit_two_mul_add c y hy,
    testBit_two_mul_add (a ||| c) (x ||| y) hxy]
  rcases i with _ | i
  · simp only [if_pos rfl]
    rcases (by omega : x = 0 ∨ x = 1) with rfl | rfl <;>
      rcases (by omega : y = 0 ∨ y = 1) with rfl | rfl <;> simp
  · simp [Nat.testBit_or]

theorem land_pred_two_mul (b : Nat) (h : b ≠ 0) :
    (2 * b) &&& (2 * b - 1) = 2 * (b &&& (b - 1)) := by
  have h2 := land_bits b (b-1) 0 1 (by omega) (by omega)
  have h1 : 2 * b - 1 = 2 * (b - 1) + 1 := by omega
  rw [h1]
  simpa using h2

theorem land_self_eq (b : Nat) : b &&& b = b :=
  Nat.eq_of_testBit_eq (by simp [Nat.testBit_and])

theorem land_pred_two_mul_add_one (b : Nat) :
    (2 * b + 1) &&& (2 * b) = 2 * b := by
  have h2 := land_bits b b 1 0 (by omega) (by omega)
  rw [land_self_eq] at h2
  simpa using h2

theorem bitIndices_two_mul : ∀ b, bitIndices (2 * b) = (bitIndices b).map (· + 1) := by
  intro b
  induction b using Nat.strong_induction_on with
  | _ b ih =>
    rcases Nat.eq_zero_or_pos b with rfl | hb
    · rfl
    · have hb0 : b ≠ 0 := by omega
      rw [bitIndices_rec (2 * b) (by omega), bitIndices_rec b hb0,
        ctz_two_mul b hb0]
      have h2 : (2 * b) &&& (2 * b - 1) = 2 * (b &&& (b - 1)) := land_pred_two_mul b hb0
      rw [h2, ih (b &&& (b - 1))
        (lt_of_le_of_lt Nat.and_le_right (by omega))]
      simp

theorem bitIndices_two_mul_add_one (b : Nat) :
    bitIndices (2 * b + 1) = 0 :: (bitIndices b).map (· + 1) := by
  rw [bitIndices_rec (2 * b + 1) (by omega), ctz_two_mul_add_one]
  have h1 : 2 * b + 1 - 1 = 2 * b := by omega
  rw [h1, land_pred_two_mul_add_one, bitIndices_two_mul]

theorem popcount_two_mul (b : Nat) : popcount (2 * b) = popcount b := by
  rcases Nat.eq_zero_or_pos b with rfl | hb
  · rfl
  · rw [popcount_rec (2 * b) (by omega)]
    have h1 : 2 * b % 2 = 0 := by omega
    have h2 : 2 * b / 2 = b := by omega
    rw [h1, h2, Nat.zero_add]

theorem popcount_two_mul_add_one (b : Nat) : popcount (2 * b + 1) = popcount b + 1 := by
  rw [popcount_rec (2 * b + 1) (by omega)]
  have h1 : (2 * b + 1) % 2 = 1 := by omega
  have h2 : (2 * b + 1) / 2 = b := by omega
  rw [h1, h2, Nat.add_comm]

theorem length_bitIndices : ∀ b, (bitIndices b).length = popcount b := by
  intro b
  induction b using Nat.strong_induction_on with
  | _ b ih =>
    rcases Nat.eq_zero_or_pos b with rfl | hb
    · rfl
    · rcases (by omega : b % 2 = 0 ∨ b % 2 = 1) with h | h
      · have hb2 : b = 2 * (b / 2) := by omega
        rw [hb2, bitIndices_two_mul, popcount_two_mul, List.length_map,
          ih (b / 2) (by omega)]
      · have hb2 : b = 2 * (b / 2) + 1 := by omega
        rw [hb2, bitIndices_two_mul_add_one, popcount_two_mul_add_one]
        simp [ih (b / 2) (by omega)]

theorem mem_bitIndices : ∀ b i, i ∈ bitIndices b ↔ b.testBit i = true := by
  intro b
  induction b using Nat.strong_induction_on with
  | _ b ih =>
    intro i
    rcases Nat.eq_zero_or_pos b with rfl | hb
    · simp [bitIndices_zero, Nat.zero_testBit]
    · rcases (by omega : b % 2 = 0 ∨ b % 2 = 1) with h | h
      · have hb2 : b = 2 * (b / 2) := by omega
        rw [hb2, bitIndices_two_mul]
        have ht := testBit_two_mul_add (b / 2) 0 (by omega) i
        rw [Nat.add_zero] at ht
        rw [ht]
        rcases i with _ | i
        · simp
        · simp only [if_neg (Nat.succ_ne_zero i), Nat.succ_sub_one]
          rw [← ih (b / 2) (by omega) i]
          constructor
          · intro hm
            rcases List.mem_map.mp hm with ⟨j, hj, hji⟩
            simpa [show j = i by omega] using hj
          · intro hm
            exact List.mem_map.mpr ⟨i, hm, rfl⟩
      · have hb2 : b = 2 * (b / 2) + 1 := by omega
        rw [hb2, bitIndices_two_mul_add_one]
        have ht := testBit_two_mul_add (b / 2) 1 (by omega) i
        rw [ht]
        rcases i with _ | i
        · simp
        · simp only [if_neg (Nat.succ_ne_zero i), Nat.succ_sub_one]
          rw [← ih (b / 2) (by omega) i]
          constructor
          · intro hm
            rcases List.mem_cons.mp hm with hm1 | hm1
            · exact absurd hm1 (Nat.succ_ne_zero i)
            · rcases List.mem_map.mp hm1 with ⟨j, hj, hji⟩
              simpa [show j = i by omega] using hj
          · intro hm
            exact List.mem_cons_of_mem 0 (List.mem_map.mpr ⟨i, hm, rfl⟩)

theorem nodup_bitIndices : ∀ b, (bitIndices b).Nodup := by
  intro b
  induction b using Nat.strong_induction_on with
  | _ b ih =>
    rcases Nat.eq_zero_or_pos b with rfl | hb
    · exact List.nodup_nil
    · rcases (by omega : b % 2 = 0 ∨ b % 2 = 1) with h | h
      · have hb2 : b = 2 * (b / 2) := by omega
        rw [hb2, bitIndices_two_mul]
        exact (ih (b / 2) (by omega)).map (fun a a' => by omega)
      · have hb2 : b = 2 * (b / 2) + 1 := by omega
        rw [hb2, bitIndices_two_mul_add_one]
        rw [List.nodup_cons]
        constructor
        · intro hm
          rcases List.mem_map.mp hm with ⟨j, _, hji⟩
          omega
        · exact (ih (b / 2) (by omega)).map (fun a a' => by omega)

theorem two_pow_le_of_testBit (b i : Nat) (h : b.testBit i = true) : 2 ^ i ≤ b := by
  rw [Nat.testBit_to_div_mod] at h
  have h1 : b / 2 ^ i ≠ 0 := by
    intro h0
    rw [h0] at h
    simp at h
  by_contra hlt
  exact h1 (Nat.div_eq_of_lt (by omega))

theorem bitIndices_lt_64 (b i : Nat) (hb : b < 2 ^ 64) (h : i ∈ bitIndices b) : i < 64 := by
  by_contra hge
  have ht := (mem_bitIndices b i).mp h
  have h1 : 2 ^ i ≤ b := two_pow_le_of_testBit b i ht
  have h2 : (2 : Nat) ^ 64 ≤ 2 ^ i := Nat.pow_le_pow_right (by omega) (by omega)
  omega

/-! ### Core definitions (defs.hpp)

`Bitboard` is `uint64_t` in the source and is modelled as `Nat`; every
C++ operation that can wrap (left shifts, complement) is reduced
`% 2 ^ 64` explicitly.  `Piece` is the source's `enum class Piece`
encoding: low 3 bits = piece type ordinal, bit 3 = color ordinal,
values 6 and 7 reserved, `None = 14`. -/

def U64 : Nat := 2 ^ 64

def u64 (x : Nat) : Nat := x % U64

def compl64 (x : Nat) : Nat := x ^^^ (U64 - 1)

inductive Color where
  | White : Color
  | Black : Color
deriving DecidableEq, Repr

def colorVal : Color → Nat
  | Color.White => 0
  | Color.Black => 1

def oppColor : Color → Color
  | Color.White => Color.Black
  | Color.Black => Color.White

def pieceNone : Nat := 14

def getPieceColorVal (piece : Nat) : Nat := piece >>> 3

def getPieceType (piece : Nat) : Nat := piece &&& 7

def makePiece (pieceType : Nat) (color : Color) : Nat :=
  pieceType ||| (colorVal color <<< 3)

def pawnType : Nat := 0
def knightType : Nat := 1
def bishopType : Nat := 2
def rookType : Nat := 3
def queenType : Nat := 4
def kingType : Nat := 5

def squareNone : Nat := 64

def fileOf (square : Nat) : Nat := square &&& 7

def rankOf (square : Nat) : Nat := square >>> 3

def fileA : Nat := 0x0101010101010101
def fileB : Nat := 0x0202020202020202
def fileG : Nat := 0x4040404040404040
def fileH : Nat := 0x8080808080808080

def rank1 : Nat := 0x00000000000000FF
def rank2 : Nat := 0x000000000000FF00
def rank3 : Nat := 0x0000000000FF0000
def rank4 : Nat := 0x00000000FF000000
def rank5 : Nat := 0x000000FF00000000
def rank6 : Nat := 0x0000FF0000000000
def rank7 : Nat := 0x00FF000000000000
def rank8 : Nat := 0xFF00000000000000

def quietMoveFlag : Nat := 0b0000
def doublePawnPushFlag : Nat := 0b0001
def kingCastleFlag : Nat := 0b0010
def queenCastleFlag : Nat := 0b0011
def captureFlag : Nat := 0b0100
def enPassantCaptureFlag : Nat := 0b0101
def knightPromotionFlag : Nat := 0b1000
def bishopPromotionFlag : Nat := 0b1001
def rookPromotionFlag : Nat := 0b1010
def queenPromotionFlag : Nat := 0b1011
def knightPromotionCaptureFlag : Nat := 0b1100
def bishopPromotionCaptureFlag : Nat := 0b1101
def rookPromotionCaptureFlag : Nat := 0b1110
def queenPromotionCaptureFlag : Nat := 0b1111

def whiteKingsideFlag : Nat := 0b0001
def whiteQueensideFlag : Nat := 0b0010
def blackKingsideFlag : Nat := 0b0100
def blackQueensideFlag : Nat := 0b1000

/-- Model of the source's `operator~` on `CastlingFlags`: complement of the
`uint8_t` value, masked back to the low four bits. -/
def castlingNot (x : Nat) : Nat := (x ^^^ 0xFF) &&& 0b1111

/-! ### Move (move.hpp)

A `Move` packs flags/from/to into 16 bits:
`m_data = uint16_t((flags << 12) | (from << 6) | to)`. -/

structure Move where
  data : Nat
deriving DecidableEq, Repr

def mkMove (fromSq toSq flags : Nat) : Move :=
  ⟨((flags <<< 12) ||| (fromSq <<< 6) ||| toSq) % 2 ^ 16⟩

def nullMove : Move := ⟨0⟩

namespace Move

def getTo (m : Move) : Nat := m.data &&& 0x3F

def getFrom (m : Move) : Nat := (m.data >>> 6) &&& 0x3F

def getFlags (m : Move) : Nat := m.data >>> 12

def isCapture (m : Move) : Bool := (m.data &&& (0b0100 <<< 12)) != 0

def isQuietMove (m : Move) : Bool := (m.data &&& (0b1111 <<< 12)) == (0b0000 <<< 12)

def isDoublePawnPush (m : Move) : Bool := (m.data &&& (0b1111 <<< 12)) == (0b0001 <<< 12)

def isEnPassant (m : Move) : Bool := (m.data &&& (0b1111 <<< 12)) == (0b0101 <<< 12)

def isKingsideCastle (m : Move) : Bool := (m.data &&& (0b1111 <<< 12)) == (0b0010 <<< 12)

def isQueensideCastle (m : Move) : Bool := (m.data &&& (0b1111 <<< 12)) == (0b0011 <<< 12)

def isCastle (m : Move) : Bool := (m.data &&& (0b111 <<< 13)) == (0b001 <<< 13)

def isPromotion (m : Move) : Bool := (m.data &&& (0b1 <<< 15)) == (0b1 <<< 15)

def isNull (m : Move) : Bool := m.data == 0

/-- Source: `getTo() + (isEnPassant() ? offset : 0)` with `offset = -8` for
White and `8` for Black (`int` arithmetic; for en-passant the destination
lies on rank 6 resp. rank 3, so the White subtraction never underflows on
meaningful inputs). -/
def captureDestinationSquare (c : Color) (m : Move) : Nat :=
  if m.isEnPassant then
    (match c with
     | Color.White => m.getTo - 8
     | Color.Black => m.getTo + 8)
  else m.getTo

def capturedPiece (c : Color) (m : Move) (pieceDest : Nat) : Nat :=
  if m.isEnPassant then
    (match c with
     | Color.White => makePiece pawnType Color.Black
     | Color.Black => makePiece pawnType Color.White)
  else pieceDest

def doublePawnPushEnPassantSquare (c : Color) (m : Move) : Nat :=
  match c with
  | Color.White => m.getFrom + 8
  | Color.Black => m.getFrom - 8

def promotionPieceType (m : Move) : Nat := ((m.data >>> 12) &&& 0b0011) + 0b0001

def promotionPiece (c : Color) (m : Move) : Nat := makePiece m.promotionPieceType c

end Move

/-! Decomposition lemmas for the packed 16-bit move encoding. -/

theorem testBit_mul_pow_add (a r k : Nat) (hr : r < 2 ^ k) :
    ∀ i, (a * 2 ^ k + r).testBit i = if i < k then r.testBit i else a.testBit (i - k) := by
  induction k generalizing a r with
  | zero =>
    intro i
    have hr0 : r = 0 := by omega
    subst hr0
    simp
  | succ k ih =>
    intro i
    have hp : a * 2 ^ (k+1) = 2 * (a * 2 ^ k) := by rw [Nat.pow_succ]; ring
    have hsplit : a * 2 ^ (k+1) + r = 2 * (a * 2 ^ k + r / 2) + r % 2 := by omega
    rw [hsplit, testBit_two_mul_add _ _ (by omega)]
    rcases i with _ | i
    · rw [if_pos rfl, if_pos (by omega : (0:Nat) < k + 1), Nat.testBit_zero]
    · rw [if_neg (Nat.succ_ne_zero i), Nat.succ_sub_one]
      rw [ih a (r / 2) (by omega) i]
      by_cases hik : i < k
      · rw [if_pos hik, if_pos (by omega)]
        rw [Nat.testBit_succ]
      · rw [if_neg hik, if_neg (by omega)]
        congr 1
        omega

theorem land_mask_eq_mod (x k : Nat) : x &&& (2 ^ k - 1) = x % 2 ^ k := by
  apply Nat.eq_of_testBit_eq
  intro i
  rw [Nat.testBit_and, Nat.testBit_two_pow_sub_one, Nat.testBit_mod_two_pow]
  rw [Bool.and_comm]

theorem or_mul_pow_add : ∀ k a b, b < 2 ^ k → (a * 2 ^ k) ||| b = a * 2 ^ k + b := by
  intro k
  induction k with
  | zero =>
    intro a b hb
    have hb0 : b = 0 := by omega
    subst hb0
    simp
  | succ k ih =>
    intro a b hb
    have hp : a * 2 ^ (k+1) = 2 * (a * 2 ^ k) := by rw [Nat.pow_succ]; ring
    have h1 : a * 2 ^ (k+1) = 2 * (a * 2 ^ k) + 0 := by omega
    have h2 : b = 2 * (b / 2) + b % 2 := by omega
    calc a * 2 ^ (k+1) ||| b
        = (2 * (a * 2 ^ k) + 0) ||| (2 * (b / 2) + b % 2) := by rw [← h1, ← h2]
      _ = 2 * ((a * 2 ^ k) ||| (b / 2)) + (0 ||| b % 2) := lor_bits _ _ 0 _ (by omega) (by omega)
      _ = 2 * (a * 2 ^ k + b / 2) + b % 2 := by rw [ih a (b / 2) (by omega), Nat.zero_or]
      _ = a * 2 ^ (k+1) + b := by omega

theorem land_mul_pow (a b r k : Nat) (hr : r < 2 ^ k) :
    (a * 2 ^ k + r) &&& (b * 2 ^ k) = (a &&& b) * 2 ^ k := by
  apply Nat.eq_of_testBit_eq
  intro i
  have h0 : (b * 2 ^ k).testBit i = if i < k then false else b.testBit (i - k) := by
    have h := testBit_mul_pow_add b 0 k (Nat.two_pow_pos k) i
    rw [Nat.add_zero] at h
    rw [h]
    by_cases hik : i < k <;> simp [hik]
  have h1 : ((a &&& b) * 2 ^ k).testBit i = if i < k then false else (a &&& b).testBit (i - k) := by
    have h := testBit_mul_pow_add (a &&& b) 0 k (Nat.two_pow_pos k) i
    rw [Nat.add_zero] at h
    rw [h]
    by_cases hik : i < k <;> simp [hik]
  rw [Nat.testBit_and, testBit_mul_pow_add a r k hr, h0, h1]
  by_cases hik : i < k
  · simp [hik]
  · simp [hik, Nat.testBit_and]

theorem mkMove_data (f t fl : Nat) (hf : f < 64) (ht : t < 64) (hfl : fl < 16) :
    (mkMove f t fl).data = fl * 4096 + f * 64 + t := by
  unfold mkMove
  have e1 : fl <<< 12 = fl * 2 ^ 12 := Nat.shiftLeft_eq fl 12
  have e2 : f <<< 6 = f * 2 ^ 6 := Nat.shiftLeft_eq f 6
  have e3 : (fl * 2 ^ 12) ||| (f * 2 ^ 6) = fl * 2 ^ 12 + f * 2 ^ 6 := by
    exact or_mul_pow_add 12 fl (f * 2 ^ 6)
      (by rw [show (2:Nat) ^ 6 = 64 from rfl, show (2:Nat) ^ 12 = 4096 from rfl]; omega)
  have e4 : (fl * 2 ^ 12 + f * 2 ^ 6) ||| t = fl * 2 ^ 12 + f * 2 ^ 6 + t := by
    have h1 : fl * 2 ^ 12 + f * 2 ^ 6 = (fl * 2 ^ 6 + f) * 2 ^ 6 := by ring
    rw [h1, or_mul_pow_add 6 (fl * 2 ^ 6 + f) t (by norm_num; omega), ← h1]
  rw [e1, e2, e3, e4]
  have h12 : (2:Nat) ^ 12 = 4096 := rfl
  have h6 : (2:Nat) ^ 6 = 64 := rfl
  rw [h12, h6]
  have hlt : fl * 4096 + f * 64 + t < 2 ^ 16 := by norm_num; omega
  exact Nat.mod_eq_of_lt hlt

theorem getTo_mkMove (f t fl : Nat) (hf : f < 64) (ht : t < 64) (hfl : fl < 16) :
    (mkMove f t fl).getTo = t := by
  unfold Move.getTo
  rw [mkMove_data f t fl hf ht hfl]
  rw [show (0x3F : Nat) = 2 ^ 6 - 1 from rfl, land_mask_eq_mod]
  rw [show (2:Nat) ^ 6 = 64 from rfl]
  omega

theorem getFrom_mkMove (f t fl : Nat) (hf : f < 64) (ht : t < 64) (hfl : fl < 16) :
    (mkMove f t fl).getFrom = f := by
  unfold Move.getFrom
  rw [mkMove_data f t fl hf ht hfl]
  rw [Nat.shiftRight_eq_div_pow]
  rw [show (2:Nat) ^ 6 = 64 from rfl]
  have hdiv : (fl * 4096 + f * 64 + t) / 64 = fl * 64 + f := by omega
  rw [hdiv]
  rw [show (0x3F : Nat) = 2 ^ 6 - 1 from rfl, land_mask_eq_mod]
  rw [show (2:Nat) ^ 6 = 64 from rfl]
  omega

theorem getFlags_mkMove (f t fl : Nat) (hf : f < 64) (ht : t < 64) (hfl : fl < 16) :
    (mkMove f t fl).getFlags = fl := by
  unfold Move.getFlags
  rw [mkMove_data f t fl hf ht hfl]
  rw [Nat.shiftRight_eq_div_pow]
  rw [show (2:Nat) ^ 12 = 4096 from rfl]
  omega

theorem data_land_high_mkMove (f t fl mask : Nat) (hf : f < 64) (ht : t < 64) (hfl : fl < 16) :
    (mkMove f t fl).data &&& (mask <<< 12) = (fl &&& mask) <<< 12 := by
  rw [mkMove_data f t fl hf ht hfl]
  have e1 : mask <<< 12 = mask * 2 ^ 12 := Nat.shiftLeft_eq mask 12
  have e2 : (fl &&& mask) <<< 12 = (fl &&& mask) * 2 ^ 12 := Nat.shiftLeft_eq _ 12
  have e3 : fl * 4096 + f * 64 + t = fl * 2 ^ 12 + (f * 64 + t) := by
    rw [show (2:Nat) ^ 12 = 4096 from rfl]
    omega
  rw [e1, e2, e3, land_mul_pow fl mask (f * 64 + t) 12 (by norm_num; omega)]

theorem beq_shiftLeft12 (a b : Nat) : (a <<< 12 == b <<< 12) = (a == b) := by
  by_cases h : a = b
  · subst h; simp
  · have hne : a <<< 12 ≠ b <<< 12 := by
      rw [Nat.shiftLeft_eq, Nat.shiftLeft_eq, show (2:Nat) ^ 12 = 4096 from rfl]
      omega
    simp [h, hne]

theorem land15_self (fl : Nat) (hfl : fl < 16) : fl &&& 15 = fl := by
  rw [show (15:Nat) = 2 ^ 4 - 1 from rfl, land_mask_eq_mod]
  omega

theorem flags15_mkMove (f t fl v : Nat) (hf : f < 64) (ht : t < 64) (hfl : fl < 16) :
    ((mkMove f t fl).data &&& (0b1111 <<< 12) == (v <<< 12)) = (fl == v) := by
  rw [data_land_high_mkMove f t fl 15 hf ht hfl, land15_self fl hfl, beq_shiftLeft12]

theorem isQuietMove_mkMove (f t fl : Nat) (hf : f < 64) (ht : t < 64) (hfl : fl < 16) :
    (mkMove f t fl).isQuietMove = (fl == 0) :=
  flags15_mkMove f t fl 0 hf ht hfl

theorem isDoublePawnPush_mkMove (f t fl : Nat) (hf : f < 64) (ht : t < 64) (hfl : fl < 16) :
    (mkMove f t fl).isDoublePawnPush = (fl == 1) :=
  flags15_mkMove f t fl 1 hf ht hfl

theorem isEnPassant_mkMove (f t fl : Nat) (hf : f < 64) (ht : t < 64) (hfl : fl < 16) :
    (mkMove f t fl).isEnPassant = (fl == 5) :=
  flags15_mkMove f t fl 5 hf ht hfl

theorem isKingsideCastle_mkMove (f t fl : Nat) (hf : f < 64) (ht : t < 64) (hfl : fl < 16) :
    (mkMove f t fl).isKingsideCastle = (fl == 2) :=
  flags15_mkMove f t fl 2 hf ht hfl

theorem isQueensideCastle_mkMove (f t fl : Nat) (hf : f < 64) (ht : t < 64) (hfl : fl < 16) :
    (mkMove f t fl).isQueensideCastle = (fl == 3) :=
  flags15_mkMove f t fl 3 hf ht hfl

theorem isCastle_mkMove (f t fl : Nat) (hf : f < 64) (ht : t < 64) (hfl : fl < 16) :
    (mkMove f t fl).isCastle = (fl &&& 14 == 2) := by
  unfold Move.isCastle
  rw [show (0b111:Nat) <<< 13 = 14 <<< 12 from rfl, show (0b001:Nat) <<< 13 = 2 <<< 12 from rfl]
  rw [data_land_high_mkMove f t fl 14 hf ht hfl, beq_shiftLeft12]

theorem isCapture_mkMove (f t fl : Nat) (hf : f < 64) (ht : t < 64) (hfl : fl < 16) :
    (mkMove f t fl).isCapture = (fl &&& 4 != 0) := by
  unfold Move.isCapture
  rw [data_land_high_mkMove f t fl 4 hf ht hfl]
  rcases (by decide : ∀ x < 16, x &&& 4 = 0 ∨ x &&& 4 = 4) fl hfl with h | h <;> rw [h] <;> rfl

theorem isPromotion_mkMove (f t fl : Nat) (hf : f < 64) (ht : t < 64) (hfl : fl < 16) :
    (mkMove f t fl).isPromotion = (fl &&& 8 == 8) := by
  unfold Move.isPromotion
  rw [show (0b1:Nat) <<< 15 = 8 <<< 12 from rfl]
  rw [data_land_high_mkMove f t fl 8 hf ht hfl, beq_shiftLeft12]

theorem promotionPieceType_mkMove (f t fl : Nat) (hf : f < 64) (ht : t < 64) (hfl : fl < 16) :
    (mkMove f t fl).promotionPieceType = (fl &&& 3) + 1 := by
  unfold Move.promotionPieceType
  have hg : (mkMove f t fl).data >>> 12 = fl := getFlags_mkMove f t fl hf ht hfl
  rw [hg]

/-! ### Color-parametric helpers (utils.hpp)

The source's `forwardSquare`/`doubleForwardSquare` use `int` arithmetic;
for Black they are modelled with truncated `Nat` subtraction (every use in
the source applies them to squares for which the subtraction does not
underflow). -/

def forward (c : Color) (bitboard : Nat) : Nat :=
  match c with
  | Color.White => u64 (bitboard <<< 8)
  | Color.Black => bitboard >>> 8

def forwardSquare (c : Color) (square : Nat) : Nat :=
  match c with
  | Color.White => square + 8
  | Color.Black => square - 8

def doubleForward (c : Color) (bitboard : Nat) : Nat :=
  match c with
  | Color.White => u64 (bitboard <<< 16)
  | Color.Black => bitboard >>> 16

def doubleForwardSquare (c : Color) (square : Nat) : Nat :=
  match c with
  | Color.White => square + 16
  | Color.Black => square - 16

def pawnStartingRank (c : Color) : Nat :=
  match c with
  | Color.White => rank2
  | Color.Black => rank7

def pawnLastRank (c : Color) : Nat :=
  match c with
  | Color.White => rank7
  | Color.Black => rank2

def pawnEnPassantRank (c : Color) : Nat :=
  match c with
  | Color.White => rank5
  | Color.Black => rank4

def toSquare (bitboard : Nat) : Nat := ctz bitboard

def kingsideCastleFlagOf (c : Color) : Nat :=
  match c with
  | Color.White => whiteKingsideFlag
  | Color.Black => blackKingsideFlag

def queensideCastleFlagOf (c : Color) : Nat :=
  match c with
  | Color.White => whiteQueensideFlag
  | Color.Black => blackQueensideFlag

def kingsideCastleRookFromSquare (c : Color) : Nat :=
  match c with
  | Color.White => 7
  | Color.Black => 63

def queensideCastleRookFromSquare (c : Color) : Nat :=
  match c with
  | Color.White => 0
  | Color.Black => 56

def kingsideCastleRookToSquare (c : Color) : Nat :=
  match c with
  | Color.White => 5
  | Color.Black => 61

def queensideCastleRookToSquare (c : Color) : Nat :=
  match c with
  | Color.White => 3
  | Color.Black => 59

def initialKingSquare (c : Color) : Nat :=
  match c with
  | Color.White => 4
  | Color.Black => 60

def kingsideCastleKingToSquare (c : Color) : Nat :=
  match c with
  | Color.White => 6
  | Color.Black => 62

def queensideCastleKingToSquare (c : Color) : Nat :=
  match c with
  | Color.White => 2
  | Color.Black => 58

/-- Source comment: the two squares must not be equal (and `greater > lesser`). -/
def squaresBetween (greater lesser : Nat) : Nat := (1 <<< greater) - (2 <<< lesser)

def squaresBetweenUnordered (a b : Nat) : Nat :=
  if a > b then squaresBetween a b else squaresBetween b a

/-! ### Attack tables (lookup.hpp)

`knightAttack`/`kingAttack` are the 64-entry constant tables; each entry is
the shift-and-mask expression the source's `constexpr` initializer computes
for that square, so the table lookup is modelled by evaluating that
expression directly.

The slider tables are PEXT bitboards: `rookAttacks[(from << 12) +
pext(occ, rookBlocker[from])]` is filled by `init` with
`detail::rookAttack(from, pdep(j, rookBlocker[from]))` for every packed
blocker configuration `j`.  Since `pdep(pext(occ, m), m) = occ &&& m`, the
lookup returns exactly `detail::rookAttack(from, occ &&& rookBlocker[from])`,
which is how it is modelled here (`detail::rookAttack` is the ray-walking
loop below).  Each `while` loop in `detail::rookAttack`/`detail::bishopAttack`
runs at most 7 iterations (the single-bit cursor reaches the board edge, is
masked out by the edge rank/file, or is shifted out of the 64-bit word), so
fuel 8 makes the fueled loop exact. -/

def knightAttack (sq : Nat) : Nat :=
  let spot := 1 <<< sq
  u64 ((spot &&& compl64 (rank7 ||| rank8 ||| fileH)) <<< 17) |||
  u64 ((spot &&& compl64 (rank7 ||| rank8 ||| fileA)) <<< 15) |||
  ((spot &&& compl64 (rank1 ||| rank2 ||| fileA)) >>> 17) |||
  ((spot &&& compl64 (rank1 ||| rank2 ||| fileH)) >>> 15) |||
  u64 ((spot &&& compl64 (rank8 ||| fileG ||| fileH)) <<< 10) |||
  u64 ((spot &&& compl64 (rank8 ||| fileA ||| fileB)) <<< 6) |||
  ((spot &&& compl64 (rank1 ||| fileA ||| fileB)) >>> 10) |||
  ((spot &&& compl64 (rank1 ||| fileG ||| fileH)) >>> 6)

def kingAttack (sq : Nat) : Nat :=
  let spot := 1 <<< sq
  u64 ((spot &&& compl64 (rank8 ||| fileH)) <<< 9) |||
  u64 ((spot &&& compl64 (rank8 ||| fileA)) <<< 7) |||
  ((spot &&& compl64 (rank1 ||| fileA)) >>> 9) |||
  ((spot &&& compl64 (rank1 ||| fileH)) >>> 7) |||
  u64 ((spot &&& compl64 fileH) <<< 1) |||
  ((spot &&& compl64 fileA) >>> 1) |||
  u64 ((spot &&& compl64 rank8) <<< 8) |||
  ((spot &&& compl64 rank1) >>> 8)

def rookBlockerTable : List Nat := [
  0x000101010101017E, 0x000202020202027C, 0x000404040404047A, 0x0008080808080876,
  0x001010101010106E, 0x002020202020205E, 0x004040404040403E, 0x008080808080807E,
  0x0001010101017E00, 0x0002020202027C00, 0x0004040404047A00, 0x0008080808087600,
  0x0010101010106E00, 0x0020202020205E00, 0x0040404040403E00, 0x0080808080807E00,
  0x00010101017E0100, 0x00020202027C0200, 0x00040404047A0400, 0x0008080808760800,
  0x00101010106E1000, 0x00202020205E2000, 0x00404040403E4000, 0x00808080807E8000,
  0x000101017E010100, 0x000202027C020200, 0x000404047A040400, 0x0008080876080800,
  0x001010106E101000, 0x002020205E202000, 0x004040403E404000, 0x008080807E808000,
  0x0001017E01010100, 0x0002027C02020200, 0x0004047A04040400, 0x0008087608080800,
  0x0010106E10101000, 0x0020205E20202000, 0x0040403E40404000, 0x0080807E80808000,
  0x00017E0101010100, 0x00027C0202020200, 0x00047A0404040400, 0x0008760808080800,
  0x00106E1010101000, 0x00205E2020202000, 0x00403E4040404000, 0x00807E8080808000,
  0x007E010101010100, 0x007C020202020200, 0x007A040404040400, 0x0076080808080800,
  0x006E101010101000, 0x005E202020202000, 0x003E404040404000, 0x007E808080808000,
  0x7E01010101010100, 0x7C02020202020200, 0x7A04040404040400, 0x7608080808080800,
  0x6E10101010101000, 0x5E20202020202000, 0x3E40404040404000, 0x7E80808080808000]

def bishopBlockerTable : List Nat := [
  0x0040201008040200, 0x0000402010080400, 0x0000004020100A00, 0x0000000040221400,
  0x0000000002442800, 0x0000000204085000, 0x0000020408102000, 0x0002040810204000,
  0x0020100804020000, 0x0040201008040000, 0x00004020100A0000, 0x0000004022140000,
  0x0000000244280000, 0x0000020408500000, 0x0002040810200000, 0x0004081020400000,
  0x0010080402000200, 0x0020100804000400, 0x004020100A000A00, 0x0000402214001400,
  0x0000024428002800, 0x0002040850005000, 0x0004081020002000, 0x0008102040004000,
  0x0008040200020400, 0x0010080400040800, 0x0020100A000A1000, 0x0040221400142200,
  0x0002442800284400, 0x0004085000500800, 0x0008102000201000, 0x0010204000402000,
  0x0004020002040800, 0x0008040004081000, 0x00100A000A102000, 0x0022140014224000,
  0x0044280028440200, 0x0008500050080400, 0x0010200020100800, 0x0020400040201000,
  0x0002000204081000, 0x0004000408102000, 0x000A000A10204000, 0x0014001422400000,
  0x0028002844020000, 0x0050005008040200, 0x0020002010080400, 0x0040004020100800,
  0x0000020408102000, 0x0000040810204000, 0x00000A1020400000, 0x0000142240000000,
  0x0000284402000000, 0x0000500804020000, 0x0000201008040200, 0x0000402010080400,
  0x0002040810204000, 0x0004081020400000, 0x000A102040000000, 0x0014224000000000,
  0x0028440200000000, 0x0050080402000000, 0x0020100804020000, 0x0040201008040200]

/-- Model of one ray-walking `while` loop from `detail::rookAttack` /
`detail::bishopAttack`: while the cursor is neither on the stopping edge
mask nor on an occupied square, advance it with `shift` and accumulate. -/
def rayAcc (shift : Nat → Nat) (edge occ : Nat) : Nat → Nat → Nat → Nat
  | 0, _, acc => acc
  | fuel+1, cur, acc =>
    if cur &&& compl64 (edge ||| occ) ≠ 0 then
      let cur2 := shift cur
      rayAcc shift edge occ fuel cur2 (acc ||| cur2)
    else acc

def detailRookAttack (fromSq occupied : Nat) : Nat :=
  let spot := 1 <<< fromSq
  let mask :=
    rayAcc (fun x => u64 (x <<< 8)) rank8 occupied 8 spot 0 |||
    rayAcc (fun x => x >>> 8) rank1 occupied 8 spot 0 |||
    rayAcc (fun x => u64 (x <<< 1)) fileH occupied 8 spot 0 |||
    rayAcc (fun x => x >>> 1) fileA occupied 8 spot 0
  mask &&& compl64 spot

def detailBishopAttack (fromSq occupied : Nat) : Nat :=
  let spot := 1 <<< fromSq
  let mask :=
    rayAcc (fun x => u64 (x <<< 9)) (rank8 ||| fileH) occupied 8 spot 0 |||
    rayAcc (fun x => u64 (x <<< 7)) (rank8 ||| fileA) occupied 8 spot 0 |||
    rayAcc (fun x => x >>> 9) (rank1 ||| fileA) occupied 8 spot 0 |||
    rayAcc (fun x => x >>> 7) (rank1 ||| fileH) occupied 8 spot 0
  mask &&& compl64 spot

def rookAttack (fromSq occupied : Nat) : Nat :=
  detailRookAttack fromSq (occupied &&& rookBlockerTable.getD fromSq 0)

def bishopAttack (fromSq occupied : Nat) : Nat :=
  detailBishopAttack fromSq (occupied &&& bishopBlockerTable.getD fromSq 0)

def queenAttack (fromSq occupied : Nat) : Nat :=
  bishopAttack fromSq occupied ||| rookAttack fromSq occupied

/-! List access helpers (the C++ arrays are modelled as lists). -/

theorem getD_set_self {α : Type} (l : List α) (i : Nat) (v d : α) (h : i < l.length) :
    (l.set i v).getD i d = v := by
  rw [List.getD_eq_getElem?_getD, List.getElem?_set_self h]
  rfl

theorem getD_set_ne {α : Type} (l : List α) (i j : Nat) (v d : α) (h : i ≠ j) :
    (l.set i v).getD j d = l.getD j d := by
  rw [List.getD_eq_getElem?_getD, List.getElem?_set_ne h, ← List.getD_eq_getElem?_getD]

theorem set_set_self {α : Type} (l : List α) (i : Nat) (v w : α) :
    (l.set i v).set i w = l.set i w :=
  List.set_set v w l i

/-! ### Board (board.hpp)

Fourteen piece bitboards (two of them permanently-zero padding), two
per-color occupancy bitboards, a total-occupancy bitboard and a 64-entry
mailbox.  The three mutation primitives below are the only board-changing
operations in the source. -/

structure Board where
  bitboards : List Nat
  colorOccupancy : List Nat
  occupied : Nat
  mailbox : List Nat
deriving DecidableEq, Repr

def emptyBoard : Board :=
  { bitboards := List.replicate 14 0
    colorOccupancy := [0, 0]
    occupied := 0
    mailbox := List.replicate 64 pieceNone }

namespace Board

def pawns (b : Board) (c : Color) : Nat :=
  match c with
  | Color.White => b.bitboards.getD 0 0
  | Color.Black => b.bitboards.getD 8 0

def knights (b : Board) (c : Color) : Nat :=
  match c with
  | Color.White => b.bitboards.getD 1 0
  | Color.Black => b.bitboards.getD 9 0

def bishops (b : Board) (c : Color) : Nat :=
  match c with
  | Color.White => b.bitboards.getD 2 0
  | Color.Black => b.bitboards.getD 10 0

def rooks (b : Board) (c : Color) : Nat :=
  match c with
  | Color.White => b.bitboards.getD 3 0
  | Color.Black => b.bitboards.getD 11 0

def queens (b : Board) (c : Color) : Nat :=
  match c with
  | Color.White => b.bitboards.getD 4 0
  | Color.Black => b.bitboards.getD 12 0

def kings (b : Board) (c : Color) : Nat :=
  match c with
  | Color.White => b.bitboards.getD 5 0
  | Color.Black => b.bitboards.getD 13 0

def occupancy (b : Board) (c : Color) : Nat := b.colorOccupancy.getD (colorVal c) 0

def pieceAt (b : Board) (square : Nat) : Nat := b.mailbox.getD square pieceNone

def pieceBitboard (b : Board) (piece : Nat) : Nat := b.bitboards.getD piece 0

def putPiece (b : Board) (piece square : Nat) : Board :=
  let mask := 1 <<< square
  { bitboards := b.bitboards.set piece (b.bitboards.getD piece 0 ||| mask)
    occupied := b.occupied ||| mask
    colorOccupancy := b.colorOccupancy.set (getPieceColorVal piece)
      (b.colorOccupancy.getD (getPieceColorVal piece) 0 ||| mask)
    mailbox := b.mailbox.set square piece }

def removePiece (b : Board) (square : Nat) : Board :=
  let piece := b.mailbox.getD square pieceNone
  let mask := 1 <<< square
  { bitboards := b.bitboards.set piece (b.bitboards.getD piece 0 ^^^ mask)
    occupied := b.occupied ^^^ mask
    colorOccupancy := b.colorOccupancy.set (getPieceColorVal piece)
      (b.colorOccupancy.getD (getPieceColorVal piece) 0 ^^^ mask)
    mailbox := b.mailbox.set square pieceNone }

def movePiece (b : Board) (fromSq toSq : Nat) : Board :=
  let piece := b.mailbox.getD fromSq pieceNone
  let mask := (1 <<< fromSq) ||| (1 <<< toSq)
  { bitboards := b.bitboards.set piece (b.bitboards.getD piece 0 ^^^ mask)
    occupied := b.occupied ^^^ mask
    colorOccupancy := b.colorOccupancy.set (getPieceColorVal piece)
      (b.colorOccupancy.getD (getPieceColorVal piece) 0 ^^^ mask)
    mailbox := (b.mailbox.set toSq piece).set fromSq pieceNone }

end Board

/-- Valid piece encodings: `{0..5} ∪ {8..13}` (low three bits a piece type,
bit 3 the color; 6, 7 and everything above 13 excluded). -/
def ValidPiece (p : Nat) : Prop := p < 14 ∧ p &&& 7 < 6

instance (p : Nat) : Decidable (ValidPiece p) := by
  unfold ValidPiece
  infer_instance

/-- Summary invariant of a `Board` (spec §3 "Board"): the mailbox describes
exactly the twelve piece bitboards, and the per-color occupancies and the
total occupancy are the unions of the corresponding piece bitboards. -/
def BoardWF (b : Board) : Prop :=
  b.bitboards.length = 14 ∧
  b.colorOccupancy.length = 2 ∧
  b.mailbox.length = 64 ∧
  b.bitboards.getD 6 0 = 0 ∧
  b.bitboards.getD 7 0 = 0 ∧
  (∀ p, p < 14 → b.bitboards.getD p 0 < U64) ∧
  (∀ sq, sq < 64 → b.pieceAt sq = pieceNone ∨ ValidPiece (b.pieceAt sq)) ∧
  (∀ p, p < 14 → ∀ sq, sq < 64 →
    (b.bitboards.getD p 0).testBit sq = decide (b.pieceAt sq = p)) ∧
  b.colorOccupancy.getD 0 0 =
    (b.bitboards.getD 0 0 ||| b.bitboards.getD 1 0 ||| b.bitboards.getD 2 0 |||
     b.bitboards.getD 3 0 ||| b.bitboards.getD 4 0 ||| b.bitboards.getD 5 0) ∧
  b.colorOccupancy.getD 1 0 =
    (b.bitboards.getD 8 0 ||| b.bitboards.getD 9 0 ||| b.bitboards.getD 10 0 |||
     b.bitboards.getD 11 0 ||| b.bitboards.getD 12 0 ||| b.bitboards.getD 13 0) ∧
  b.occupied = (b.colorOccupancy.getD 0 0 ||| b.colorOccupancy.getD 1 0)

instance (b : Board) : Decidable (BoardWF b) := by
  unfold BoardWF
  infer_instance

/-! ### Zobrist tables (zobrist.hpp)

`zobrist::init` seeds `PRNG rng(1070372)` and draws, in order: 12 × 64
piece-square keys (pieces in enumeration order WP..WK, BP..BK, squares
A1..H8), 8 en-passant file keys, 16 castling keys, then `side` and
`noPawns`.  `rand64` updates the state with the xorshift `scramble` below
and returns `state * 2685821657736338717` (mod `2 ^ 64`).  `seedGo` is the
n-fold iteration of `scramble` written so that the intermediate state is
forced at every step (the `match` on the new state); `seedAt_succ` proves
it satisfies exactly the step relation of the source's sequential
`rand64` calls, and `randAt n` is therefore the n-th value `rand64`
returns (1-indexed). -/

def scramble (s : Nat) : Nat :=
  let s1 := s ^^^ (s >>> 12)
  let s2 := s1 ^^^ u64 (s1 <<< 25)
  s2 ^^^ (s2 >>> 27)

def seedGo : Nat → Nat → Nat
  | 0, s => s
  | n+1, s =>
    match scramble s with
    | 0 => seedGo n 0
    | t+1 => seedGo n (t+1)

def seedAt (n : Nat) : Nat := seedGo n 1070372

def randAt (n : Nat) : Nat := u64 (seedAt n * 2685821657736338717)

theorem seedGo_step (n s : Nat) : seedGo (n+1) s = seedGo n (scramble s) := by
  show (match scramble s with
        | 0 => seedGo n 0
        | t+1 => seedGo n (t+1)) = seedGo n (scramble s)
  rcases scramble s with _ | t <;> rfl

theorem seedAt_zero : seedAt 0 = 1070372 := rfl

theorem seedAt_succ (n : Nat) : seedAt (n+1) = scramble (seedAt n) := by
  have key : ∀ m s, seedGo (m+1) s = scramble (seedGo m s) := by
    intro m
    induction m with
    | zero => intro s; rw [seedGo_step]; rfl
    | succ k ih => intro s; rw [seedGo_step, ih, seedGo_step]
  exact key n 1070372

/-- Position of a piece value in the iteration order of `zobrist::init`
(WP, WN, WB, WR, WQ, WK, BP, BN, BB, BR, BQ, BK). -/
def pieceIterIndex (p : Nat) : Nat := if p < 6 then p else p - 2

def zPieceSquare (p sq : Nat) : Nat := randAt (pieceIterIndex p * 64 + sq + 1)

def zEnPassant (file : Nat) : Nat := randAt (768 + file + 1)

def zCastling (cr : Nat) : Nat := randAt (776 + cr + 1)

def zSide : Nat := randAt 793

/-! ### Game (game.hpp) -/

structure UndoInfo where
  halfMoveCounter : Nat
  capturedPiece : Nat
  castlingRights : Nat
  enPassantSquare : Nat
deriving DecidableEq, Repr

structure Game where
  board : Board
  turn : Color
  history : List Nat
  hash : Nat
  castlingRights : Nat
  enPassantSquare : Nat
  halfMoveCounter : Nat
  ply : Nat
deriving DecidableEq, Repr

namespace Game

def zobristHash (g : Game) : Nat := g.history.getD g.ply 0

/-- Source: `return halfMoveCounter() > 99;`. -/
def draw50MoveRule (g : Game) : Bool := decide (g.halfMoveCounter > 99)

/-- Model of `Game::setupIncrementalState`: recompute the Zobrist hash of
the current position from scratch and store it at `m_history[m_ply]`. -/
def setupIncrementalState (g : Game) : Game :=
  let hash0 := (bitIndices g.board.occupied).foldl
    (fun h sq => h ^^^ zPieceSquare (g.board.pieceAt sq) sq) 0
  let hash1 := if g.turn = Color.Black then hash0 ^^^ zSide else hash0
  let hash2 := if g.enPassantSquare ≠ squareNone
    then hash1 ^^^ zEnPassant (fileOf g.enPassantSquare) else hash1
  let hash3 := hash2 ^^^ zCastling g.castlingRights
  { g with hash := hash3, history := g.history.set g.ply hash3 }

end Game

/-! FEN ingestion (`Game::init`).  The source walks the string with a raw
pointer; here each field parser consumes a `List Char` and returns the
rest.  The eight digit cases of the placement `switch` are collapsed into
one arithmetic case, `col + (ch - '0')`, which agrees with them
case-by-case. -/

def fenPieceOf (ch : Char) : Nat :=
  if ch = 'P' then 0 else if ch = 'N' then 1 else if ch = 'B' then 2
  else if ch = 'R' then 3 else if ch = 'Q' then 4 else if ch = 'K' then 5
  else if ch = 'p' then 8 else if ch = 'n' then 9 else if ch = 'b' then 10
  else if ch = 'r' then 11 else if ch = 'q' then 12 else if ch = 'k' then 13
  else pieceNone

def fenPlacement : List Char → Nat → Nat → Board → Board × List Char
  | [], _, _, b => (b, [])
  | ch :: rest, row, col, b =>
    if ch = ' ' then (b, rest)
    else
      let square := col + row * 8
      if '1' ≤ ch ∧ ch ≤ '8' then
        fenPlacement rest row (col + (ch.toNat - 48)) b
      else if ch = '/' then
        fenPlacement rest (row - 1) 0 b
      else if fenPieceOf ch ≠ pieceNone then
        fenPlacement rest row (col + 1) (b.putPiece (fenPieceOf ch) square)
      else
        fenPlacement rest row col b

def fenTurn : List Char → Color × List Char
  | [] => (Color.White, [])
  | ch :: rest => ((if ch = 'w' then Color.White else Color.Black), rest.drop 1)

def fenCastling : List Char → Nat → Nat × List Char
  | [], cr => (cr, [])
  | ch :: rest, cr =>
    if ch = ' ' then (cr, rest)
    else
      let cr2 :=
        if ch = 'K' then cr ||| whiteKingsideFlag
        else if ch = 'Q' then cr ||| whiteQueensideFlag
        else if ch = 'k' then cr ||| blackKingsideFlag
        else if ch = 'q' then cr ||| blackQueensideFlag
        else cr
      fenCastling rest cr2

def fenEnPassant : List Char → Nat × List Char
  | [] => (squareNone, [])
  | '-' :: rest => (squareNone, rest.drop 1)
  | c1 :: c2 :: rest => ((c1.toNat - 97) + (c2.toNat - 49) * 8, rest.drop 1)
  | _ :: rest => (squareNone, rest)

def fenNumber : List Char → Nat → Nat × List Char
  | [], acc => (acc, [])
  | ch :: rest, acc =>
    if ch = ' ' then (acc, rest)
    else fenNumber rest (acc * 10 + (ch.toNat - 48))

def Game.init (fen : List Char) : Game :=
  let pr := fenPlacement fen 7 0 emptyBoard
  let tr := fenTurn pr.2
  let cr := fenCastling tr.2 0
  let er := fenEnPassant cr.2
  let hr := fenNumber er.2 0
  let fr := fenNumber hr.2 0
  Game.setupIncrementalState
    { board := pr.1
      turn := tr.1
      history := List.replicate 512 0
      hash := 0
      castlingRights := cr.1
      enPassantSquare := er.1
      halfMoveCounter := hr.1
      ply := fr.1 * 2 + colorVal tr.1 }

def gameFromFEN (s : String) : Game := Game.init s.toList

/-! ### Make / unmake (game.hpp) -/

def Game.make (c : Color) (g : Game) (m : Move) : Game × UndoInfo :=
  let fromSq := m.getFrom
  let toSq := m.getTo
  let pieceFrom := g.board.pieceAt fromSq
  let pieceTo := g.board.pieceAt toSq
  let undo : UndoInfo :=
    { halfMoveCounter := g.halfMoveCounter
      capturedPiece := m.capturedPiece c pieceTo
      castlingRights := g.castlingRights
      enPassantSquare := g.enPassantSquare % 256 }
  let ply1 := g.ply + 1
  let halfMove1 :=
    if pieceFrom = makePiece pawnType c ∨ m.isCapture then 0 else g.halfMoveCounter + 1
  let hash1 := g.hash ^^^ zSide
  let hash2 := if g.enPassantSquare ≠ squareNone
    then hash1 ^^^ zEnPassant (fileOf g.enPassantSquare) else hash1
  let ep1 := if m.isDoublePawnPush then m.doublePawnPushEnPassantSquare c else squareNone
  let hash3 := if ep1 ≠ squareNone then hash2 ^^^ zEnPassant (fileOf ep1) else hash2
  let hash4 := hash3 ^^^ zCastling g.castlingRights
  let cr1 :=
    if pieceFrom = makePiece kingType c then
      g.castlingRights &&& castlingNot (kingsideCastleFlagOf c ||| queensideCastleFlagOf c)
    else if pieceFrom = makePiece rookType c then
      (if fromSq = kingsideCastleRookFromSquare c then
        g.castlingRights &&& castlingNot (kingsideCastleFlagOf c)
      else if fromSq = queensideCastleRookFromSquare c then
        g.castlingRights &&& castlingNot (queensideCastleFlagOf c)
      else g.castlingRights)
    else g.castlingRights
  let cr2 :=
    if pieceTo = makePiece rookType (oppColor c) then
      (if toSq = kingsideCastleRookFromSquare (oppColor c) then
        cr1 &&& castlingNot (kingsideCastleFlagOf (oppColor c))
      else if toSq = queensideCastleRookFromSquare (oppColor c) then
        cr1 &&& castlingNot (queensideCastleFlagOf (oppColor c))
      else cr1)
    else cr1
  let hash5 := hash4 ^^^ zCastling cr2
  let captureDest := m.captureDestinationSquare c
  let hash6 := if m.isCapture
    then hash5 ^^^ zPieceSquare (g.board.pieceAt captureDest) captureDest else hash5
  let board1 := if m.isCapture then g.board.removePiece captureDest else g.board
  let hash7 := if m.isPromotion
    then hash6 ^^^ zPieceSquare pieceFrom fromSq ^^^ zPieceSquare (m.promotionPiece c) toSq
    else hash6 ^^^ zPieceSquare pieceFrom fromSq ^^^ zPieceSquare pieceFrom toSq
  let board2 := if m.isPromotion
    then (board1.removePiece fromSq).putPiece (m.promotionPiece c) toSq
    else board1.movePiece fromSq toSq
  let hash8 :=
    if m.isKingsideCastle then
      hash7 ^^^ zPieceSquare (makePiece rookType c) (kingsideCastleRookFromSquare c)
            ^^^ zPieceSquare (makePiece rookType c) (kingsideCastleRookToSquare c)
    else if m.isQueensideCastle then
      hash7 ^^^ zPieceSquare (makePiece rookType c) (queensideCastleRookFromSquare c)
            ^^^ zPieceSquare (makePiece rookType c) (queensideCastleRookToSquare c)
    else hash7
  let board3 :=
    if m.isKingsideCastle then
      board2.movePiece (kingsideCastleRookFromSquare c) (kingsideCastleRookToSquare c)
    else if m.isQueensideCastle then
      board2.movePiece (queensideCastleRookFromSquare c) (queensideCastleRookToSquare c)
    else board2
  ({ board := board3
     turn := oppColor c
     history := g.history.set ply1 hash8
     hash := hash8
     castlingRights := cr2
     enPassantSquare := ep1
     halfMoveCounter := halfMove1
     ply := ply1 }, undo)

def Game.unmake (c : Color) (g : Game) (m : Move) (undo : UndoInfo) : Game :=
  let board1 := if m.isPromotion
    then (g.board.removePiece m.getTo).putPiece (makePiece pawnType c) m.getFrom
    else g.board.movePiece m.getTo m.getFrom
  let board2 :=
    if m.isCapture then
      board1.putPiece undo.capturedPiece (m.captureDestinationSquare c)
    else if m.isKingsideCastle then
      board1.movePiece (kingsideCastleRookToSquare c) (kingsideCastleRookFromSquare c)
    else if m.isQueensideCastle then
      board1.movePiece (queensideCastleRookToSquare c) (queensideCastleRookFromSquare c)
    else board1
  { board := board2
    turn := c
    history := g.history
    hash := g.hash
    castlingRights := undo.castlingRights
    enPassantSquare := undo.enPassantSquare
    halfMoveCounter := undo.halfMoveCounter
    ply := g.ply - 1 }

/-! ### Legal move generator (movegen.hpp)

`movegen::legalMoves` is a single template emitting to an arbitrary sink,
with an `if constexpr` fast path when the sink is a `MoveCounter`.  The
embedding splits the body into named per-mask definitions (one per local
bitboard variable of the source) shared by both sink instantiations:
`legalMovesList` is the collecting-sink instantiation (the emitted moves
in emission order) and `legalMoveCount` is the counting-sink
instantiation (the popcount-based fast path).  Loop accumulations are
modelled as sums/concatenations over `bitIndices`, the `popLSB`
iteration order. -/

def rightPawnAttack (c : Color) (pawns : Nat) : Nat :=
  u64 (forward c (pawns &&& compl64 fileH) <<< 1)

def leftPawnAttack (c : Color) (pawns : Nat) : Nat :=
  forward c (pawns &&& compl64 fileA) >>> 1

def reverseRightPawnAttack (c : Color) (rightBB : Nat) : Nat :=
  forward (oppColor c) (rightBB &&& compl64 fileA) >>> 1

def reverseLeftPawnAttack (c : Color) (leftBB : Nat) : Nat :=
  u64 (forward (oppColor c) (leftBB &&& compl64 fileH) <<< 1)

def computeCheckmask (c : Color) (g : Game) : Nat :=
  let board := g.board
  let king := board.kings c
  let square := toSquare king
  let enemyPawns := board.pawns (oppColor c)
  let enemyKnights := board.knights (oppColor c)
  let enemyBishops := board.bishops (oppColor c)
  let enemyRooks := board.rooks (oppColor c)
  let enemyQueens := board.queens (oppColor c)
  let cm0 : Nat := U64 - 1
  let rookAtt := rookAttack square board.occupied
  let checkerR := rookAtt &&& (enemyRooks ||| enemyQueens)
  let cm1 :=
    if checkerR ≠ 0 then
      if checkerR &&& (checkerR - 1) ≠ 0 then 0
      else cm0 &&& (rookAtt &&& (rookAttack (toSquare checkerR) board.occupied ||| checkerR))
    else cm0
  let bishopAtt := bishopAttack square board.occupied
  let checkerB := bishopAtt &&& (enemyBishops ||| enemyQueens)
  let cm2 :=
    if checkerB ≠ 0 then
      cm1 &&& (bishopAtt &&& (bishopAttack (toSquare checkerB) board.occupied ||| checkerB))
    else cm1
  let checkerN := knightAttack square &&& enemyKnights
  let cm3 := if checkerN ≠ 0 then cm2 &&& checkerN else cm2
  let pawnAtt := leftPawnAttack c king ||| rightPawnAttack c king
  let checkerP := pawnAtt &&& enemyPawns
  if checkerP ≠ 0 then cm3 &&& checkerP else cm3

def computeAttackedWithoutKing (c : Color) (g : Game) : Nat :=
  let board := g.board
  let king := board.kings c
  let pl := leftPawnAttack (oppColor c) (board.pawns (oppColor c))
  let pr := rightPawnAttack (oppColor c) (board.pawns (oppColor c))
  let banned1 := (pl ||| pr) ||| kingAttack (toSquare (board.kings (oppColor c)))
  let banned2 := (bitIndices (board.knights (oppColor c))).foldl
    (fun acc sq => acc ||| knightAttack sq) banned1
  let banned3 := (bitIndices (board.bishops (oppColor c) ||| board.queens (oppColor c))).foldl
    (fun acc sq => acc ||| bishopAttack sq (board.occupied ^^^ king)) banned2
  (bitIndices (board.rooks (oppColor c) ||| board.queens (oppColor c))).foldl
    (fun acc sq => acc ||| rookAttack sq (board.occupied ^^^ king)) banned3

def computeHorizontalVerticalPinmask (c : Color) (g : Game) : Nat :=
  let board := g.board
  let kingSquare := toSquare (board.kings c)
  let enemyRooks := board.rooks (oppColor c) ||| board.queens (oppColor c)
  let probe := rookAttack kingSquare board.occupied
  let potentiallyPinned := probe &&& board.occupancy c
  let xray := rookAttack kingSquare (board.occupied &&& compl64 potentiallyPinned)
  let pinners := xray &&& enemyRooks &&& compl64 probe
  (bitIndices pinners).foldl (fun pinmask pinnerSquare =>
    let pinnedPieceSpot := rookAttack pinnerSquare board.occupied &&& potentiallyPinned
    pinmask ||| ((rookAttack (toSquare pinnedPieceSpot) board.occupied ||| pinnedPieceSpot) &&& xray)) 0

def computeDiagonalPinmask (c : Color) (g : Game) : Nat :=
  let board := g.board
  let kingSquare := toSquare (board.kings c)
  let enemyBishops := board.bishops (oppColor c) ||| board.queens (oppColor c)
  let probe := bishopAttack kingSquare board.occupied
  let potentiallyPinned := probe &&& board.occupancy c
  let xray := bishopAttack kingSquare (board.occupied &&& compl64 potentiallyPinned)
  let pinners := xray &&& enemyBishops &&& compl64 probe
  (bitIndices pinners).foldl (fun pinmask pinnerSq =>
    let pinnedPieceSpot := bishopAttack pinnerSq board.occupied &&& potentiallyPinned
    pinmask ||| ((bishopAttack (toSquare pinnedPieceSpot) board.occupied ||| pinnedPieceSpot) &&& xray)) 0

def moveableMask (c : Color) (g : Game) : Nat :=
  compl64 (g.board.occupancy c) &&& computeCheckmask c g

/-! The local pawn bitboards of `legalMoves`, one definition per local
variable, in the order the source computes them. -/

def pawnsUHV (c : Color) (g : Game) : Nat :=
  g.board.pawns c &&& compl64 (computeHorizontalVerticalPinmask c g)

def pawnsUD (c : Color) (g : Game) : Nat :=
  g.board.pawns c &&& compl64 (computeDiagonalPinmask c g)

def quietMask0 (c : Color) (g : Game) : Nat :=
  pawnsUD c g &&& forward (oppColor c) (compl64 g.board.occupied)

def doublePushMask0 (c : Color) (g : Game) : Nat :=
  quietMask0 c g &&& pawnStartingRank c &&&
    doubleForward (oppColor c) (compl64 g.board.occupied &&& computeCheckmask c g)

def leftCaptureMask0 (c : Color) (g : Game) : Nat :=
  pawnsUHV c g &&&
    reverseLeftPawnAttack c (g.board.occupancy (oppColor c) &&& computeCheckmask c g)

def rightCaptureMask0 (c : Color) (g : Game) : Nat :=
  pawnsUHV c g &&&
    reverseRightPawnAttack c (g.board.occupancy (oppColor c) &&& computeCheckmask c g)

def quietMask1 (c : Color) (g : Game) : Nat :=
  quietMask0 c g &&& forward (oppColor c) (computeCheckmask c g)

def quietMask (c : Color) (g : Game) : Nat :=
  let pinHV := computeHorizontalVerticalPinmask c g
  (quietMask1 c g &&& pinHV &&& forward (oppColor c) pinHV) |||
  (quietMask1 c g &&& compl64 pinHV)

def doublePushMask (c : Color) (g : Game) : Nat :=
  let pinHV := computeHorizontalVerticalPinmask c g
  (doublePushMask0 c g &&& pinHV &&& doubleForward (oppColor c) pinHV) |||
  (doublePushMask0 c g &&& compl64 pinHV)

def leftCaptureMask (c : Color) (g : Game) : Nat :=
  let pinD := computeDiagonalPinmask c g
  (leftCaptureMask0 c g &&& pinD &&& reverseLeftPawnAttack c pinD) |||
  (leftCaptureMask0 c g &&& compl64 pinD)

def rightCaptureMask (c : Color) (g : Game) : Nat :=
  let pinD := computeDiagonalPinmask c g
  (rightCaptureMask0 c g &&& pinD &&& reverseRightPawnAttack c pinD) |||
  (rightCaptureMask0 c g &&& compl64 pinD)

def quietPromotionMask (c : Color) (g : Game) : Nat := quietMask c g &&& pawnLastRank c

def leftCapturePromotionMask (c : Color) (g : Game) : Nat :=
  leftCaptureMask c g &&& pawnLastRank c

def rightCapturePromotionMask (c : Color) (g : Game) : Nat :=
  rightCaptureMask c g &&& pawnLastRank c

def quietFinalMask (c : Color) (g : Game) : Nat := quietMask c g &&& compl64 (pawnLastRank c)

def leftCaptureFinalMask (c : Color) (g : Game) : Nat :=
  leftCaptureMask c g &&& compl64 (pawnLastRank c)

def rightCaptureFinalMask (c : Color) (g : Game) : Nat :=
  rightCaptureMask c g &&& compl64 (pawnLastRank c)

/-! En-passant block of `legalMoves`. -/

def epSpotOf (g : Game) : Nat := 1 <<< g.enPassantSquare

def epTargetOf (c : Color) (g : Game) : Nat := forward (oppColor c) (epSpotOf g)

def epLeftMask0 (c : Color) (g : Game) : Nat :=
  pawnsUHV c g &&& compl64 fileA &&&
    u64 ((epTargetOf c g &&& computeCheckmask c g) <<< 1)

def epRightMask0 (c : Color) (g : Game) : Nat :=
  pawnsUHV c g &&& compl64 fileH &&&
    ((epTargetOf c g &&& computeCheckmask c g) >>> 1)

/-- The en-passant safety condition of the source (both branches): the
capture square is reachable, and either both pawns can capture or, with
both en-passant pawns removed and a pawn dropped on the en-passant square,
no enemy rook or queen attacks the king. -/
def epEmitCondition (c : Color) (g : Game) : Bool :=
  let leftEP := epLeftMask0 c g
  let rightEP := epRightMask0 c g
  ((leftEP ||| rightEP) != 0) &&
    ((leftEP != 0 && rightEP != 0) ||
      ((rookAttack (toSquare (g.board.kings c))
          (g.board.occupied ^^^ (leftEP ||| rightEP ||| epSpotOf g ||| epTargetOf c g)) &&&
        (g.board.rooks (oppColor c) ||| g.board.queens (oppColor c))) == 0))

def epLeftMask (c : Color) (g : Game) : Nat :=
  let pinD := computeDiagonalPinmask c g
  (epLeftMask0 c g &&& pinD &&& reverseLeftPawnAttack c pinD) |||
  (epLeftMask0 c g &&& compl64 pinD)

def epRightMask (c : Color) (g : Game) : Nat :=
  let pinD := computeDiagonalPinmask c g
  (epRightMask0 c g &&& pinD &&& reverseRightPawnAttack c pinD) |||
  (epRightMask0 c g &&& compl64 pinD)

def epMoves (c : Color) (g : Game) : List Move :=
  if g.enPassantSquare ≠ squareNone then
    if epEmitCondition c g then
      (if epLeftMask c g ≠ 0 then
        [mkMove (toSquare (epLeftMask c g)) g.enPassantSquare enPassantCaptureFlag] else []) ++
      (if epRightMask c g ≠ 0 then
        [mkMove (toSquare (epRightMask c g)) g.enPassantSquare enPassantCaptureFlag] else [])
    else []
  else []

def epCount (c : Color) (g : Game) : Nat :=
  if g.enPassantSquare ≠ squareNone then
    if epEmitCondition c g then
      (if epLeftMask c g ≠ 0 then 1 else 0) + (if epRightMask c g ≠ 0 then 1 else 0)
    else 0
  else 0

/-- Branchless capture-flag selection:
`((enemyOccupancy >> to) & 1) << 2`. -/
def captureFlagOf (c : Color) (g : Game) (toSq : Nat) : Nat :=
  ((g.board.occupancy (oppColor c) >>> toSq) &&& 1) <<< 2

def quietMoves (c : Color) (g : Game) : List Move :=
  (bitIndices (quietFinalMask c g)).map
    (fun fromSq => mkMove fromSq (forwardSquare c fromSq) quietMoveFlag)

def doublePushMoves (c : Color) (g : Game) : List Move :=
  (bitIndices (doublePushMask c g)).map
    (fun fromSq => mkMove fromSq (doubleForwardSquare c fromSq) doublePawnPushFlag)

def leftCaptureMoves (c : Color) (g : Game) : List Move :=
  (bitIndices (leftCaptureFinalMask c g)).map
    (fun fromSq => mkMove fromSq (forwardSquare c fromSq - 1) captureFlag)

def rightCaptureMoves (c : Color) (g : Game) : List Move :=
  (bitIndices (rightCaptureFinalMask c g)).map
    (fun fromSq => mkMove fromSq (forwardSquare c fromSq + 1) captureFlag)

/-- Promotion emission order of the source: Queen, Rook, Knight, Bishop. -/
def promotionBlock (fromSq toSq : Nat) : List Move :=
  [mkMove fromSq toSq queenPromotionFlag, mkMove fromSq toSq rookPromotionFlag,
   mkMove fromSq toSq knightPromotionFlag, mkMove fromSq toSq bishopPromotionFlag]

/-- Capture-promotion emission order of the source: Queen, Rook, Knight,
Bishop (with the capture bit set). -/
def promotionCaptureBlock (fromSq toSq : Nat) : List Move :=
  [mkMove fromSq toSq queenPromotionCaptureFlag, mkMove fromSq toSq rookPromotionCaptureFlag,
   mkMove fromSq toSq knightPromotionCaptureFlag, mkMove fromSq toSq bishopPromotionCaptureFlag]

def quietPromotionMoves (c : Color) (g : Game) : List Move :=
  (bitIndices (quietPromotionMask c g)).flatMap
    (fun fromSq => promotionBlock fromSq (forwardSquare c fromSq))

def leftCapturePromotionMoves (c : Color) (g : Game) : List Move :=
  (bitIndices (leftCapturePromotionMask c g)).flatMap
    (fun fromSq => promotionCaptureBlock fromSq (forwardSquare c fromSq - 1))

def rightCapturePromotionMoves (c : Color) (g : Game) : List Move :=
  (bitIndices (rightCapturePromotionMask c g)).flatMap
    (fun fromSq => promotionCaptureBlock fromSq (forwardSquare c fromSq + 1))

def unpinnedKnightsMask (c : Color) (g : Game) : Nat :=
  g.board.knights c &&&
    compl64 (computeHorizontalVerticalPinmask c g ||| computeDiagonalPinmask c g)

def knightLegalMask (c : Color) (g : Game) (fromSq : Nat) : Nat :=
  knightAttack fromSq &&& moveableMask c g

def knightMoves (c : Color) (g : Game) : List Move :=
  (bitIndices (unpinnedKnightsMask c g)).flatMap (fun fromSq =>
    (bitIndices (knightLegalMask c g fromSq)).map
      (fun toSq => mkMove fromSq toSq (captureFlagOf c g toSq)))

def bishopsQueensMask (c : Color) (g : Game) : Nat :=
  (g.board.bishops c ||| g.board.queens c) &&& compl64 (computeHorizontalVerticalPinmask c g)

def unpinnedBishopsMask (c : Color) (g : Game) : Nat :=
  bishopsQueensMask c g &&& compl64 (computeDiagonalPinmask c g)

def pinnedBishopsMask (c : Color) (g : Game) : Nat :=
  bishopsQueensMask c g &&& computeDiagonalPinmask c g

def bishopUnpinnedLegalMask (c : Color) (g : Game) (fromSq : Nat) : Nat :=
  bishopAttack fromSq g.board.occupied &&& moveableMask c g

def bishopPinnedLegalMask (c : Color) (g : Game) (fromSq : Nat) : Nat :=
  bishopAttack fromSq g.board.occupied &&& moveableMask c g &&& computeDiagonalPinmask c g

def bishopUnpinnedMoves (c : Color) (g : Game) : List Move :=
  (bitIndices (unpinnedBishopsMask c g)).flatMap (fun fromSq =>
    (bitIndices (bishopUnpinnedLegalMask c g fromSq)).map
      (fun toSq => mkMove fromSq toSq (captureFlagOf c g toSq)))

def bishopPinnedMoves (c : Color) (g : Game) : List Move :=
  (bitIndices (pinnedBishopsMask c g)).flatMap (fun fromSq =>
    (bitIndices (bishopPinnedLegalMask c g fromSq)).map
      (fun toSq => mkMove fromSq toSq (captureFlagOf c g toSq)))

def rooksQueensMask (c : Color) (g : Game) : Nat :=
  (g.board.rooks c ||| g.board.queens c) &&& compl64 (computeDiagonalPinmask c g)

def unpinnedRooksMask (c : Color) (g : Game) : Nat :=
  rooksQueensMask c g &&& compl64 (computeHorizontalVerticalPinmask c g)

def pinnedRooksMask (c : Color) (g : Game) : Nat :=
  rooksQueensMask c g &&& computeHorizontalVerticalPinmask c g

def rookUnpinnedLegalMask (c : Color) (g : Game) (fromSq : Nat) : Nat :=
  rookAttack fromSq g.board.occupied &&& moveableMask c g

def rookPinnedLegalMask (c : Color) (g : Game) (fromSq : Nat) : Nat :=
  rookAttack fromSq g.board.occupied &&& moveableMask c g &&&
    computeHorizontalVerticalPinmask c g

def rookUnpinnedMoves (c : Color) (g : Game) : List Move :=
  (bitIndices (unpinnedRooksMask c g)).flatMap (fun fromSq =>
    (bitIndices (rookUnpinnedLegalMask c g fromSq)).map
      (fun toSq => mkMove fromSq toSq (captureFlagOf c g toSq)))

def rookPinnedMoves (c : Color) (g : Game) : List Move :=
  (bitIndices (pinnedRooksMask c g)).flatMap (fun fromSq =>
    (bitIndices (rookPinnedLegalMask c g fromSq)).map
      (fun toSq => mkMove fromSq toSq (captureFlagOf c g toSq)))

def kingMovesMask (c : Color) (g : Game) : Nat :=
  compl64 (computeAttackedWithoutKing c g) &&& kingAttack (toSquare (g.board.kings c)) &&&
    compl64 (g.board.occupancy c)

def shouldUnoccupiedKingside (c : Color) : Nat :=
  squaresBetweenUnordered (kingsideCastleRookFromSquare c) (initialKingSquare c)

def shouldUnoccupiedQueenside (c : Color) : Nat :=
  squaresBetweenUnordered (queensideCastleRookFromSquare c) (initialKingSquare c)

def shouldNotAttackedKingside (c : Color) : Nat :=
  squaresBetweenUnordered (kingsideCastleKingToSquare c) (initialKingSquare c) |||
    (1 <<< kingsideCastleKingToSquare c) ||| (1 <<< initialKingSquare c)

def shouldNotAttackedQueenside (c : Color) : Nat :=
  squaresBetweenUnordered (queensideCastleKingToSquare c) (initialKingSquare c) |||
    (1 <<< queensideCastleKingToSquare c) ||| (1 <<< initialKingSquare c)

def castleKingsideCondition (c : Color) (g : Game) : Bool :=
  ((g.castlingRights &&& kingsideCastleFlagOf c) != 0) &&
  ((shouldUnoccupiedKingside c &&& g.board.occupied) == 0) &&
  ((shouldNotAttackedKingside c &&& computeAttackedWithoutKing c g) == 0)

def castleQueensideCondition (c : Color) (g : Game) : Bool :=
  ((g.castlingRights &&& queensideCastleFlagOf c) != 0) &&
  ((shouldUnoccupiedQueenside c &&& g.board.occupied) == 0) &&
  ((shouldNotAttackedQueenside c &&& computeAttackedWithoutKing c g) == 0)

def castleKingsideMoves (c : Color) (g : Game) : List Move :=
  if castleKingsideCondition c g then
    [mkMove (toSquare (g.board.kings c)) (toSquare (g.board.kings c) + 2) kingCastleFlag]
  else []

def castleQueensideMoves (c : Color) (g : Game) : List Move :=
  if castleQueensideCondition c g then
    [mkMove (toSquare (g.board.kings c)) (toSquare (g.board.kings c) - 2) queenCastleFlag]
  else []

def kingStepMoves (c : Color) (g : Game) : List Move :=
  (bitIndices (kingMovesMask c g)).map
    (fun toSq => mkMove (toSquare (g.board.kings c)) toSq (captureFlagOf c g toSq))

/-- The collecting-sink instantiation of `movegen::legalMoves`: every
emitted move, in emission order (en-passant first within the pawn block,
then the pawn loops, knights, bishops, rooks, castling, king steps). -/
def legalMovesList (c : Color) (g : Game) : List Move :=
  epMoves c g ++
  quietMoves c g ++ doublePushMoves c g ++
  leftCaptureMoves c g ++ rightCaptureMoves c g ++
  quietPromotionMoves c g ++ leftCapturePromotionMoves c g ++
  rightCapturePromotionMoves c g ++
  knightMoves c g ++
  bishopUnpinnedMoves c g ++ bishopPinnedMoves c g ++
  rookUnpinnedMoves c g ++ rookPinnedMoves c g ++
  castleKingsideMoves c g ++ castleQueensideMoves c g ++
  kingStepMoves c g

/-- The counting-sink instantiation of `movegen::legalMoves`
(`movegen::legalMoveCount`): pawn masks contribute popcounts, promotion
masks contribute `4 * popcount`, castling contributes 0 or 1, and the
per-piece loops add the popcount of each legal-destination mask. -/
def legalMoveCount (c : Color) (g : Game) : Nat :=
  (popcount (quietFinalMask c g) + popcount (doublePushMask c g) +
   popcount (leftCaptureFinalMask c g) + popcount (rightCaptureFinalMask c g) +
   4 * (popcount (quietPromotionMask c g) + popcount (leftCapturePromotionMask c g) +
        popcount (rightCapturePromotionMask c g))) +
  epCount c g +
  ((bitIndices (unpinnedKnightsMask c g)).map
    (fun fromSq => popcount (knightLegalMask c g fromSq))).sum +
  ((bitIndices (unpinnedBishopsMask c g)).map
    (fun fromSq => popcount (bishopUnpinnedLegalMask c g fromSq))).sum +
  ((bitIndices (pinnedBishopsMask c g)).map
    (fun fromSq => popcount (bishopPinnedLegalMask c g fromSq))).sum +
  ((bitIndices (unpinnedRooksMask c g)).map
    (fun fromSq => popcount (rookUnpinnedLegalMask c g fromSq))).sum +
  ((bitIndices (pinnedRooksMask c g)).map
    (fun fromSq => popcount (rookPinnedLegalMask c g fromSq))).sum +
  popcount (kingMovesMask c g) +
  (if castleKingsideCondition c g then 1 else 0) +
  (if castleQueensideCondition c g then 1 else 0)

/-! ### MoveList (movelist.hpp)

`StaticMoveList<MaxMoves>` is a fixed array plus a count;
`add` is `m_moves[m_count++] = move` with no capacity check.  The array
write is modelled by `List.set`, which leaves the list unchanged when the
index is out of bounds (the C++ write would be out of bounds there).
`MoveList = StaticMoveList<218>`. -/

structure StaticMoveList where
  moves : List Move
  count : Nat
deriving DecidableEq, Repr

def StaticMoveList.size (l : StaticMoveList) : Nat := l.count

def StaticMoveList.add (l : StaticMoveList) (m : Move) : StaticMoveList :=
  { moves := l.moves.set l.count m, count := l.count + 1 }

def moveListCapacity : Nat := 218

def emptyMoveList : StaticMoveList :=
  { moves := List.replicate moveListCapacity nullMove, count := 0 }

/-! ### Concrete positions used by the tests in the specification.

The spec quotes some FENs without the trailing halfmove/fullmove fields;
the canonical completions `0 1` are used (the source's parser requires all
six fields, and the two counters do not affect move generation). -/

def startGame : Game := gameFromFEN "rnbqkbnr/pppppppp/8/8/8/8/PPPPPPPP/RNBQKBNR w KQkq - 0 1"

def gameC4EP : Game := gameFromFEN "8/8/8/KPp4r/8/8/8/4k3 w - c6 0 1"

def gameC5Castle : Game := gameFromFEN "4k2r/8/8/8/8/8/8/4K3 b k - 0 1"

def gamePromoQuiet : Game := gameFromFEN "4k3/P7/8/8/8/8/8/4K3 w - - 0 1"

def gameEPLegal : Game := gameFromFEN "4k3/8/8/3pP3/8/8/8/4K3 w - d6 0 2"

/-! ### Claim theorems -/

/-- Claim C8: from the standard starting position with White to move, the
generator emits exactly 20 moves to the collecting sink, including e2e4
(a double pawn push) and g1f3 and not a1a3, and the counting sink
(`legalMoveCount`) returns 20 on the same position. -/
theorem claim_C8_start_position_twenty_moves :
    (legalMovesList Color.White startGame).length = 20 ∧
    mkMove 12 28 doublePawnPushFlag ∈ legalMovesList Color.White startGame ∧
    mkMove 6 21 quietMoveFlag ∈ legalMovesList Color.White startGame ∧
    (∀ m ∈ legalMovesList Color.White startGame, ¬(m.getFrom = 0 ∧ m.getTo = 16)) ∧
    legalMoveCount Color.White startGame = 20 := by
  decide

/-- Claim C9: `StaticMoveList::add` stores the move at index `size` and
increments the size, with no capacity check; for the 218-slot `MoveList`
the write lands in bounds exactly when the size before the call is below
218, and all other slots are unchanged. -/
theorem claim_C9_movelist_add (l : StaticMoveList) (m : Move)
    (hlen : l.moves.length = moveListCapacity) :
    (l.add m).count = l.count + 1 ∧
    (((l.add m).moves[l.count]? = some m) ↔ l.count < moveListCapacity) ∧
    (∀ i, i ≠ l.count → (l.add m).moves[i]? = l.moves[i]?) := by
  refine ⟨rfl, ?_, ?_⟩
  · unfold StaticMoveList.add
    simp only [List.getElem?_set, if_pos rfl, hlen]
    by_cases h : l.count < moveListCapacity
    · simp [h]
    · simp only [if_neg h]
      constructor
      · intro h0
        exact absurd h0 (by simp)
      · intro h0
        exact absurd h0 h
  · intro i hi
    unfold StaticMoveList.add
    exact List.getElem?_set_ne (fun h => hi h.symm)

theorem claim_C9_movelist_add_witness :
    emptyMoveList.moves.length = moveListCapacity ∧
    ((emptyMoveList.add (mkMove 12 28 doublePawnPushFlag)).count = 1 ∧
     (emptyMoveList.add (mkMove 12 28 doublePawnPushFlag)).moves[0]? =
        some (mkMove 12 28 doublePawnPushFlag)) := by
  refine ⟨by decide, ?_⟩
  have h := claim_C9_movelist_add emptyMoveList (mkMove 12 28 doublePawnPushFlag) (by decide)
  exact ⟨h.1, h.2.1.mpr (by decide)⟩

/-- Claim C10: `Game::draw50MoveRule` returns true exactly when the
halfmove clock exceeds 99 (at least 100 halfmoves since the last pawn
move or capture), and it depends on no other component of the game
state. -/
theorem claim_C10_draw50 (g : Game) :
    (g.draw50MoveRule = true ↔ g.halfMoveCounter > 99) ∧
    (∀ g' : Game, g.halfMoveCounter = g'.halfMoveCounter →
      g.draw50MoveRule = g'.draw50MoveRule) := by
  constructor
  · unfold Game.draw50MoveRule
    simp
  · intro g' h
    unfold Game.draw50MoveRule
    rw [h]

theorem claim_C10_draw50_witness :
    (startGame.draw50MoveRule = true ↔ startGame.halfMoveCounter > 99) ∧
    startGame.draw50MoveRule = startGame.draw50MoveRule :=
  ⟨(claim_C10_draw50 startGame).1,
   (claim_C10_draw50 startGame).2 startGame rfl⟩

/-! Length bookkeeping for the generator segments, used to equate the
counting-sink and collecting-sink instantiations. -/

theorem sum_map_const {α : Type} (l : List α) (k : Nat) :
    (l.map (fun _ => k)).sum = k * l.length := by
  induction l with
  | nil => simp
  | cons x xs ih => simp [ih]; ring

theorem length_segment_map (msk : Nat) (mk : Nat → Move) :
    ((bitIndices msk).map mk).length = popcount msk := by
  rw [List.length_map, length_bitIndices]

theorem length_segment_flatMap (outer : Nat) (msk : Nat → Nat) (mk : Nat → Nat → Move) :
    ((bitIndices outer).flatMap (fun f => (bitIndices (msk f)).map (mk f))).length =
      ((bitIndices outer).map (fun f => popcount (msk f))).sum := by
  induction bitIndices outer with
  | nil => rfl
  | cons x xs ih =>
    simp only [List.flatMap_cons, List.map_cons, List.length_append, List.sum_cons, ih,
      List.length_map, length_bitIndices]

theorem length_segment_promo (msk : Nat) (blk : Nat → List Move)
    (hblk : ∀ f, (blk f).length = 4) :
    ((bitIndices msk).flatMap blk).length = 4 * popcount msk := by
  rw [← length_bitIndices]
  induction bitIndices msk with
  | nil => rfl
  | cons x xs ih =>
    simp only [List.flatMap_cons, List.length_append, ih, hblk, List.length_cons]
    omega

theorem length_epMoves (c : Color) (g : Game) : (epMoves c g).length = epCount c g := by
  unfold epMoves epCount
  by_cases h1 : g.enPassantSquare ≠ squareNone
  · rw [if_pos h1, if_pos h1]
    by_cases h2 : epEmitCondition c g = true
    · rw [if_pos h2, if_pos h2, List.length_append]
      by_cases h3 : epLeftMask c g ≠ 0 <;> by_cases h4 : epRightMask c g ≠ 0 <;>
        simp [h3, h4]
    · rw [if_neg h2, if_neg h2]
      rfl
  · rw [if_neg h1, if_neg h1]
    rfl

/-- Claim C2: for every position and side to move, the count produced by
the counting-sink instantiation of the generator (`legalMoveCount`) equals
the number of moves the collecting-sink instantiation emits. -/
theorem claim_C2_count_equals_list_length (c : Color) (g : Game) :
    legalMoveCount c g = (legalMovesList c g).length := by
  have hep := length_epMoves c g
  have hq : (quietMoves c g).length = popcount (quietFinalMask c g) :=
    length_segment_map _ _
  have hdp : (doublePushMoves c g).length = popcount (doublePushMask c g) :=
    length_segment_map _ _
  have hlc : (leftCaptureMoves c g).length = popcount (leftCaptureFinalMask c g) :=
    length_segment_map _ _
  have hrc : (rightCaptureMoves c g).length = popcount (rightCaptureFinalMask c g) :=
    length_segment_map _ _
  have hqp : (quietPromotionMoves c g).length = 4 * popcount (quietPromotionMask c g) :=
    length_segment_promo _ _ (fun f => rfl)
  have hlcp : (leftCapturePromotionMoves c g).length =
      4 * popcount (leftCapturePromotionMask c g) :=
    length_segment_promo _ _ (fun f => rfl)
  have hrcp : (rightCapturePromotionMoves c g).length =
      4 * popcount (rightCapturePromotionMask c g) :=
    length_segment_promo _ _ (fun f => rfl)
  have hkn : (knightMoves c g).length =
      ((bitIndices (unpinnedKnightsMask c g)).map
        (fun fromSq => popcount (knightLegalMask c g fromSq))).sum :=
    length_segment_flatMap _ _ _
  have hbu : (bishopUnpinnedMoves c g).length =
      ((bitIndices (unpinnedBishopsMask c g)).map
        (fun fromSq => popcount (bishopUnpinnedLegalMask c g fromSq))).sum :=
    length_segment_flatMap _ _ _
  have hbp : (bishopPinnedMoves c g).length =
      ((bitIndices (pinnedBishopsMask c g)).map
        (fun fromSq => popcount (bishopPinnedLegalMask c g fromSq))).sum :=
    length_segment_flatMap _ _ _
  have hru : (rookUnpinnedMoves c g).length =
      ((bitIndices (unpinnedRooksMask c g)).map
        (fun fromSq => popcount (rookUnpinnedLegalMask c g fromSq))).sum :=
    length_segment_flatMap _ _ _
  have hrp : (rookPinnedMoves c g).length =
      ((bitIndices (pinnedRooksMask c g)).map
        (fun fromSq => popcount (rookPinnedLegalMask c g fromSq))).sum :=
    length_segment_flatMap _ _ _
  have hk : (kingStepMoves c g).length = popcount (kingMovesMask c g) :=
    length_segment_map _ _
  have hck : (castleKingsideMoves c g).length =
      (if castleKingsideCondition c g then 1 else 0) := by
    unfold castleKingsideMoves
    by_cases h : castleKingsideCondition c g = true <;> simp [h]
  have hcq : (castleQueensideMoves c g).length =
      (if castleQueensideCondition c g then 1 else 0) := by
    unfold castleQueensideMoves
    by_cases h : castleQueensideCondition c g = true <;> simp [h]
  unfold legalMoveCount legalMovesList
  simp only [List.length_append]
  omega

/-! Boundedness of the generator's bitboards.  `GameBounds` packages the
64-bit-ness of the board representation (automatic in C++ from the
`uint64_t` type, an explicit hypothesis in the `Nat` model) together with
the representable range of the en-passant `int`. -/

def GameBounds (g : Game) : Prop :=
  (∀ p, p < 14 → g.board.bitboards.getD p 0 < U64) ∧
  g.board.colorOccupancy.getD 0 0 < U64 ∧
  g.board.colorOccupancy.getD 1 0 < U64 ∧
  g.board.occupied < U64 ∧
  g.enPassantSquare ≤ 64

instance (g : Game) : Decidable (GameBounds g) := by
  unfold GameBounds
  infer_instance

theorem U64_eq : U64 = 2 ^ 64 := rfl

theorem u64_lt (x : Nat) : u64 x < U64 :=
  Nat.mod_lt x (by decide)

theorem or_lt_U64 {a b : Nat} (ha : a < U64) (hb : b < U64) : a ||| b < U64 :=
  Nat.or_lt_two_pow ha hb

theorem land_lt_U64_left {a b : Nat} (ha : a < U64) : a &&& b < U64 :=
  lt_of_le_of_lt Nat.and_le_left ha

theorem land_lt_U64_right {a b : Nat} (hb : b < U64) : a &&& b < U64 :=
  lt_of_le_of_lt Nat.and_le_right hb

theorem compl64_lt {a : Nat} (ha : a < U64) : compl64 a < U64 :=
  Nat.xor_lt_two_pow ha (by decide)

theorem shiftRight_lt_U64 {a : Nat} (ha : a < U64) (k : Nat) : a >>> k < U64 :=
  lt_of_le_of_lt (by rw [Nat.shiftRight_eq_div_pow]; exact Nat.div_le_self a (2 ^ k)) ha

theorem forward_lt (c : Color) {a : Nat} (ha : a < U64) : forward c a < U64 := by
  cases c
  · exact u64_lt _
  · exact shiftRight_lt_U64 ha 8

theorem doubleForward_lt (c : Color) {a : Nat} (ha : a < U64) : doubleForward c a < U64 := by
  cases c
  · exact u64_lt _
  · exact shiftRight_lt_U64 ha 16

theorem ctz_lt_64 {b : Nat} (hb : b < U64) : toSquare b < 64 := by
  rcases Nat.eq_zero_or_pos b with rfl | hpos
  · decide
  · have hmem : ctz b ∈ bitIndices b := by
      rw [bitIndices_rec b (by omega)]
      exact List.mem_cons_self _ _
    exact bitIndices_lt_64 b (ctz b) hb hmem

theorem one_shiftLeft_lt {sq : Nat} (h : sq < 64) : 1 <<< sq < U64 := by
  rw [Nat.shiftLeft_eq, U64_eq, Nat.one_mul]
  exact Nat.pow_lt_pow_right (by omega) h

theorem rayAcc_lt (shift : Nat → Nat) (edge occ : Nat)
    (hshift : ∀ x, x < U64 → shift x < U64) :
    ∀ fuel cur acc, cur < U64 → acc < U64 → rayAcc shift edge occ fuel cur acc < U64 := by
  intro fuel
  induction fuel with
  | zero => intro cur acc _ hacc; exact hacc
  | succ fuel ih =>
    intro cur acc hcur hacc
    unfold rayAcc
    by_cases h : cur &&& compl64 (edge ||| occ) ≠ 0
    · rw [if_pos h]
      exact ih (shift cur) (acc ||| shift cur) (hshift cur hcur)
        (or_lt_U64 hacc (hshift cur hcur))
    · rw [if_neg h]
      exact hacc

theorem detailRookAttack_lt (fromSq occ : Nat) (h : fromSq < 64) :
    detailRookAttack fromSq occ < U64 := by
  unfold detailRookAttack
  refine land_lt_U64_left ?_
  have hspot := one_shiftLeft_lt h
  refine or_lt_U64 (or_lt_U64 (or_lt_U64 ?_ ?_) ?_) ?_ <;>
    refine rayAcc_lt _ _ _ ?_ 8 _ 0 hspot (by decide)
  · intro x _; exact u64_lt _
  · intro x hx; exact shiftRight_lt_U64 hx 8
  · intro x _; exact u64_lt _
  · intro x hx; exact shiftRight_lt_U64 hx 1

theorem detailBishopAttack_lt (fromSq occ : Nat) (h : fromSq < 64) :
    detailBishopAttack fromSq occ < U64 := by
  unfold detailBishopAttack
  refine land_lt_U64_left ?_
  have hspot := one_shiftLeft_lt h
  refine or_lt_U64 (or_lt_U64 (or_lt_U64 ?_ ?_) ?_) ?_ <;>
    refine rayAcc_lt _ _ _ ?_ 8 _ 0 hspot (by decide)
  · intro x _; exact u64_lt _
  · intro x _; exact u64_lt _
  · intro x hx; exact shiftRight_lt_U64 hx 9
  · intro x hx; exact shiftRight_lt_U64 hx 7

theorem rookAttack_lt (fromSq occ : Nat) (h : fromSq < 64) : rookAttack fromSq occ < U64 :=
  detailRookAttack_lt fromSq _ h

theorem bishopAttack_lt (fromSq occ : Nat) (h : fromSq < 64) : bishopAttack fromSq occ < U64 :=
  detailBishopAttack_lt fromSq _ h

theorem knightAttack_lt (sq : Nat) (h : sq < 64) : knightAttack sq < U64 := by
  unfold knightAttack
  have hspot := one_shiftLeft_lt h
  refine or_lt_U64 (or_lt_U64 (or_lt_U64 (or_lt_U64 (or_lt_U64 (or_lt_U64 (or_lt_U64
    (u64_lt _) (u64_lt _)) ?_) ?_) (u64_lt _)) (u64_lt _)) ?_) ?_ <;>
    exact shiftRight_lt_U64 (land_lt_U64_left hspot) _

theorem kingAttack_lt (sq : Nat) (h : sq < 64) : kingAttack sq < U64 := by
  unfold kingAttack
  have hspot := one_shiftLeft_lt h
  refine or_lt_U64 (or_lt_U64 (or_lt_U64 (or_lt_U64 (or_lt_U64 (or_lt_U64 (or_lt_U64
    (u64_lt _) (u64_lt _)) ?_) ?_) (u64_lt _)) ?_) (u64_lt _)) ?_ <;>
    exact shiftRight_lt_U64 (land_lt_U64_left hspot) _

/-! Flag extraction for packed moves whose destination field may carry a
value up to 4095 (enough for every square expression the generator forms);
the high nibble of the packed data is still exactly the flag nibble. -/

theorem or_lt_4096 {a b : Nat} (ha : a < 4096) (hb : b < 4096) : a ||| b < 4096 := by
  have h := Nat.or_lt_two_pow
    (show a < 2 ^ 12 from by rw [show (2:Nat) ^ 12 = 4096 from rfl]; exact ha)
    (show b < 2 ^ 12 from by rw [show (2:Nat) ^ 12 = 4096 from rfl]; exact hb)
  rw [show (2:Nat) ^ 12 = 4096 from rfl] at h
  exact h

theorem shl6_lt_4096 {f : Nat} (hf : f < 64) : f <<< 6 < 4096 := by
  rw [Nat.shiftLeft_eq, show (2:Nat) ^ 6 = 64 from rfl]
  omega

theorem mkMove_data_or (f t fl : Nat) (hf : f < 64) (ht : t < 4096) (hfl : fl < 16) :
    (mkMove f t fl).data = fl * 4096 + ((f <<< 6) ||| t) := by
  unfold mkMove
  have hr : (f <<< 6) ||| t < 4096 := or_lt_4096 (shl6_lt_4096 hf) ht
  rw [Nat.lor_assoc]
  have e1 : fl <<< 12 = fl * 2 ^ 12 := Nat.shiftLeft_eq fl 12
  rw [e1, or_mul_pow_add 12 fl ((f <<< 6) ||| t) (by norm_num; omega)]
  rw [show (2:Nat) ^ 12 = 4096 from rfl]
  exact Nat.mod_eq_of_lt (by norm_num; omega)

theorem data_land_high_mkMove2 (f t fl mask : Nat) (hf : f < 64) (ht : t < 4096)
    (hfl : fl < 16) :
    (mkMove f t fl).data &&& (mask <<< 12) = (fl &&& mask) <<< 12 := by
  rw [mkMove_data_or f t fl hf ht hfl]
  have hr : (f <<< 6) ||| t < 4096 := or_lt_4096 (shl6_lt_4096 hf) ht
  have e1 : mask <<< 12 = mask * 2 ^ 12 := Nat.shiftLeft_eq mask 12
  have e2 : (fl &&& mask) <<< 12 = (fl &&& mask) * 2 ^ 12 := Nat.shiftLeft_eq _ 12
  have e3 : fl * 4096 + ((f <<< 6) ||| t) = fl * 2 ^ 12 + ((f <<< 6) ||| t) := by
    rw [show (2:Nat) ^ 12 = 4096 from rfl]
  rw [e1, e2, e3, land_mul_pow fl mask ((f <<< 6) ||| t) 12 (by norm_num; omega)]

theorem flags15_mkMove2 (f t fl v : Nat) (hf : f < 64) (ht : t < 4096) (hfl : fl < 16) :
    ((mkMove f t fl).data &&& (0b1111 <<< 12) == (v <<< 12)) = (fl == v) := by
  rw [data_land_high_mkMove2 f t fl 15 hf ht hfl, land15_self fl hfl, beq_shiftLeft12]

theorem isEnPassant_mkMove2 (f t fl : Nat) (hf : f < 64) (ht : t < 4096) (hfl : fl < 16) :
    (mkMove f t fl).isEnPassant = (fl == 5) :=
  flags15_mkMove2 f t fl 5 hf ht hfl

theorem isKingsideCastle_mkMove2 (f t fl : Nat) (hf : f < 64) (ht : t < 4096) (hfl : fl < 16) :
    (mkMove f t fl).isKingsideCastle = (fl == 2) :=
  flags15_mkMove2 f t fl 2 hf ht hfl

theorem isQueensideCastle_mkMove2 (f t fl : Nat) (hf : f < 64) (ht : t < 4096) (hfl : fl < 16) :
    (mkMove f t fl).isQueensideCastle = (fl == 3) :=
  flags15_mkMove2 f t fl 3 hf ht hfl

theorem isPromotion_mkMove2 (f t fl : Nat) (hf : f < 64) (ht : t < 4096) (hfl : fl < 16) :
    (mkMove f t fl).isPromotion = (fl &&& 8 == 8) := by
  unfold Move.isPromotion
  rw [show (0b1:Nat) <<< 15 = 8 <<< 12 from rfl]
  rw [data_land_high_mkMove2 f t fl 8 hf ht hfl, beq_shiftLeft12]

/-- The branchless capture flag is always 0 or 4. -/
theorem captureFlagOf_cases (c : Color) (g : Game) (toSq : Nat) :
    captureFlagOf c g toSq = 0 ∨ captureFlagOf c g toSq = 4 := by
  unfold captureFlagOf
  have h1 : (g.board.occupancy (oppColor c) >>> toSq) &&& 1 =
      (g.board.occupancy (oppColor c) >>> toSq) % 2 := by
    exact land_mask_eq_mod (g.board.occupancy (oppColor c) >>> toSq) 1
  rw [h1]
  rcases (by omega : (g.board.occupancy (oppColor c) >>> toSq) % 2 = 0 ∨
      (g.board.occupancy (oppColor c) >>> toSq) % 2 = 1) with h | h <;> rw [h]
  · left; rfl
  · right; rfl

/-! Bounds of the generator's from-square masks under `GameBounds`. -/

theorem pawns_lt (c : Color) (g : Game) (hb : GameBounds g) : g.board.pawns c < U64 := by
  cases c <;> exact hb.1 _ (by omega)

theorem knights_lt (c : Color) (g : Game) (hb : GameBounds g) : g.board.knights c < U64 := by
  cases c <;> exact hb.1 _ (by omega)

theorem bishops_lt (c : Color) (g : Game) (hb : GameBounds g) : g.board.bishops c < U64 := by
  cases c <;> exact hb.1 _ (by omega)

theorem rooks_lt (c : Color) (g : Game) (hb : GameBounds g) : g.board.rooks c < U64 := by
  cases c <;> exact hb.1 _ (by omega)

theorem queens_lt (c : Color) (g : Game) (hb : GameBounds g) : g.board.queens c < U64 := by
  cases c <;> exact hb.1 _ (by omega)

theorem kings_lt (c : Color) (g : Game) (hb : GameBounds g) : g.board.kings c < U64 := by
  cases c <;> exact hb.1 _ (by omega)

theorem pawnsUHV_lt (c : Color) (g : Game) (hb : GameBounds g) : pawnsUHV c g < U64 :=
  land_lt_U64_left (pawns_lt c g hb)

theorem pawnsUD_lt (c : Color) (g : Game) (hb : GameBounds g) : pawnsUD c g < U64 :=
  land_lt_U64_left (pawns_lt c g hb)

theorem quietMask0_lt (c : Color) (g : Game) (hb : GameBounds g) : quietMask0 c g < U64 :=
  land_lt_U64_left (pawnsUD_lt c g hb)

theorem quietMask1_lt (c : Color) (g : Game) (hb : GameBounds g) : quietMask1 c g < U64 :=
  land_lt_U64_left (quietMask0_lt c g hb)

theorem quietMask_lt (c : Color) (g : Game) (hb : GameBounds g) : quietMask c g < U64 :=
  or_lt_U64 (land_lt_U64_left (land_lt_U64_left (quietMask1_lt c g hb)))
    (land_lt_U64_left (quietMask1_lt c g hb))

theorem doublePushMask0_lt (c : Color) (g : Game) (hb : GameBounds g) :
    doublePushMask0 c g < U64 :=
  land_lt_U64_left (land_lt_U64_left (quietMask0_lt c g hb))

theorem doublePushMask_lt (c : Color) (g : Game) (hb : GameBounds g) :
    doublePushMask c g < U64 :=
  or_lt_U64 (land_lt_U64_left (land_lt_U64_left (doublePushMask0_lt c g hb)))
    (land_lt_U64_left (doublePushMask0_lt c g hb))

theorem leftCaptureMask0_lt (c : Color) (g : Game) (hb : GameBounds g) :
    leftCaptureMask0 c g < U64 :=
  land_lt_U64_left (pawnsUHV_lt c g hb)

theorem rightCaptureMask0_lt (c : Color) (g : Game) (hb : GameBounds g) :
    rightCaptureMask0 c g < U64 :=
  land_lt_U64_left (pawnsUHV_lt c g hb)

theorem leftCaptureMask_lt (c : Color) (g : Game) (hb : GameBounds g) :
    leftCaptureMask c g < U64 :=
  or_lt_U64 (land_lt_U64_left (land_lt_U64_left (leftCaptureMask0_lt c g hb)))
    (land_lt_U64_left (leftCaptureMask0_lt c g hb))

theorem rightCaptureMask_lt (c : Color) (g : Game) (hb : GameBounds g) :
    rightCaptureMask c g < U64 :=
  or_lt_U64 (land_lt_U64_left (land_lt_U64_left (rightCaptureMask0_lt c g hb)))
    (land_lt_U64_left (rightCaptureMask0_lt c g hb))

theorem quietFinalMask_lt (c : Color) (g : Game) (hb : GameBounds g) :
    quietFinalMask c g < U64 :=
  land_lt_U64_left (quietMask_lt c g hb)

theorem leftCaptureFinalMask_lt (c : Color) (g : Game) (hb : GameBounds g) :
    leftCaptureFinalMask c g < U64 :=
  land_lt_U64_left (leftCaptureMask_lt c g hb)

theorem rightCaptureFinalMask_lt (c : Color) (g : Game) (hb : GameBounds g) :
    rightCaptureFinalMask c g < U64 :=
  land_lt_U64_left (rightCaptureMask_lt c g hb)

theorem quietPromotionMask_lt (c : Color) (g : Game) (hb : GameBounds g) :
    quietPromotionMask c g < U64 :=
  land_lt_U64_left (quietMask_lt c g hb)

theorem leftCapturePromotionMask_lt (c : Color) (g : Game) (hb : GameBounds g) :
    leftCapturePromotionMask c g < U64 :=
  land_lt_U64_left (leftCaptureMask_lt c g hb)

theorem rightCapturePromotionMask_lt (c : Color) (g : Game) (hb : GameBounds g) :
    rightCapturePromotionMask c g < U64 :=
  land_lt_U64_left (rightCaptureMask_lt c g hb)

theorem epLeftMask0_lt (c : Color) (g : Game) (hb : GameBounds g) : epLeftMask0 c g < U64 :=
  land_lt_U64_left (land_lt_U64_left (pawnsUHV_lt c g hb))

theorem epRightMask0_lt (c : Color) (g : Game) (hb : GameBounds g) : epRightMask0 c g < U64 :=
  land_lt_U64_left (land_lt_U64_left (pawnsUHV_lt c g hb))

theorem epLeftMask_lt (c : Color) (g : Game) (hb : GameBounds g) : epLeftMask c g < U64 :=
  or_lt_U64 (land_lt_U64_left (land_lt_U64_left (epLeftMask0_lt c g hb)))
    (land_lt_U64_left (epLeftMask0_lt c g hb))

theorem epRightMask_lt (c : Color) (g : Game) (hb : GameBounds g) : epRightMask c g < U64 :=
  or_lt_U64 (land_lt_U64_left (land_lt_U64_left (epRightMask0_lt c g hb)))
    (land_lt_U64_left (epRightMask0_lt c g hb))

theorem unpinnedKnightsMask_lt (c : Color) (g : Game) (hb : GameBounds g) :
    unpinnedKnightsMask c g < U64 :=
  land_lt_U64_left (knights_lt c g hb)

theorem bishopsQueensMask_lt (c : Color) (g : Game) (hb : GameBounds g) :
    bishopsQueensMask c g < U64 :=
  land_lt_U64_left (or_lt_U64 (bishops_lt c g hb) (queens_lt c g hb))

theorem unpinnedBishopsMask_lt (c : Color) (g : Game) (hb : GameBounds g) :
    unpinnedBishopsMask c g < U64 :=
  land_lt_U64_left (bishopsQueensMask_lt c g hb)

theorem pinnedBishopsMask_lt (c : Color) (g : Game) (hb : GameBounds g) :
    pinnedBishopsMask c g < U64 :=
  land_lt_U64_left (bishopsQueensMask_lt c g hb)

theorem rooksQueensMask_lt (c : Color) (g : Game) (hb : GameBounds g) :
    rooksQueensMask c g < U64 :=
  land_lt_U64_left (or_lt_U64 (rooks_lt c g hb) (queens_lt c g hb))

theorem unpinnedRooksMask_lt (c : Color) (g : Game) (hb : GameBounds g) :
    unpinnedRooksMask c g < U64 :=
  land_lt_U64_left (rooksQueensMask_lt c g hb)

theorem pinnedRooksMask_lt (c : Color) (g : Game) (hb : GameBounds g) :
    pinnedRooksMask c g < U64 :=
  land_lt_U64_left (rooksQueensMask_lt c g hb)

theorem kingMovesMask_lt (c : Color) (g : Game) (hb : GameBounds g) :
    kingMovesMask c g < U64 :=
  land_lt_U64_left (land_lt_U64_right
    (kingAttack_lt _ (ctz_lt_64 (kings_lt c g hb))))

/-! Flag values of the moves each generator segment emits. -/

theorem mkMove_flag_profile (f t fl : Nat) (hf : f < 64) (ht : t < 4096) (hfl : fl < 16) :
    (mkMove f t fl).isEnPassant = (fl == 5) ∧
    (mkMove f t fl).isKingsideCastle = (fl == 2) ∧
    (mkMove f t fl).isQueensideCastle = (fl == 3) ∧
    (mkMove f t fl).isPromotion = (fl &&& 8 == 8) :=
  ⟨isEnPassant_mkMove2 f t fl hf ht hfl, isKingsideCastle_mkMove2 f t fl hf ht hfl,
   isQueensideCastle_mkMove2 f t fl hf ht hfl, isPromotion_mkMove2 f t fl hf ht hfl⟩

/-- Flag profile shared by the four scalar predicates: a move in a pawn,
knight, slider or king-step segment (flags 0, 1 or 4) is neither an
en-passant, nor a castle, nor a promotion. -/
theorem mkMove_not_special (f t fl : Nat) (hf : f < 64) (ht : t < 4096) (hfl : fl < 16)
    (h5 : fl ≠ 5) (h2 : fl ≠ 2) (h3 : fl ≠ 3) (h8 : fl &&& 8 = 0) :
    (mkMove f t fl).isEnPassant = false ∧ (mkMove f t fl).isKingsideCastle = false ∧
    (mkMove f t fl).isQueensideCastle = false ∧ (mkMove f t fl).isPromotion = false := by
  obtain ⟨e1, e2, e3, e4⟩ := mkMove_flag_profile f t fl hf ht hfl
  refine ⟨?_, ?_, ?_, ?_⟩
  · rw [e1]; simp [h5]
  · rw [e2]; simp [h2]
  · rw [e3]; simp [h3]
  · rw [e4, h8]; rfl

theorem forwardSquare_lt_80 (c : Color) (f : Nat) (hf : f < 64) :
    forwardSquare c f < 80 := by
  cases c
  · show f + 8 < 80
    omega
  · show f - 8 < 80
    omega

theorem doubleForwardSquare_lt_80 (c : Color) (f : Nat) (hf : f < 64) :
    doubleForwardSquare c f < 80 := by
  cases c
  · show f + 16 < 80
    omega
  · show f - 16 < 80
    omega

def NotSpecialSeg (l : List Move) : Prop :=
  ∀ m ∈ l, m.isEnPassant = false ∧ m.isKingsideCastle = false ∧
    m.isQueensideCastle = false ∧ m.isPromotion = false

theorem mapSeg_not_special {msk : Nat} (hmsk : msk < U64) (tf : Nat → Nat) (fl : Nat)
    (hfl : fl < 16) (h5 : fl ≠ 5) (h2 : fl ≠ 2) (h3 : fl ≠ 3) (h8 : fl &&& 8 = 0)
    (htf : ∀ f, f < 64 → tf f < 4096) :
    NotSpecialSeg ((bitIndices msk).map (fun f => mkMove f (tf f) fl)) := by
  intro m hm
  rcases List.mem_map.mp hm with ⟨f, hf, rfl⟩
  have hf64 := bitIndices_lt_64 _ f hmsk hf
  exact mkMove_not_special f (tf f) fl hf64 (htf f hf64) hfl h5 h2 h3 h8

theorem flatSeg_not_special (c : Color) (g : Game) {outer : Nat} (houter : outer < U64)
    {inner : Nat → Nat} (hinner : ∀ f, f < 64 → inner f < U64) :
    NotSpecialSeg ((bitIndices outer).flatMap (fun f => (bitIndices (inner f)).map
      (fun t => mkMove f t (captureFlagOf c g t)))) := by
  intro m hm
  rcases List.mem_flatMap.mp hm with ⟨f, hf, hm2⟩
  rcases List.mem_map.mp hm2 with ⟨t, ht, rfl⟩
  have hf64 := bitIndices_lt_64 _ f houter hf
  have ht64 := bitIndices_lt_64 _ t (hinner f hf64) ht
  rcases captureFlagOf_cases c g t with hfl | hfl <;> rw [hfl]
  · exact mkMove_not_special f t 0 hf64 (by omega) (by decide) (by decide) (by decide)
      (by decide) (by decide)
  · exact mkMove_not_special f t 4 hf64 (by omega) (by decide) (by decide) (by decide)
      (by decide) (by decide)

/-- Flag profile of a quiet-promotion block. -/
theorem promotionBlock_profile (f t : Nat) (hf : f < 64) (ht : t < 4096) :
    ∀ m ∈ promotionBlock f t,
      m.isPromotion = true ∧ m.isEnPassant = false ∧ m.isKingsideCastle = false ∧
        m.isQueensideCastle = false := by
  intro m hm
  rcases List.mem_cons.mp hm with rfl | hm
  · obtain ⟨e1, e2, e3, e4⟩ := mkMove_flag_profile f t queenPromotionFlag hf ht (by decide)
    exact ⟨by rw [e4]; rfl, by rw [e1]; rfl, by rw [e2]; rfl, by rw [e3]; rfl⟩
  rcases List.mem_cons.mp hm with rfl | hm
  · obtain ⟨e1, e2, e3, e4⟩ := mkMove_flag_profile f t rookPromotionFlag hf ht (by decide)
    exact ⟨by rw [e4]; rfl, by rw [e1]; rfl, by rw [e2]; rfl, by rw [e3]; rfl⟩
  rcases List.mem_cons.mp hm with rfl | hm
  · obtain ⟨e1, e2, e3, e4⟩ := mkMove_flag_profile f t knightPromotionFlag hf ht (by decide)
    exact ⟨by rw [e4]; rfl, by rw [e1]; rfl, by rw [e2]; rfl, by rw [e3]; rfl⟩
  rcases List.mem_cons.mp hm with rfl | hm
  · obtain ⟨e1, e2, e3, e4⟩ := mkMove_flag_profile f t bishopPromotionFlag hf ht (by decide)
    exact ⟨by rw [e4]; rfl, by rw [e1]; rfl, by rw [e2]; rfl, by rw [e3]; rfl⟩
  · exact absurd hm (List.not_mem_nil _)

/-- Flag profile of a capture-promotion block. -/
theorem promotionCaptureBlock_profile (f t : Nat) (hf : f < 64) (ht : t < 4096) :
    ∀ m ∈ promotionCaptureBlock f t,
      m.isPromotion = true ∧ m.isEnPassant = false ∧ m.isKingsideCastle = false ∧
        m.isQueensideCastle = false := by
  intro m hm
  rcases List.mem_cons.mp hm with rfl | hm
  · obtain ⟨e1, e2, e3, e4⟩ :=
      mkMove_flag_profile f t queenPromotionCaptureFlag hf ht (by decide)
    exact ⟨by rw [e4]; rfl, by rw [e1]; rfl, by rw [e2]; rfl, by rw [e3]; rfl⟩
  rcases List.mem_cons.mp hm with rfl | hm
  · obtain ⟨e1, e2, e3, e4⟩ :=
      mkMove_flag_profile f t rookPromotionCaptureFlag hf ht (by decide)
    exact ⟨by rw [e4]; rfl, by rw [e1]; rfl, by rw [e2]; rfl, by rw [e3]; rfl⟩
  rcases List.mem_cons.mp hm with rfl | hm
  · obtain ⟨e1, e2, e3, e4⟩ :=
      mkMove_flag_profile f t knightPromotionCaptureFlag hf ht (by decide)
    exact ⟨by rw [e4]; rfl, by rw [e1]; rfl, by rw [e2]; rfl, by rw [e3]; rfl⟩
  rcases List.mem_cons.mp hm with rfl | hm
  · obtain ⟨e1, e2, e3, e4⟩ :=
      mkMove_flag_profile f t bishopPromotionCaptureFlag hf ht (by decide)
    exact ⟨by rw [e4]; rfl, by rw [e1]; rfl, by rw [e2]; rfl, by rw [e3]; rfl⟩
  · exact absurd hm (List.not_mem_nil _)

theorem quietMoves_not_special (c : Color) (g : Game) (hb : GameBounds g) :
    NotSpecialSeg (quietMoves c g) :=
  mapSeg_not_special (quietFinalMask_lt c g hb) _ quietMoveFlag (by decide) (by decide)
    (by decide) (by decide) (by decide) (fun f hf => by have := forwardSquare_lt_80 c f hf; omega)

theorem doublePushMoves_not_special (c : Color) (g : Game) (hb : GameBounds g) :
    NotSpecialSeg (doublePushMoves c g) :=
  mapSeg_not_special (doublePushMask_lt c g hb) _ doublePawnPushFlag (by decide) (by decide)
    (by decide) (by decide) (by decide) (fun f hf => by have := doubleForwardSquare_lt_80 c f hf; omega)

theorem leftCaptureMoves_not_special (c : Color) (g : Game) (hb : GameBounds g) :
    NotSpecialSeg (leftCaptureMoves c g) :=
  mapSeg_not_special (leftCaptureFinalMask_lt c g hb) _ captureFlag (by decide) (by decide)
    (by decide) (by decide) (by decide)
    (fun f hf => by have := forwardSquare_lt_80 c f hf; omega)

theorem rightCaptureMoves_not_special (c : Color) (g : Game) (hb : GameBounds g) :
    NotSpecialSeg (rightCaptureMoves c g) :=
  mapSeg_not_special (rightCaptureFinalMask_lt c g hb) _ captureFlag (by decide) (by decide)
    (by decide) (by decide) (by decide)
    (fun f hf => by have := forwardSquare_lt_80 c f hf; omega)

theorem knightMoves_not_special (c : Color) (g : Game) (hb : GameBounds g) :
    NotSpecialSeg (knightMoves c g) :=
  flatSeg_not_special c g (unpinnedKnightsMask_lt c g hb)
    (fun f hf => land_lt_U64_left (knightAttack_lt f hf))

theorem bishopUnpinnedMoves_not_special (c : Color) (g : Game) (hb : GameBounds g) :
    NotSpecialSeg (bishopUnpinnedMoves c g) :=
  flatSeg_not_special c g (unpinnedBishopsMask_lt c g hb)
    (fun f hf => land_lt_U64_left (bishopAttack_lt f _ hf))

theorem bishopPinnedMoves_not_special (c : Color) (g : Game) (hb : GameBounds g) :
    NotSpecialSeg (bishopPinnedMoves c g) :=
  flatSeg_not_special c g (pinnedBishopsMask_lt c g hb)
    (fun f hf => land_lt_U64_left (land_lt_U64_left (bishopAttack_lt f _ hf)))

theorem rookUnpinnedMoves_not_special (c : Color) (g : Game) (hb : GameBounds g) :
    NotSpecialSeg (rookUnpinnedMoves c g) :=
  flatSeg_not_special c g (unpinnedRooksMask_lt c g hb)
    (fun f hf => land_lt_U64_left (rookAttack_lt f _ hf))

theorem rookPinnedMoves_not_special (c : Color) (g : Game) (hb : GameBounds g) :
    NotSpecialSeg (rookPinnedMoves c g) :=
  flatSeg_not_special c g (pinnedRooksMask_lt c g hb)
    (fun f hf => land_lt_U64_left (land_lt_U64_left (rookAttack_lt f _ hf)))

theorem kingStepMoves_not_special (c : Color) (g : Game) (hb : GameBounds g) :
    NotSpecialSeg (kingStepMoves c g) := by
  intro m hm
  rcases List.mem_map.mp hm with ⟨t, ht, rfl⟩
  have hk64 : toSquare (g.board.kings c) < 64 := ctz_lt_64 (kings_lt c g hb)
  have ht64 := bitIndices_lt_64 _ t (kingMovesMask_lt c g hb) ht
  rcases captureFlagOf_cases c g t with hfl | hfl <;> rw [hfl]
  · exact mkMove_not_special _ t 0 hk64 (by omega) (by decide) (by decide) (by decide)
      (by decide) (by decide)
  · exact mkMove_not_special _ t 4 hk64 (by omega) (by decide) (by decide) (by decide)
      (by decide) (by decide)

theorem quietPromotionMoves_profile (c : Color) (g : Game) (hb : GameBounds g) :
    ∀ m ∈ quietPromotionMoves c g,
      m.isPromotion = true ∧ m.isEnPassant = false ∧ m.isKingsideCastle = false ∧
        m.isQueensideCastle = false := by
  intro m hm
  rcases List.mem_flatMap.mp hm with ⟨f, hf, hm2⟩
  have hf64 := bitIndices_lt_64 _ f (quietPromotionMask_lt c g hb) hf
  exact promotionBlock_profile f _ hf64 (by have := forwardSquare_lt_80 c f hf64; omega) m hm2

theorem leftCapturePromotionMoves_profile (c : Color) (g : Game) (hb : GameBounds g) :
    ∀ m ∈ leftCapturePromotionMoves c g,
      m.isPromotion = true ∧ m.isEnPassant = false ∧ m.isKingsideCastle = false ∧
        m.isQueensideCastle = false := by
  intro m hm
  rcases List.mem_flatMap.mp hm with ⟨f, hf, hm2⟩
  have hf64 := bitIndices_lt_64 _ f (leftCapturePromotionMask_lt c g hb) hf
  exact promotionCaptureBlock_profile f _ hf64
    (by have := forwardSquare_lt_80 c f hf64; omega) m hm2

theorem rightCapturePromotionMoves_profile (c : Color) (g : Game) (hb : GameBounds g) :
    ∀ m ∈ rightCapturePromotionMoves c g,
      m.isPromotion = true ∧ m.isEnPassant = false ∧ m.isKingsideCastle = false ∧
        m.isQueensideCastle = false := by
  intro m hm
  rcases List.mem_flatMap.mp hm with ⟨f, hf, hm2⟩
  have hf64 := bitIndices_lt_64 _ f (rightCapturePromotionMask_lt c g hb) hf
  exact promotionCaptureBlock_profile f _ hf64
    (by have := forwardSquare_lt_80 c f hf64; omega) m hm2

theorem epMoves_profile (c : Color) (g : Game) (hb : GameBounds g) :
    ∀ m ∈ epMoves c g,
      m.isEnPassant = true ∧ m.isKingsideCastle = false ∧ m.isQueensideCastle = false ∧
        m.isPromotion = false ∧
        g.enPassantSquare ≠ squareNone ∧ epEmitCondition c g = true := by
  intro m hm
  unfold epMoves at hm
  by_cases h1 : g.enPassantSquare ≠ squareNone
  · rw [if_pos h1] at hm
    by_cases h2 : epEmitCondition c g = true
    · rw [if_pos h2] at hm
      have hep : g.enPassantSquare < 4096 := by
        have h64 := hb.2.2.2.2
        omega
      have hflag : ∀ f, f < 64 →
          (mkMove f g.enPassantSquare enPassantCaptureFlag).isEnPassant = true ∧
          (mkMove f g.enPassantSquare enPassantCaptureFlag).isKingsideCastle = false ∧
          (mkMove f g.enPassantSquare enPassantCaptureFlag).isQueensideCastle = false ∧
          (mkMove f g.enPassantSquare enPassantCaptureFlag).isPromotion = false := by
        intro f hf
        obtain ⟨e1, e2, e3, e4⟩ := mkMove_flag_profile f g.enPassantSquare
          enPassantCaptureFlag hf hep (by decide)
        exact ⟨by rw [e1]; rfl, by rw [e2]; rfl, by rw [e3]; rfl, by rw [e4]; rfl⟩
      rcases List.mem_append.mp hm with hml | hmr
      · by_cases h3 : epLeftMask c g ≠ 0
        · rw [if_pos h3] at hml
          rcases List.mem_cons.mp hml with rfl | habs
          · obtain ⟨e1, e2, e3, e4⟩ := hflag _ (ctz_lt_64 (epLeftMask_lt c g hb))
            exact ⟨e1, e2, e3, e4, h1, h2⟩
          · exact absurd habs (List.not_mem_nil _)
        · rw [if_neg h3] at hml
          exact absurd hml (List.not_mem_nil _)
      · by_cases h3 : epRightMask c g ≠ 0
        · rw [if_pos h3] at hmr
          rcases List.mem_cons.mp hmr with rfl | habs
          · obtain ⟨e1, e2, e3, e4⟩ := hflag _ (ctz_lt_64 (epRightMask_lt c g hb))
            exact ⟨e1, e2, e3, e4, h1, h2⟩
          · exact absurd habs (List.not_mem_nil _)
        · rw [if_neg h3] at hmr
          exact absurd hmr (List.not_mem_nil _)
    · rw [if_neg h2] at hm
      exact absurd hm (List.not_mem_nil _)
  · rw [if_neg h1] at hm
    exact absurd hm (List.not_mem_nil _)

theorem castleKingsideMoves_profile (c : Color) (g : Game) (hb : GameBounds g) :
    ∀ m ∈ castleKingsideMoves c g,
      m.isKingsideCastle = true ∧ m.isEnPassant = false ∧ m.isQueensideCastle = false ∧
        m.isPromotion = false ∧ castleKingsideCondition c g = true := by
  intro m hm
  unfold castleKingsideMoves at hm
  by_cases h : castleKingsideCondition c g = true
  · rw [if_pos h] at hm
    rcases List.mem_cons.mp hm with rfl | habs
    · have hk64 : toSquare (g.board.kings c) < 64 := ctz_lt_64 (kings_lt c g hb)
      obtain ⟨e1, e2, e3, e4⟩ := mkMove_flag_profile (toSquare (g.board.kings c))
        (toSquare (g.board.kings c) + 2) kingCastleFlag hk64 (by omega) (by decide)
      exact ⟨by rw [e2]; rfl, by rw [e1]; rfl, by rw [e3]; rfl, by rw [e4]; rfl, h⟩
    · exact absurd habs (List.not_mem_nil _)
  · rw [if_neg h] at hm
    exact absurd hm (List.not_mem_nil _)

theorem castleQueensideMoves_profile (c : Color) (g : Game) (hb : GameBounds g) :
    ∀ m ∈ castleQueensideMoves c g,
      m.isQueensideCastle = true ∧ m.isEnPassant = false ∧ m.isKingsideCastle = false ∧
        m.isPromotion = false ∧ castleQueensideCondition c g = true := by
  intro m hm
  unfold castleQueensideMoves at hm
  by_cases h : castleQueensideCondition c g = true
  · rw [if_pos h] at hm
    rcases List.mem_cons.mp hm with rfl | habs
    · have hk64 : toSquare (g.board.kings c) < 64 := ctz_lt_64 (kings_lt c g hb)
      obtain ⟨e1, e2, e3, e4⟩ := mkMove_flag_profile (toSquare (g.board.kings c))
        (toSquare (g.board.kings c) - 2) queenCastleFlag hk64 (by omega) (by decide)
      exact ⟨by rw [e3]; rfl, by rw [e1]; rfl, by rw [e2]; rfl, by rw [e4]; rfl, h⟩
    · exact absurd habs (List.not_mem_nil _)
  · rw [if_neg h] at hm
    exact absurd hm (List.not_mem_nil _)

/-! Membership in the full emission list, segment by segment. -/

theorem mem_legalMovesList (c : Color) (g : Game) (m : Move) :
    m ∈ legalMovesList c g ↔
      m ∈ epMoves c g ∨ m ∈ quietMoves c g ∨ m ∈ doublePushMoves c g ∨
      m ∈ leftCaptureMoves c g ∨ m ∈ rightCaptureMoves c g ∨
      m ∈ quietPromotionMoves c g ∨ m ∈ leftCapturePromotionMoves c g ∨
      m ∈ rightCapturePromotionMoves c g ∨ m ∈ knightMoves c g ∨
      m ∈ bishopUnpinnedMoves c g ∨ m ∈ bishopPinnedMoves c g ∨
      m ∈ rookUnpinnedMoves c g ∨ m ∈ rookPinnedMoves c g ∨
      m ∈ castleKingsideMoves c g ∨ m ∈ castleQueensideMoves c g ∨
      m ∈ kingStepMoves c g := by
  simp [legalMovesList, List.mem_append, or_assoc]

theorem bool_false_ne_true {b : Bool} (h : b = false) : ¬ b = true := by
  rw [h]
  exact Bool.false_ne_true

/-- Claim C4: an en-passant capture reaches the emitted list only when the
position's en-passant square is set and the source's dedicated safety
test (`epEmitCondition`: remove both pawns, drop a pawn on the en-passant
square, and check that no enemy rook or queen then attacks the king)
succeeds; when the test fails the capture is suppressed.  In particular,
in `8/8/8/KPp4r/8/8/8/4k3 w - c6 0 1` the en-passant square c6 is set but
the test fails and no en-passant move is emitted for White, while in
`4k3/8/8/3pP3/8/8/8/4K3 w - d6 0 2` the test succeeds and the capture
e5xd6 is emitted. -/
theorem claim_C4_en_passant_safety :
    (∀ (c : Color) (g : Game), GameBounds g → ∀ m ∈ legalMovesList c g,
        m.isEnPassant = true →
        g.enPassantSquare ≠ squareNone ∧ epEmitCondition c g = true) ∧
    gameC4EP.enPassantSquare = 42 ∧
    epEmitCondition Color.White gameC4EP = false ∧
    (legalMovesList Color.White gameC4EP).all (fun m => !m.isEnPassant) = true ∧
    epEmitCondition Color.White gameEPLegal = true ∧
    mkMove 36 43 enPassantCaptureFlag ∈ legalMovesList Color.White gameEPLegal := by
  refine ⟨?_, by decide, by decide, by decide, by decide, by decide⟩
  intro c g hb m hm hep
  rcases (mem_legalMovesList c g m).mp hm with h|h|h|h|h|h|h|h|h|h|h|h|h|h|h|h
  · obtain ⟨_, _, _, _, h1, h2⟩ := epMoves_profile c g hb m h
    exact ⟨h1, h2⟩
  · exact absurd hep (bool_false_ne_true (quietMoves_not_special c g hb m h).1)
  · exact absurd hep (bool_false_ne_true (doublePushMoves_not_special c g hb m h).1)
  · exact absurd hep (bool_false_ne_true (leftCaptureMoves_not_special c g hb m h).1)
  · exact absurd hep (bool_false_ne_true (rightCaptureMoves_not_special c g hb m h).1)
  · exact absurd hep (bool_false_ne_true (quietPromotionMoves_profile c g hb m h).2.1)
  · exact absurd hep (bool_false_ne_true (leftCapturePromotionMoves_profile c g hb m h).2.1)
  · exact absurd hep (bool_false_ne_true (rightCapturePromotionMoves_profile c g hb m h).2.1)
  · exact absurd hep (bool_false_ne_true (knightMoves_not_special c g hb m h).1)
  · exact absurd hep (bool_false_ne_true (bishopUnpinnedMoves_not_special c g hb m h).1)
  · exact absurd hep (bool_false_ne_true (bishopPinnedMoves_not_special c g hb m h).1)
  · exact absurd hep (bool_false_ne_true (rookUnpinnedMoves_not_special c g hb m h).1)
  · exact absurd hep (bool_false_ne_true (rookPinnedMoves_not_special c g hb m h).1)
  · exact absurd hep (bool_false_ne_true (castleKingsideMoves_profile c g hb m h).2.1)
  · exact absurd hep (bool_false_ne_true (castleQueensideMoves_profile c g hb m h).2.1)
  · exact absurd hep (bool_false_ne_true (kingStepMoves_not_special c g hb m h).1)

theorem castleKingsideCondition_iff (c : Color) (g : Game) :
    castleKingsideCondition c g = true ↔
      (g.castlingRights &&& kingsideCastleFlagOf c ≠ 0 ∧
       shouldUnoccupiedKingside c &&& g.board.occupied = 0 ∧
       shouldNotAttackedKingside c &&& computeAttackedWithoutKing c g = 0) := by
  unfold castleKingsideCondition
  simp [Bool.and_eq_true, bne_iff_ne, beq_iff_eq, and_assoc]

theorem castleQueensideCondition_iff (c : Color) (g : Game) :
    castleQueensideCondition c g = true ↔
      (g.castlingRights &&& queensideCastleFlagOf c ≠ 0 ∧
       shouldUnoccupiedQueenside c &&& g.board.occupied = 0 ∧
       shouldNotAttackedQueenside c &&& computeAttackedWithoutKing c g = 0) := by
  unfold castleQueensideCondition
  simp [Bool.and_eq_true, bne_iff_ne, beq_iff_eq, and_assoc]

/-- Claim C5: the generator emits a kingside (resp. queenside) castling
move exactly when (i) the corresponding castling right is present,
(ii) the squares strictly between the king's and rook's original squares
are empty, and (iii) every square the king traverses, including its start
and end squares, avoids the attacked (banned) mask.  In particular, from
`4k2r/8/8/8/8/8/8/4K3 b k -`, Black's emitted moves include e8g8 (squares
60 to 62) and contain no move from e8 to c8. -/
theorem claim_C5_castling :
    (∀ (c : Color) (g : Game), GameBounds g →
      (((∃ m, m ∈ legalMovesList c g ∧ m.isKingsideCastle = true) ↔
         (g.castlingRights &&& kingsideCastleFlagOf c ≠ 0 ∧
          shouldUnoccupiedKingside c &&& g.board.occupied = 0 ∧
          shouldNotAttackedKingside c &&& computeAttackedWithoutKing c g = 0)) ∧
       ((∃ m, m ∈ legalMovesList c g ∧ m.isQueensideCastle = true) ↔
         (g.castlingRights &&& queensideCastleFlagOf c ≠ 0 ∧
          shouldUnoccupiedQueenside c &&& g.board.occupied = 0 ∧
          shouldNotAttackedQueenside c &&& computeAttackedWithoutKing c g = 0)))) ∧
    mkMove 60 62 kingCastleFlag ∈ legalMovesList Color.Black gameC5Castle ∧
    (legalMovesList Color.Black gameC5Castle).all
      (fun m => !(m.getFrom == 60 && m.getTo == 58)) = true := by
  refine ⟨?_, by decide, by decide⟩
  intro c g hb
  have hk64 : toSquare (g.board.kings c) < 64 := ctz_lt_64 (kings_lt c g hb)
  constructor
  · constructor
    · rintro ⟨m, hm, hks⟩
      apply (castleKingsideCondition_iff c g).mp
      rcases (mem_legalMovesList c g m).mp hm with h|h|h|h|h|h|h|h|h|h|h|h|h|h|h|h
      · exact absurd hks (bool_false_ne_true (epMoves_profile c g hb m h).2.1)
      · exact absurd hks (bool_false_ne_true (quietMoves_not_special c g hb m h).2.1)
      · exact absurd hks (bool_false_ne_true (doublePushMoves_not_special c g hb m h).2.1)
      · exact absurd hks (bool_false_ne_true (leftCaptureMoves_not_special c g hb m h).2.1)
      · exact absurd hks (bool_false_ne_true (rightCaptureMoves_not_special c g hb m h).2.1)
      · exact absurd hks (bool_false_ne_true (quietPromotionMoves_profile c g hb m h).2.2.1)
      · exact absurd hks
          (bool_false_ne_true (leftCapturePromotionMoves_profile c g hb m h).2.2.1)
      · exact absurd hks
          (bool_false_ne_true (rightCapturePromotionMoves_profile c g hb m h).2.2.1)
      · exact absurd hks (bool_false_ne_true (knightMoves_not_special c g hb m h).2.1)
      · exact absurd hks (bool_false_ne_true (bishopUnpinnedMoves_not_special c g hb m h).2.1)
      · exact absurd hks (bool_false_ne_true (bishopPinnedMoves_not_special c g hb m h).2.1)
      · exact absurd hks (bool_false_ne_true (rookUnpinnedMoves_not_special c g hb m h).2.1)
      · exact absurd hks (bool_false_ne_true (rookPinnedMoves_not_special c g hb m h).2.1)
      · exact (castleKingsideMoves_profile c g hb m h).2.2.2.2
      · exact absurd hks (bool_false_ne_true (castleQueensideMoves_profile c g hb m h).2.2.1)
      · exact absurd hks (bool_false_ne_true (kingStepMoves_not_special c g hb m h).2.1)
    · intro hcond
      have hc : castleKingsideCondition c g = true := (castleKingsideCondition_iff c g).mpr hcond
      refine ⟨mkMove (toSquare (g.board.kings c)) (toSquare (g.board.kings c) + 2)
        kingCastleFlag, ?_, ?_⟩
      · apply (mem_legalMovesList c g _).mpr
        iterate 13 right
        left
        unfold castleKingsideMoves
        rw [if_pos hc]
        exact List.mem_singleton_self _
      · obtain ⟨e1, e2, e3, e4⟩ := mkMove_flag_profile (toSquare (g.board.kings c))
          (toSquare (g.board.kings c) + 2) kingCastleFlag hk64 (by omega) (by decide)
        rw [e2]
        rfl
  · constructor
    · rintro ⟨m, hm, hqs⟩
      apply (castleQueensideCondition_iff c g).mp
      rcases (mem_legalMovesList c g m).mp hm with h|h|h|h|h|h|h|h|h|h|h|h|h|h|h|h
      · exact absurd hqs (bool_false_ne_true (epMoves_profile c g hb m h).2.2.1)
      · exact absurd hqs (bool_false_ne_true (quietMoves_not_special c g hb m h).2.2.1)
      · exact absurd hqs (bool_false_ne_true (doublePushMoves_not_special c g hb m h).2.2.1)
      · exact absurd hqs (bool_false_ne_true (leftCaptureMoves_not_special c g hb m h).2.2.1)
      · exact absurd hqs (bool_false_ne_true (rightCaptureMoves_not_special c g hb m h).2.2.1)
      · exact absurd hqs (bool_false_ne_true (quietPromotionMoves_profile c g hb m h).2.2.2)
      · exact absurd hqs
          (bool_false_ne_true (leftCapturePromotionMoves_profile c g hb m h).2.2.2)
      · exact absurd hqs
          (bool_false_ne_true (rightCapturePromotionMoves_profile c g hb m h).2.2.2)
      · exact absurd hqs (bool_false_ne_true (knightMoves_not_special c g hb m h).2.2.1)
      · exact absurd hqs (bool_false_ne_true (bishopUnpinnedMoves_not_special c g hb m h).2.2.1)
      · exact absurd hqs (bool_false_ne_true (bishopPinnedMoves_not_special c g hb m h).2.2.1)
      · exact absurd hqs (bool_false_ne_true (rookUnpinnedMoves_not_special c g hb m h).2.2.1)
      · exact absurd hqs (bool_false_ne_true (rookPinnedMoves_not_special c g hb m h).2.2.1)
      · exact absurd hqs (bool_false_ne_true (castleKingsideMoves_profile c g hb m h).2.2.1)
      · exact (castleQueensideMoves_profile c g hb m h).2.2.2.2
      · exact absurd hqs (bool_false_ne_true (kingStepMoves_not_special c g hb m h).2.2.1)
    · intro hcond
      have hc : castleQueensideCondition c g = true :=
        (castleQueensideCondition_iff c g).mpr hcond
      refine ⟨mkMove (toSquare (g.board.kings c)) (toSquare (g.board.kings c) - 2)
        queenCastleFlag, ?_, ?_⟩
      · apply (mem_legalMovesList c g _).mpr
        iterate 14 right
        left
        unfold castleQueensideMoves
        rw [if_pos hc]
        exact List.mem_singleton_self _
      · obtain ⟨e1, e2, e3, e4⟩ := mkMove_flag_profile (toSquare (g.board.kings c))
          (toSquare (g.board.kings c) - 2) queenCastleFlag hk64 (by omega) (by decide)
        rw [e3]
        rfl

/-! Preservation of the board summary invariant by the three mutation
primitives (claim C6). -/

theorem testBit_one_shl (sq i : Nat) : (1 <<< sq).testBit i = decide (sq = i) := by
  rw [Nat.one_shiftLeft]
  rcases eq_or_ne sq i with h | h
  · subst h
    simp [Nat.testBit_two_pow_self]
  · simp [Nat.testBit_two_pow_of_ne h, h]

set_option maxHeartbeats 1600000 in
theorem putPiece_BoardWF (b : Board) (p sq : Nat) (hb : BoardWF b) (hp : ValidPiece p)
    (hsq : sq < 64) (hemp : b.pieceAt sq = pieceNone) : BoardWF (b.putPiece p sq) := by
  obtain ⟨hlen, hclen, hmlen, h6, h7, hbnd, hval, hcorr, hco0, hco1, hocc⟩ := hb
  obtain ⟨hp14, hp7⟩ := hp
  have hmod : p % 8 < 6 := by
    rw [show (7:Nat) = 2 ^ 3 - 1 from rfl, land_mask_eq_mod] at hp7
    exact hp7
  have hcv : getPieceColorVal p = p / 8 := by
    unfold getPieceColorVal
    rw [Nat.shiftRight_eq_div_pow]
  have hbset : ∀ j : Nat, ((b.putPiece p sq).bitboards).getD j 0 =
      if p = j then b.bitboards.getD p 0 ||| (1 <<< sq) else b.bitboards.getD j 0 := by
    intro j
    by_cases h : p = j
    · rw [if_pos h, ← h]
      simp only [Board.putPiece]
      exact getD_set_self _ _ _ _ (by rw [hlen]; exact hp14)
    · rw [if_neg h]
      simp only [Board.putPiece]
      exact getD_set_ne _ _ _ _ _ h
  have hcset : ∀ j : Nat, ((b.putPiece p sq).colorOccupancy).getD j 0 =
      if p / 8 = j then b.colorOccupancy.getD j 0 ||| (1 <<< sq)
      else b.colorOccupancy.getD j 0 := by
    intro j
    by_cases h : p / 8 = j
    · rw [if_pos h]
      simp only [Board.putPiece]
      rw [hcv, h]
      exact getD_set_self _ _ _ _ (by rw [hclen]; omega)
    · rw [if_neg h]
      simp only [Board.putPiece]
      rw [hcv]
      exact getD_set_ne _ _ _ _ _ h
  have hmset : ∀ s : Nat, (b.putPiece p sq).pieceAt s =
      if sq = s then p else b.pieceAt s := by
    intro s
    by_cases h : sq = s
    · rw [if_pos h, ← h]
      unfold Board.pieceAt
      simp only [Board.putPiece]
      exact getD_set_self _ _ _ _ (by rw [hmlen]; exact hsq)
    · rw [if_neg h]
      unfold Board.pieceAt
      simp only [Board.putPiece]
      exact getD_set_ne _ _ _ _ _ h
  have hoset : (b.putPiece p sq).occupied = b.occupied ||| (1 <<< sq) := by
    simp only [Board.putPiece]
  refine ⟨?_, ?_, ?_, ?_, ?_, ?_, ?_, ?_, ?_, ?_, ?_⟩
  · simp only [Board.putPiece, List.length_set]
    exact hlen
  · simp only [Board.putPiece, List.length_set]
    exact hclen
  · simp only [Board.putPiece, List.length_set]
    exact hmlen
  · rw [hbset 6, if_neg (by omega)]
    exact h6
  · rw [hbset 7, if_neg (by omega)]
    exact h7
  · intro q hq
    rw [hbset q]
    by_cases h : p = q
    · rw [if_pos h]
      exact or_lt_U64 (hbnd p hp14) (one_shiftLeft_lt hsq)
    · rw [if_neg h]
      exact hbnd q hq
  · intro s hs
    rw [hmset s]
    by_cases h : sq = s
    · rw [if_pos h]
      right
      exact ⟨hp14, hp7⟩
    · rw [if_neg h]
      exact hval s hs
  · intro q hq s hs
    rw [hbset q, hmset s]
    by_cases hqp : p = q
    · rw [if_pos hqp]
      by_cases hss : sq = s
      · rw [if_pos hss, ← hss]
        simp [Nat.testBit_or, testBit_one_shl, hqp]
      · rw [if_neg hss]
        rw [Nat.testBit_or, testBit_one_shl, hqp, hcorr q (hqp ▸ hp14) s hs]
        simp [hss]
    · rw [if_neg hqp]
      by_cases hss : sq = s
      · rw [if_pos hss, ← hss]
        rw [hcorr q hq sq hsq, hemp]
        have h1 : pieceNone ≠ q := by
          unfold pieceNone
          omega
        simp [h1, hqp]
      · rw [if_neg hss]
        exact hcorr q hq s hs
  · rw [hcset 0, hbset 0, hbset 1, hbset 2, hbset 3, hbset 4, hbset 5]
    by_cases hcv0 : p / 8 = 0
    · rw [if_pos hcv0, hco0]
      have hp6 : p < 6 := by omega
      interval_cases p <;>
        (apply Nat.eq_of_testBit_eq
         intro i
         simp [Nat.testBit_or, Bool.or_comm, Bool.or_assoc, Bool.or_left_comm])
    · rw [if_neg hcv0]
      have hp8 : 8 ≤ p := by omega
      rw [if_neg (by omega), if_neg (by omega), if_neg (by omega), if_neg (by omega),
          if_neg (by omega), if_neg (by omega)]
      exact hco0
  · rw [hcset 1, hbset 8, hbset 9, hbset 10, hbset 11, hbset 12, hbset 13]
    by_cases hcv0 : p / 8 = 0
    · rw [if_neg (by omega)]
      have hp8 : p < 8 := by omega
      rw [if_neg (by omega), if_neg (by omega), if_neg (by omega), if_neg (by omega),
          if_neg (by omega), if_neg (by omega)]
      exact hco1
    · have hcv1 : p / 8 = 1 := by omega
      rw [if_pos hcv1, hco1]
      have hp8 : 8 ≤ p := by omega
      have hp13 : p ≤ 13 := by omega
      interval_cases p <;>
        (apply Nat.eq_of_testBit_eq
         intro i
         simp [Nat.testBit_or, Bool.or_comm, Bool.or_assoc, Bool.or_left_comm])
  · rw [hoset, hcset 0, hcset 1, hocc]
    by_cases hcv0 : p / 8 = 0
    · rw [if_pos hcv0, if_neg (by omega)]
      apply Nat.eq_of_testBit_eq
      intro i
      simp [Nat.testBit_or, Bool.or_comm, Bool.or_assoc, Bool.or_left_comm]
    · have hcv1 : p / 8 = 1 := by omega
      rw [if_neg hcv0, if_pos hcv1]
      apply Nat.eq_of_testBit_eq
      intro i
      simp [Nat.testBit_or, Bool.or_comm, Bool.or_assoc, Bool.or_left_comm]

theorem xor_lt_U64 {a b : Nat} (ha : a < U64) (hb : b < U64) : a ^^^ b < U64 :=
  Nat.xor_lt_two_pow ha hb

set_option maxHeartbeats 1600000 in
theorem removePiece_BoardWF (b : Board) (sq p : Nat) (hb : BoardWF b) (hsq : sq < 64)
    (hpeq : b.pieceAt sq = p) (hocc : p ≠ pieceNone) : BoardWF (b.removePiece sq) := by
  obtain ⟨hlen, hclen, hmlen, h6, h7, hbnd, hval, hcorr, hco0, hco1, hocc2⟩ := hb
  have hvp : ValidPiece p := by
    rcases hval sq hsq with h | h
    · rw [hpeq] at h
      exact absurd h hocc
    · rw [hpeq] at h
      exact h
  obtain ⟨hp14, hp7⟩ := hvp
  have hmod : p % 8 < 6 := by
    rw [show (7:Nat) = 2 ^ 3 - 1 from rfl, land_mask_eq_mod] at hp7
    exact hp7
  have hunf : b.mailbox.getD sq pieceNone = p := hpeq
  have hcv : getPieceColorVal p = p / 8 := by
    unfold getPieceColorVal
    rw [Nat.shiftRight_eq_div_pow]
  have hm1 : (1 <<< sq).testBit sq = true := by
    rw [testBit_one_shl]
    simp
  have hm2 : ∀ i, i ≠ sq → (1 <<< sq).testBit i = false := by
    intro i hi
    rw [testBit_one_shl]
    simp [Ne.symm hi]
  have hbitq : ∀ q, q < 14 → (b.bitboards.getD q 0).testBit sq = decide (p = q) := by
    intro q hq
    rw [hcorr q hq sq hsq, hpeq]
  have hbset_eq : (b.removePiece sq).bitboards.getD p 0 =
      b.bitboards.getD p 0 ^^^ (1 <<< sq) := by
    simp only [Board.removePiece]
    rw [hunf]
    exact getD_set_self _ _ _ _ (by rw [hlen]; exact hp14)
  have hbset_ne : ∀ j : Nat, p ≠ j → (b.removePiece sq).bitboards.getD j 0 =
      b.bitboards.getD j 0 := by
    intro j h
    simp only [Board.removePiece]
    rw [hunf]
    exact getD_set_ne _ _ _ _ _ h
  have hcset : ∀ j : Nat, ((b.removePiece sq).colorOccupancy).getD j 0 =
      if p / 8 = j then b.colorOccupancy.getD j 0 ^^^ (1 <<< sq)
      else b.colorOccupancy.getD j 0 := by
    intro j
    by_cases h : p / 8 = j
    · rw [if_pos h]
      simp only [Board.removePiece]
      rw [hunf, hcv, h]
      exact getD_set_self _ _ _ _ (by rw [hclen]; omega)
    · rw [if_neg h]
      simp only [Board.removePiece]
      rw [hunf, hcv]
      exact getD_set_ne _ _ _ _ _ h
  have hmset : ∀ s : Nat, (b.removePiece sq).pieceAt s =
      if sq = s then pieceNone else b.pieceAt s := by
    intro s
    by_cases h : sq = s
    · rw [if_pos h, ← h]
      unfold Board.pieceAt
      simp only [Board.removePiece]
      exact getD_set_self _ _ _ _ (by rw [hmlen]; exact hsq)
    · rw [if_neg h]
      unfold Board.pieceAt
      simp only [Board.removePiece]
      exact getD_set_ne _ _ _ _ _ h
  have hoset : (b.removePiece sq).occupied = b.occupied ^^^ (1 <<< sq) := by
    simp only [Board.removePiece]
  have e0 := hbitq 0 (by omega)
  have e1 := hbitq 1 (by omega)
  have e2 := hbitq 2 (by omega)
  have e3 := hbitq 3 (by omega)
  have e4 := hbitq 4 (by omega)
  have e5 := hbitq 5 (by omega)
  have e8 := hbitq 8 (by omega)
  have e9 := hbitq 9 (by omega)
  have e10 := hbitq 10 (by omega)
  have e11 := hbitq 11 (by omega)
  have e12 := hbitq 12 (by omega)
  have e13 := hbitq 13 (by omega)
  refine ⟨?_, ?_, ?_, ?_, ?_, ?_, ?_, ?_, ?_, ?_, ?_⟩
  · simp only [Board.removePiece, List.length_set]
    exact hlen
  · simp only [Board.removePiece, List.length_set]
    exact hclen
  · simp only [Board.removePiece, List.length_set]
    exact hmlen
  · rw [hbset_ne 6 (by omega)]
    exact h6
  · rw [hbset_ne 7 (by omega)]
    exact h7
  · intro q hq
    by_cases h : p = q
    · rw [← h, hbset_eq]
      exact xor_lt_U64 (hbnd p hp14) (one_shiftLeft_lt hsq)
    · rw [hbset_ne q h]
      exact hbnd q hq
  · intro s hs
    rw [hmset s]
    by_cases h : sq = s
    · rw [if_pos h]
      left
      rfl
    · rw [if_neg h]
      exact hval s hs
  · intro q hq s hs
    rw [hmset s]
    have h14 : pieceNone ≠ q := by
      unfold pieceNone
      omega
    by_cases hqp : p = q
    · rw [← hqp, hbset_eq]
      by_cases hss : sq = s
      · rw [if_pos hss, ← hss]
        rw [Nat.testBit_xor, hm1, hbitq p hp14]
        simp [show pieceNone ≠ p from fun hh => hocc hh.symm]
      · rw [if_neg hss]
        rw [Nat.testBit_xor, hm2 s (fun hh => hss hh.symm), hcorr p hp14 s hs]
        simp
    · rw [hbset_ne q hqp]
      by_cases hss : sq = s
      · rw [if_pos hss, ← hss]
        rw [hbitq q hq]
        simp [hqp, h14]
      · rw [if_neg hss]
        exact hcorr q hq s hs
  · have hp8 : p < 8 ∨ 8 ≤ p := by omega
    by_cases hcv0 : p / 8 = 0
    · have hc0 : (b.removePiece sq).colorOccupancy.getD 0 0 =
          b.colorOccupancy.getD 0 0 ^^^ (1 <<< sq) := by
        rw [hcset 0, if_pos hcv0]
      rw [hc0, hco0]
      have hp6 : p < 6 := by omega
      interval_cases p <;>
        (rw [hbset_eq]
         try rw [hbset_ne 0 (by omega)]
         try rw [hbset_ne 1 (by omega)]
         try rw [hbset_ne 2 (by omega)]
         try rw [hbset_ne 3 (by omega)]
         try rw [hbset_ne 4 (by omega)]
         try rw [hbset_ne 5 (by omega)]
         apply Nat.eq_of_testBit_eq
         intro i
         rcases eq_or_ne i sq with hi | hi
         · subst hi
           simp only [Nat.testBit_or, Nat.testBit_xor, hm1, e0, e1, e2, e3, e4, e5]
           decide
         · simp only [Nat.testBit_or, Nat.testBit_xor, hm2 i hi, Bool.xor_false])
    · have hc0 : (b.removePiece sq).colorOccupancy.getD 0 0 =
          b.colorOccupancy.getD 0 0 := by
        rw [hcset 0, if_neg hcv0]
      rw [hc0, hbset_ne 0 (by omega), hbset_ne 1 (by omega), hbset_ne 2 (by omega),
          hbset_ne 3 (by omega), hbset_ne 4 (by omega), hbset_ne 5 (by omega)]
      exact hco0
  · by_cases hcv0 : p / 8 = 0
    · have hc1 : (b.removePiece sq).colorOccupancy.getD 1 0 =
          b.colorOccupancy.getD 1 0 := by
        rw [hcset 1, if_neg (by omega)]
      rw [hc1, hbset_ne 8 (by omega), hbset_ne 9 (by omega), hbset_ne 10 (by omega),
          hbset_ne 11 (by omega), hbset_ne 12 (by omega), hbset_ne 13 (by omega)]
      exact hco1
    · have hcv1 : p / 8 = 1 := by omega
      have hc1 : (b.removePiece sq).colorOccupancy.getD 1 0 =
          b.colorOccupancy.getD 1 0 ^^^ (1 <<< sq) := by
        rw [hcset 1, if_pos hcv1]
      rw [hc1, hco1]
      have hp8 : 8 ≤ p := by omega
      have hp13 : p ≤ 13 := by omega
      interval_cases p <;>
        (rw [hbset_eq]
         try rw [hbset_ne 8 (by omega)]
         try rw [hbset_ne 9 (by omega)]
         try rw [hbset_ne 10 (by omega)]
         try rw [hbset_ne 11 (by omega)]
         try rw [hbset_ne 12 (by omega)]
         try rw [hbset_ne 13 (by omega)]
         apply Nat.eq_of_testBit_eq
         intro i
         rcases eq_or_ne i sq with hi | hi
         · subst hi
           simp only [Nat.testBit_or, Nat.testBit_xor, hm1, e8, e9, e10, e11, e12, e13]
           decide
         · simp only [Nat.testBit_or, Nat.testBit_xor, hm2 i hi, Bool.xor_false])
  · by_cases hcv0 : p / 8 = 0
    · have hc0 : (b.removePiece sq).colorOccupancy.getD 0 0 =
          b.colorOccupancy.getD 0 0 ^^^ (1 <<< sq) := by
        rw [hcset 0, if_pos hcv0]
      have hc1 : (b.removePiece sq).colorOccupancy.getD 1 0 =
          b.colorOccupancy.getD 1 0 := by
        rw [hcset 1, if_neg (by omega)]
      rw [hoset, hc0, hc1, hocc2, hco0, hco1]
      have hp6 : p < 6 := by omega
      interval_cases p <;>
        (apply Nat.eq_of_testBit_eq
         intro i
         rcases eq_or_ne i sq with hi | hi
         · subst hi
           simp only [Nat.testBit_or, Nat.testBit_xor, hm1, e0, e1, e2, e3, e4, e5,
             e8, e9, e10, e11, e12, e13]
           decide
         · simp only [Nat.testBit_or, Nat.testBit_xor, hm2 i hi, Bool.xor_false])
    · have hcv1 : p / 8 = 1 := by omega
      have hc0 : (b.removePiece sq).colorOccupancy.getD 0 0 =
          b.colorOccupancy.getD 0 0 := by
        rw [hcset 0, if_neg hcv0]
      have hc1 : (b.removePiece sq).colorOccupancy.getD 1 0 =
          b.colorOccupancy.getD 1 0 ^^^ (1 <<< sq) := by
        rw [hcset 1, if_pos hcv1]
      rw [hoset, hc0, hc1, hocc2, hco0, hco1]
      have hp8 : 8 ≤ p := by omega
      have hp13 : p ≤ 13 := by omega
      interval_cases p <;>
        (apply Nat.eq_of_testBit_eq
         intro i
         rcases eq_or_ne i sq with hi | hi
         · subst hi
           simp only [Nat.testBit_or, Nat.testBit_xor, hm1, e0, e1, e2, e3, e4, e5,
             e8, e9, e10, e11, e12, e13]
           decide
         · simp only [Nat.testBit_or, Nat.testBit_xor, hm2 i hi, Bool.xor_false])

set_option maxHeartbeats 2000000 in
theorem movePiece_BoardWF (b : Board) (fromSq toSq p : Nat) (hb : BoardWF b)
    (hf : fromSq < 64) (ht : toSq < 64) (hne : fromSq ≠ toSq)
    (hpeq : b.pieceAt fromSq = p) (hocc : p ≠ pieceNone)
    (hemp : b.pieceAt toSq = pieceNone) : BoardWF (b.movePiece fromSq toSq) := by
  obtain ⟨hlen, hclen, hmlen, h6, h7, hbnd, hval, hcorr, hco0, hco1, hocc2⟩ := hb
  have hvp : ValidPiece p := by
    rcases hval fromSq hf with h | h
    · rw [hpeq] at h
      exact absurd h hocc
    · rw [hpeq] at h
      exact h
  obtain ⟨hp14, hp7⟩ := hvp
  have hmod : p % 8 < 6 := by
    rw [show (7:Nat) = 2 ^ 3 - 1 from rfl, land_mask_eq_mod] at hp7
    exact hp7
  have hunf : b.mailbox.getD fromSq pieceNone = p := hpeq
  have hcv : getPieceColorVal p = p / 8 := by
    unfold getPieceColorVal
    rw [Nat.shiftRight_eq_div_pow]
  have hm1f : ((1 <<< fromSq) ||| (1 <<< toSq)).testBit fromSq = true := by
    rw [Nat.testBit_or, testBit_one_shl, testBit_one_shl]
    simp
  have hm1t : ((1 <<< fromSq) ||| (1 <<< toSq)).testBit toSq = true := by
    rw [Nat.testBit_or, testBit_one_shl, testBit_one_shl]
    simp
  have hm2 : ∀ i, i ≠ fromSq → i ≠ toSq →
      ((1 <<< fromSq) ||| (1 <<< toSq)).testBit i = false := by
    intro i hif hit
    rw [Nat.testBit_or, testBit_one_shl, testBit_one_shl]
    simp [Ne.symm hif, Ne.symm hit]
  have hbitqf : ∀ q, q < 14 → (b.bitboards.getD q 0).testBit fromSq = decide (p = q) := by
    intro q hq
    rw [hcorr q hq fromSq hf, hpeq]
  have hbitqt : ∀ q, q < 14 → (b.bitboards.getD q 0).testBit toSq = false := by
    intro q hq
    rw [hcorr q hq toSq ht, hemp]
    have h14 : pieceNone ≠ q := by
      unfold pieceNone
      omega
    simp [h14]
  have hbset_eq : (b.movePiece fromSq toSq).bitboards.getD p 0 =
      b.bitboards.getD p 0 ^^^ ((1 <<< fromSq) ||| (1 <<< toSq)) := by
    simp only [Board.movePiece]
    rw [hunf]
    exact getD_set_self _ _ _ _ (by rw [hlen]; exact hp14)
  have hbset_ne : ∀ j : Nat, p ≠ j → (b.movePiece fromSq toSq).bitboards.getD j 0 =
      b.bitboards.getD j 0 := by
    intro j h
    simp only [Board.movePiece]
    rw [hunf]
    exact getD_set_ne _ _ _ _ _ h
  have hcset : ∀ j : Nat, ((b.movePiece fromSq toSq).colorOccupancy).getD j 0 =
      if p / 8 = j then b.colorOccupancy.getD j 0 ^^^ ((1 <<< fromSq) ||| (1 <<< toSq))
      else b.colorOccupancy.getD j 0 := by
    intro j
    by_cases h : p / 8 = j
    · rw [if_pos h]
      simp only [Board.movePiece]
      rw [hunf, hcv, h]
      exact getD_set_self _ _ _ _ (by rw [hclen]; omega)
    · rw [if_neg h]
      simp only [Board.movePiece]
      rw [hunf, hcv]
      exact getD_set_ne _ _ _ _ _ h
  have hmset : ∀ s : Nat, (b.movePiece fromSq toSq).pieceAt s =
      if fromSq = s then pieceNone else if toSq = s then p else b.pieceAt s := by
    intro s
    by_cases h : fromSq = s
    · rw [if_pos h, ← h]
      unfold Board.pieceAt
      simp only [Board.movePiece]
      rw [hunf]
      exact getD_set_self _ _ _ _ (by rw [List.length_set, hmlen]; exact hf)
    · rw [if_neg h]
      unfold Board.pieceAt
      simp only [Board.movePiece]
      rw [hunf]
      rw [getD_set_ne _ _ _ _ _ h]
      by_cases h2 : toSq = s
      · rw [if_pos h2, ← h2]
        exact getD_set_self _ _ _ _ (by rw [hmlen]; exact ht)
      · rw [if_neg h2]
        exact getD_set_ne _ _ _ _ _ h2
  have hoset : (b.movePiece fromSq toSq).occupied =
      b.occupied ^^^ ((1 <<< fromSq) ||| (1 <<< toSq)) := by
    simp only [Board.movePiece]
  have hmlt : (1 <<< fromSq) ||| (1 <<< toSq) < U64 :=
    or_lt_U64 (one_shiftLeft_lt hf) (one_shiftLeft_lt ht)
  have ef0 := hbitqf 0 (by omega)
  have ef1 := hbitqf 1 (by omega)
  have ef2 := hbitqf 2 (by omega)
  have ef3 := hbitqf 3 (by omega)
  have ef4 := hbitqf 4 (by omega)
  have ef5 := hbitqf 5 (by omega)
  have ef8 := hbitqf 8 (by omega)
  have ef9 := hbitqf 9 (by omega)
  have ef10 := hbitqf 10 (by omega)
  have ef11 := hbitqf 11 (by omega)
  have ef12 := hbitqf 12 (by omega)
  have ef13 := hbitqf 13 (by omega)
  have et0 := hbitqt 0 (by omega)
  have et1 := hbitqt 1 (by omega)
  have et2 := hbitqt 2 (by omega)
  have et3 := hbitqt 3 (by omega)
  have et4 := hbitqt 4 (by omega)
  have et5 := hbitqt 5 (by omega)
  have et8 := hbitqt 8 (by omega)
  have et9 := hbitqt 9 (by omega)
  have et10 := hbitqt 10 (by omega)
  have et11 := hbitqt 11 (by omega)
  have et12 := hbitqt 12 (by omega)
  have et13 := hbitqt 13 (by omega)
  refine ⟨?_, ?_, ?_, ?_, ?_, ?_, ?_, ?_, ?_, ?_, ?_⟩
  · simp only [Board.movePiece, List.length_set]
    exact hlen
  · simp only [Board.movePiece, List.length_set]
    exact hclen
  · simp only [Board.movePiece, List.length_set]
    exact hmlen
  · rw [hbset_ne 6 (by omega)]
    exact h6
  · rw [hbset_ne 7 (by omega)]
    exact h7
  · intro q hq
    by_cases h : p = q
    · rw [← h, hbset_eq]
      exact xor_lt_U64 (hbnd p hp14) hmlt
    · rw [hbset_ne q h]
      exact hbnd q hq
  · intro s hs
    rw [hmset s]
    by_cases h : fromSq = s
    · rw [if_pos h]
      left
      rfl
    · rw [if_neg h]
      by_cases h2 : toSq = s
      · rw [if_pos h2]
        right
        exact ⟨hp14, hp7⟩
      · rw [if_neg h2]
        exact hval s hs
  · intro q hq s hs
    rw [hmset s]
    have h14 : pieceNone ≠ q := by
      unfold pieceNone
      omega
    by_cases hqp : p = q
    · rw [← hqp, hbset_eq]
      by_cases hsf : fromSq = s
      · rw [if_pos hsf, ← hsf]
        rw [Nat.testBit_xor, hm1f, hbitqf p hp14]
        simp [show pieceNone ≠ p from fun hh => hocc hh.symm]
      · rw [if_neg hsf]
        by_cases hst : toSq = s
        · rw [if_pos hst, ← hst]
          rw [Nat.testBit_xor, hm1t, hbitqt p hp14]
          simp
        · rw [if_neg hst]
          rw [Nat.testBit_xor,
              hm2 s (fun hh => hsf hh.symm) (fun hh => hst hh.symm),
              hcorr p hp14 s hs]
          simp
    · rw [hbset_ne q hqp]
      by_cases hsf : fromSq = s
      · rw [if_pos hsf, ← hsf]
        rw [hbitqf q hq]
        simp [hqp, h14]
      · rw [if_neg hsf]
        by_cases hst : toSq = s
        · rw [if_pos hst, ← hst]
          rw [hbitqt q hq]
          simp [hqp]
        · rw [if_neg hst]
          exact hcorr q hq s hs
  · by_cases hcv0 : p / 8 = 0
    · have hc0 : (b.movePiece fromSq toSq).colorOccupancy.getD 0 0 =
          b.colorOccupancy.getD 0 0 ^^^ ((1 <<< fromSq) ||| (1 <<< toSq)) := by
        rw [hcset 0, if_pos hcv0]
      rw [hc0, hco0]
      have hp6 : p < 6 := by omega
      interval_cases p <;>
        (rw [hbset_eq]
         try rw [hbset_ne 0 (by omega)]
         try rw [hbset_ne 1 (by omega)]
         try rw [hbset_ne 2 (by omega)]
         try rw [hbset_ne 3 (by omega)]
         try rw [hbset_ne 4 (by omega)]
         try rw [hbset_ne 5 (by omega)]
         apply Nat.eq_of_testBit_eq
         intro i
         by_cases hif : i = fromSq
         · subst hif
           simp only [Nat.testBit_or, Nat.testBit_xor, hm1f, ef0, ef1, ef2, ef3, ef4, ef5]
           decide
         · by_cases hit : i = toSq
           · subst hit
             simp only [Nat.testBit_or, Nat.testBit_xor, hm1t, et0, et1, et2, et3, et4, et5]
             decide
           · simp only [Nat.testBit_or, Nat.testBit_xor, hm2 i hif hit, Bool.xor_false])
    · have hc0 : (b.movePiece fromSq toSq).colorOccupancy.getD 0 0 =
          b.colorOccupancy.getD 0 0 := by
        rw [hcset 0, if_neg hcv0]
      rw [hc0, hbset_ne 0 (by omega), hbset_ne 1 (by omega), hbset_ne 2 (by omega),
          hbset_ne 3 (by omega), hbset_ne 4 (by omega), hbset_ne 5 (by omega)]
      exact hco0
  · by_cases hcv0 : p / 8 = 0
    · have hc1 : (b.movePiece fromSq toSq).colorOccupancy.getD 1 0 =
          b.colorOccupancy.getD 1 0 := by
        rw [hcset 1, if_neg (by omega)]
      rw [hc1, hbset_ne 8 (by omega), hbset_ne 9 (by omega), hbset_ne 10 (by omega),
          hbset_ne 11 (by omega), hbset_ne 12 (by omega), hbset_ne 13 (by omega)]
      exact hco1
    · have hcv1 : p / 8 = 1 := by omega
      have hc1 : (b.movePiece fromSq toSq).colorOccupancy.getD 1 0 =
          b.colorOccupancy.getD 1 0 ^^^ ((1 <<< fromSq) ||| (1 <<< toSq)) := by
        rw [hcset 1, if_pos hcv1]
      rw [hc1, hco1]
      have hp8 : 8 ≤ p := by omega
      have hp13 : p ≤ 13 := by omega
      interval_cases p <;>
        (rw [hbset_eq]
         try rw [hbset_ne 8 (by omega)]
         try rw [hbset_ne 9 (by omega)]
         try rw [hbset_ne 10 (by omega)]
         try rw [hbset_ne 11 (by omega)]
         try rw [hbset_ne 12 (by omega)]
         try rw [hbset_ne 13 (by omega)]
         apply Nat.eq_of_testBit_eq
         intro i
         by_cases hif : i = fromSq
         · subst hif
           simp only [Nat.testBit_or, Nat.testBit_xor, hm1f, ef8, ef9, ef10, ef11, ef12, ef13]
           decide
         · by_cases hit : i = toSq
           · subst hit
             simp only [Nat.testBit_or, Nat.testBit_xor, hm1t, et8, et9, et10, et11, et12, et13]
             decide
           · simp only [Nat.testBit_or, Nat.testBit_xor, hm2 i hif hit, Bool.xor_false])
  · by_cases hcv0 : p / 8 = 0
    · have hc0 : (b.movePiece fromSq toSq).colorOccupancy.getD 0 0 =
          b.colorOccupancy.getD 0 0 ^^^ ((1 <<< fromSq) ||| (1 <<< toSq)) := by
        rw [hcset 0, if_pos hcv0]
      have hc1 : (b.movePiece fromSq toSq).colorOccupancy.getD 1 0 =
          b.colorOccupancy.getD 1 0 := by
        rw [hcset 1, if_neg (by omega)]
      rw [hoset, hc0, hc1, hocc2, hco0, hco1]
      have hp6 : p < 6 := by omega
      interval_cases p <;>
        (apply Nat.eq_of_testBit_eq
         intro i
         by_cases hif : i = fromSq
         · subst hif
           simp only [Nat.testBit_or, Nat.testBit_xor, hm1f, ef0, ef1, ef2, ef3, ef4, ef5,
             ef8, ef9, ef10, ef11, ef12, ef13]
           decide
         · by_cases hit : i = toSq
           · subst hit
             simp only [Nat.testBit_or, Nat.testBit_xor, hm1t, et0, et1, et2, et3, et4, et5,
               et8, et9, et10, et11, et12, et13]
             decide
           · simp only [Nat.testBit_or, Nat.testBit_xor, hm2 i hif hit, Bool.xor_false])
    · have hcv1 : p / 8 = 1 := by omega
      have hc0 : (b.movePiece fromSq toSq).colorOccupancy.getD 0 0 =
          b.colorOccupancy.getD 0 0 := by
        rw [hcset 0, if_neg hcv0]
      have hc1 : (b.movePiece fromSq toSq).colorOccupancy.getD 1 0 =
          b.colorOccupancy.getD 1 0 ^^^ ((1 <<< fromSq) ||| (1 <<< toSq)) := by
        rw [hcset 1, if_pos hcv1]
      rw [hoset, hc0, hc1, hocc2, hco0, hco1]
      have hp8 : 8 ≤ p := by omega
      have hp13 : p ≤ 13 := by omega
      interval_cases p <;>
        (apply Nat.eq_of_testBit_eq
         intro i
         by_cases hif : i = fromSq
         · subst hif
           simp only [Nat.testBit_or, Nat.testBit_xor, hm1f, ef0, ef1, ef2, ef3, ef4, ef5,
             ef8, ef9, ef10, ef11, ef12, ef13]
           decide
         · by_cases hit : i = toSq
           · subst hit
             simp only [Nat.testBit_or, Nat.testBit_xor, hm1t, et0, et1, et2, et3, et4, et5,
               et8, et9, et10, et11, et12, et13]
             decide
           · simp only [Nat.testBit_or, Nat.testBit_xor, hm2 i hif hit, Bool.xor_false])

/-- Claim C6: the three board mutation primitives preserve the summary
invariant: on a board whose mailbox, per-color occupancies and total
occupancy agree with the twelve piece bitboards, `putPiece` on an empty
square, `removePiece` on an occupied square, and `movePiece` from an
occupied square to an empty one each yield a board whose derived
summaries again agree with the piece bitboards. -/
theorem claim_C6_board_invariant (b : Board) (hb : BoardWF b) :
    (∀ p sq, ValidPiece p → sq < 64 → b.pieceAt sq = pieceNone →
        BoardWF (b.putPiece p sq)) ∧
    (∀ sq, sq < 64 → b.pieceAt sq ≠ pieceNone → BoardWF (b.removePiece sq)) ∧
    (∀ fromSq toSq, fromSq < 64 → toSq < 64 → fromSq ≠ toSq →
        b.pieceAt fromSq ≠ pieceNone → b.pieceAt toSq = pieceNone →
        BoardWF (b.movePiece fromSq toSq)) := by
  refine ⟨?_, ?_, ?_⟩
  · intro p sq hp hsq hemp
    exact putPiece_BoardWF b p sq hb hp hsq hemp
  · intro sq hsq hpo
    exact removePiece_BoardWF b sq (b.pieceAt sq) hb hsq rfl hpo
  · intro f t hf ht hne hpo hemp
    exact movePiece_BoardWF b f t (b.pieceAt f) hb hf ht hne rfl hpo hemp

theorem claim_C6_board_invariant_witness :
    BoardWF (startGame.board.putPiece 4 28) ∧
    BoardWF (startGame.board.removePiece 12) ∧
    BoardWF (startGame.board.movePiece 12 28) := by
  have h := claim_C6_board_invariant startGame.board (by decide)
  exact ⟨h.1 4 28 (by decide) (by decide) (by decide),
         h.2.1 12 (by decide) (by decide),
         h.2.2 12 28 (by decide) (by decide) (by decide) (by decide) (by decide)⟩

/-! Promotion emission order (claim C3).  PieceType values of the source:
Pawn 0, Knight 1, Bishop 2, Rook 3, Queen 4, King 5;
`Move::promotionPieceType()` is `PieceType((m_data >> 12 & 0b0011) + 0b0001)`. -/

theorem getFlags_mkMove2 (f t fl : Nat) (hf : f < 64) (ht : t < 4096) (hfl : fl < 16) :
    (mkMove f t fl).data >>> 12 = fl := by
  rw [mkMove_data_or f t fl hf ht hfl, Nat.shiftRight_eq_div_pow]
  have hr : (f <<< 6) ||| t < 4096 := or_lt_4096 (shl6_lt_4096 hf) ht
  rw [show (2:Nat) ^ 12 = 4096 from rfl, Nat.mul_comm fl 4096,
      Nat.mul_add_div (by norm_num), Nat.div_eq_of_lt hr]
  omega

theorem promotionPieceType_mkMove2 (f t fl : Nat) (hf : f < 64) (ht : t < 4096)
    (hfl : fl < 16) : (mkMove f t fl).promotionPieceType = (fl &&& 3) + 1 := by
  unfold Move.promotionPieceType
  rw [getFlags_mkMove2 f t fl hf ht hfl]

theorem promotionBlock_map_types (f t : Nat) (hf : f < 64) (ht : t < 4096) :
    (promotionBlock f t).map Move.promotionPieceType =
      [queenType, rookType, knightType, bishopType] := by
  unfold promotionBlock
  simp only [List.map_cons, List.map_nil]
  rw [promotionPieceType_mkMove2 f t queenPromotionFlag hf ht (by decide),
      promotionPieceType_mkMove2 f t rookPromotionFlag hf ht (by decide),
      promotionPieceType_mkMove2 f t knightPromotionFlag hf ht (by decide),
      promotionPieceType_mkMove2 f t bishopPromotionFlag hf ht (by decide)]
  decide

theorem promotionCaptureBlock_map_types (f t : Nat) (hf : f < 64) (ht : t < 4096) :
    (promotionCaptureBlock f t).map Move.promotionPieceType =
      [queenType, rookType, knightType, bishopType] := by
  unfold promotionCaptureBlock
  simp only [List.map_cons, List.map_nil]
  rw [promotionPieceType_mkMove2 f t queenPromotionCaptureFlag hf ht (by decide),
      promotionPieceType_mkMove2 f t rookPromotionCaptureFlag hf ht (by decide),
      promotionPieceType_mkMove2 f t knightPromotionCaptureFlag hf ht (by decide),
      promotionPieceType_mkMove2 f t bishopPromotionCaptureFlag hf ht (by decide)]
  decide

theorem map_flatMap_comm {α β γ : Type} (l : List α) (f : α → List β) (g : β → γ) :
    (l.flatMap f).map g = l.flatMap (fun x => (f x).map g) := by
  induction l with
  | nil => rfl
  | cons a tl ih => simp [List.flatMap_cons, ih]

/-- Claim C3 (amended): each promotion destination of the generator yields
exactly four emitted moves, whose promotion piece types are Queen (4),
Rook (3), Knight (1), Bishop (2), in that order — not Queen, Rook,
Bishop, Knight as the spec states. -/
theorem claim_C3_promotion_order (c : Color) (g : Game) (hb : GameBounds g) :
    (quietPromotionMoves c g).map Move.promotionPieceType =
      (bitIndices (quietPromotionMask c g)).flatMap
        (fun _ => [queenType, rookType, knightType, bishopType]) ∧
    (leftCapturePromotionMoves c g).map Move.promotionPieceType =
      (bitIndices (leftCapturePromotionMask c g)).flatMap
        (fun _ => [queenType, rookType, knightType, bishopType]) ∧
    (rightCapturePromotionMoves c g).map Move.promotionPieceType =
      (bitIndices (rightCapturePromotionMask c g)).flatMap
        (fun _ => [queenType, rookType, knightType, bishopType]) := by
  refine ⟨?_, ?_, ?_⟩
  · unfold quietPromotionMoves
    rw [map_flatMap_comm]
    apply List.flatMap_congr
    intro f hf
    have hf64 := bitIndices_lt_64 _ f (quietPromotionMask_lt c g hb) hf
    exact promotionBlock_map_types f _ hf64 (by have := forwardSquare_lt_80 c f hf64; omega)
  · unfold leftCapturePromotionMoves
    rw [map_flatMap_comm]
    apply List.flatMap_congr
    intro f hf
    have hf64 := bitIndices_lt_64 _ f (leftCapturePromotionMask_lt c g hb) hf
    exact promotionCaptureBlock_map_types f _ hf64
      (by have := forwardSquare_lt_80 c f hf64; omega)
  · unfold rightCapturePromotionMoves
    rw [map_flatMap_comm]
    apply List.flatMap_congr
    intro f hf
    have hf64 := bitIndices_lt_64 _ f (rightCapturePromotionMask_lt c g hb) hf
    exact promotionCaptureBlock_map_types f _ hf64
      (by have := forwardSquare_lt_80 c f hf64; omega)

theorem claim_C3_promotion_order_witness :
    (quietPromotionMoves Color.White gamePromoQuiet).map Move.promotionPieceType =
      (bitIndices (quietPromotionMask Color.White gamePromoQuiet)).flatMap
        (fun _ => [queenType, rookType, knightType, bishopType]) :=
  (claim_C3_promotion_order Color.White gamePromoQuiet (by decide)).1

/-- Counterexample to the promotion order the spec claims: in
`4k3/P7/8/8/8/8/8/4K3 w - - 0 1` the four promotion moves the generator
emits for the a7-pawn carry the promotion piece types 4, 3, 1, 2
(Queen, Rook, Knight, Bishop) — not 4, 3, 2, 1 (Queen, Rook, Bishop,
Knight) as the spec's order would give. -/
theorem claim_C3_promotion_order_cex :
    ((legalMovesList Color.White gamePromoQuiet).filter
        (fun m => m.isPromotion)).map Move.promotionPieceType =
      [queenType, rookType, knightType, bishopType] ∧
    [queenType, rookType, knightType, bishopType] ≠
      [queenType, rookType, bishopType, knightType] := by
  exact ⟨by decide, by decide⟩

/-! Inversion algebra of the board primitives (claim C1). -/

theorem boardExt {b1 b2 : Board} (h1 : b1.bitboards = b2.bitboards)
    (h2 : b1.colorOccupancy = b2.colorOccupancy) (h3 : b1.occupied = b2.occupied)
    (h4 : b1.mailbox = b2.mailbox) : b1 = b2 := by
  cases b1
  cases b2
  simp_all

theorem set_getD_eq_self {α : Type} (l : List α) (i : Nat) (d : α) (hi : i < l.length)
    (v : α) (hv : l.getD i d = v) : l.set i v = l := by
  apply List.ext_getElem?
  intro n
  rw [List.getElem?_set]
  by_cases h : i = n
  · subst h
    rw [if_pos rfl, if_pos hi]
    rw [List.getD_eq_getElem?_getD, List.getElem?_eq_getElem hi] at hv
    rw [List.getElem?_eq_getElem hi]
    simp only [Option.getD_some] at hv
    rw [hv]
  · rw [if_neg h]

theorem pieceAt_putPiece (b : Board) (p sq s : Nat) (hmlen : b.mailbox.length = 64)
    (hsq : sq < 64) : (b.putPiece p sq).pieceAt s = if sq = s then p else b.pieceAt s := by
  by_cases h : sq = s
  · rw [if_pos h, ← h]
    unfold Board.pieceAt
    simp only [Board.putPiece]
    exact getD_set_self _ _ _ _ (by rw [hmlen]; exact hsq)
  · rw [if_neg h]
    unfold Board.pieceAt
    simp only [Board.putPiece]
    exact getD_set_ne _ _ _ _ _ h

theorem pieceAt_removePiece (b : Board) (sq s : Nat) (hmlen : b.mailbox.length = 64)
    (hsq : sq < 64) :
    (b.removePiece sq).pieceAt s = if sq = s then pieceNone else b.pieceAt s := by
  by_cases h : sq = s
  · rw [if_pos h, ← h]
    unfold Board.pieceAt
    simp only [Board.removePiece]
    exact getD_set_self _ _ _ _ (by rw [hmlen]; exact hsq)
  · rw [if_neg h]
    unfold Board.pieceAt
    simp only [Board.removePiece]
    exact getD_set_ne _ _ _ _ _ h

theorem pieceAt_movePiece (b : Board) (f t s : Nat) (hmlen : b.mailbox.length = 64)
    (hf : f < 64) (ht : t < 64) (_hne : f ≠ t) :
    (b.movePiece f t).pieceAt s =
      if f = s then pieceNone else if t = s then b.pieceAt f else b.pieceAt s := by
  by_cases h : f = s
  · rw [if_pos h, ← h]
    unfold Board.pieceAt
    simp only [Board.movePiece]
    exact getD_set_self _ _ _ _ (by rw [List.length_set, hmlen]; exact hf)
  · rw [if_neg h]
    unfold Board.pieceAt
    simp only [Board.movePiece]
    rw [getD_set_ne _ _ _ _ _ h]
    by_cases h2 : t = s
    · rw [if_pos h2, ← h2]
      exact getD_set_self _ _ _ _ (by rw [hmlen]; exact ht)
    · rw [if_neg h2]
      exact getD_set_ne _ _ _ _ _ h2

theorem or_xor_cancel_bit (x sq : Nat) (hx : x.testBit sq = false) :
    (x ||| (1 <<< sq)) ^^^ (1 <<< sq) = x := by
  apply Nat.eq_of_testBit_eq
  intro i
  rw [Nat.testBit_xor, Nat.testBit_or, testBit_one_shl]
  by_cases h : sq = i
  · rw [← h, hx]
    simp
  · simp [h]

theorem xor_or_cancel_bit (x sq : Nat) (hx : x.testBit sq = true) :
    (x ^^^ (1 <<< sq)) ||| (1 <<< sq) = x := by
  apply Nat.eq_of_testBit_eq
  intro i
  rw [Nat.testBit_or, Nat.testBit_xor, testBit_one_shl]
  by_cases h : sq = i
  · rw [← h, hx]
    simp
  · simp [h]

theorem xor_xor_cancel (x m : Nat) : (x ^^^ m) ^^^ m = x := by
  rw [Nat.xor_assoc, Nat.xor_self, Nat.xor_zero]

theorem cv_lt_2 (p : Nat) (hp : p < 14) : getPieceColorVal p < 2 := by
  unfold getPieceColorVal
  rw [Nat.shiftRight_eq_div_pow]
  omega

/-- Moving a piece back undoes a move. -/
theorem movePiece_movePiece (b : Board) (f t p : Nat) (hb : BoardWF b)
    (hf : f < 64) (ht : t < 64) (hne : f ≠ t) (hpeq : b.pieceAt f = p)
    (hpn : p ≠ pieceNone) (hemp : b.pieceAt t = pieceNone) :
    (b.movePiece f t).movePiece t f = b := by
  obtain ⟨hlen, hclen, hmlen, h6, h7, hbnd, hval, hcorr, hco0, hco1, hocc2⟩ := hb
  have hp14 : p < 14 := by
    rcases hval f hf with h | h
    · rw [hpeq] at h
      exact absurd h hpn
    · rw [hpeq] at h
      exact h.1
  have hcv2 : getPieceColorVal p < 2 := cv_lt_2 p hp14
  have hread2 : ((b.mailbox.set t p).set f pieceNone).getD t pieceNone = p := by
    rw [getD_set_ne _ _ _ _ _ hne]
    exact getD_set_self _ _ _ _ (by rw [hmlen]; exact ht)
  have hM : (1 <<< t) ||| (1 <<< f) = (1 <<< f) ||| (1 <<< t) := Nat.lor_comm _ _
  apply boardExt
  · simp only [Board.movePiece]
    rw [show b.mailbox.getD f pieceNone = p from hpeq, hread2]
    rw [getD_set_self _ _ _ _ (by rw [hlen]; exact hp14)]
    rw [List.set_set, hM, xor_xor_cancel]
    exact set_getD_eq_self _ _ _ (by rw [hlen]; exact hp14) _ rfl
  · simp only [Board.movePiece]
    rw [show b.mailbox.getD f pieceNone = p from hpeq, hread2]
    rw [getD_set_self _ _ _ _ (by rw [hclen]; exact hcv2)]
    rw [List.set_set, hM, xor_xor_cancel]
    exact set_getD_eq_self _ _ _ (by rw [hclen]; exact hcv2) _ rfl
  · simp only [Board.movePiece]
    rw [hM, xor_xor_cancel]
  · simp only [Board.movePiece]
    rw [show b.mailbox.getD f pieceNone = p from hpeq, hread2]
    rw [List.set_set]
    rw [List.set_comm _ _ _ (fun hh => hne hh.symm)]
    rw [List.set_set]
    rw [set_getD_eq_self b.mailbox f pieceNone (by rw [hmlen]; exact hf) p hpeq]
    exact set_getD_eq_self b.mailbox t pieceNone (by rw [hmlen]; exact ht) pieceNone hemp

/-- Removing a just-put piece undoes the put. -/
theorem removePiece_putPiece (b : Board) (p sq : Nat) (hb : BoardWF b)
    (hvp : ValidPiece p) (hsq : sq < 64) (hemp : b.pieceAt sq = pieceNone) :
    (b.putPiece p sq).removePiece sq = b := by
  obtain ⟨hlen, hclen, hmlen, h6, h7, hbnd, hval, hcorr, hco0, hco1, hocc2⟩ := hb
  obtain ⟨hp14, hp7⟩ := hvp
  have hcv2 : getPieceColorVal p < 2 := cv_lt_2 p hp14
  have hbitq : ∀ q, q < 14 → (b.bitboards.getD q 0).testBit sq = false := by
    intro q hq
    rw [hcorr q hq sq hsq, hemp]
    have h14 : pieceNone ≠ q := by
      unfold pieceNone
      omega
    simp [h14]
  have hcobit : ∀ j, j < 2 → (b.colorOccupancy.getD j 0).testBit sq = false := by
    intro j hj
    rcases (by omega : j = 0 ∨ j = 1) with h | h <;> subst h
    · rw [hco0]
      simp only [Nat.testBit_or, hbitq 0 (by omega), hbitq 1 (by omega), hbitq 2 (by omega),
        hbitq 3 (by omega), hbitq 4 (by omega), hbitq 5 (by omega)]
      rfl
    · rw [hco1]
      simp only [Nat.testBit_or, hbitq 8 (by omega), hbitq 9 (by omega), hbitq 10 (by omega),
        hbitq 11 (by omega), hbitq 12 (by omega), hbitq 13 (by omega)]
      rfl
  have hocbit : b.occupied.testBit sq = false := by
    rw [hocc2]
    simp only [Nat.testBit_or, hcobit 0 (by omega), hcobit 1 (by omega)]
    rfl
  have hread2 : (b.mailbox.set sq p).getD sq pieceNone = p :=
    getD_set_self _ _ _ _ (by rw [hmlen]; exact hsq)
  apply boardExt
  · simp only [Board.removePiece, Board.putPiece]
    rw [hread2]
    rw [getD_set_self _ _ _ _ (by rw [hlen]; exact hp14)]
    rw [List.set_set, or_xor_cancel_bit _ _ (hbitq p hp14)]
    exact set_getD_eq_self _ _ _ (by rw [hlen]; exact hp14) _ rfl
  · simp only [Board.removePiece, Board.putPiece]
    rw [hread2]
    rw [getD_set_self _ _ _ _ (by rw [hclen]; exact hcv2)]
    rw [List.set_set, or_xor_cancel_bit _ _ (hcobit _ hcv2)]
    exact set_getD_eq_self _ _ _ (by rw [hclen]; exact hcv2) _ rfl
  · simp only [Board.removePiece, Board.putPiece]
    rw [or_xor_cancel_bit _ _ hocbit]
  · simp only [Board.removePiece, Board.putPiece]
    rw [List.set_set]
    exact set_getD_eq_self b.mailbox sq pieceNone (by rw [hmlen]; exact hsq) pieceNone hemp

/-- Putting a just-removed piece back undoes the removal. -/
theorem putPiece_removePiece (b : Board) (sq p : Nat) (hb : BoardWF b)
    (hsq : sq < 64) (hpeq : b.pieceAt sq = p) (hpn : p ≠ pieceNone) :
    (b.removePiece sq).putPiece p sq = b := by
  obtain ⟨hlen, hclen, hmlen, h6, h7, hbnd, hval, hcorr, hco0, hco1, hocc2⟩ := hb
  have hp14 : p < 14 := by
    rcases hval sq hsq with h | h
    · rw [hpeq] at h
      exact absurd h hpn
    · rw [hpeq] at h
      exact h.1
  have hcv2 : getPieceColorVal p < 2 := cv_lt_2 p hp14
  have hbitp : (b.bitboards.getD p 0).testBit sq = true := by
    rw [hcorr p hp14 sq hsq, hpeq]
    simp
  have hbitq : ∀ q, q < 14 → (b.bitboards.getD q 0).testBit sq = decide (p = q) := by
    intro q hq
    rw [hcorr q hq sq hsq, hpeq]
  have hcv : getPieceColorVal p = p / 8 := by
    unfold getPieceColorVal
    rw [Nat.shiftRight_eq_div_pow]
  have hmod : p % 8 < 6 := by
    rcases hval sq hsq with h | h
    · rw [hpeq] at h
      exact absurd h hpn
    · rw [hpeq] at h
      have h2 := h.2
      rw [show (7:Nat) = 2 ^ 3 - 1 from rfl, land_mask_eq_mod] at h2
      exact h2
  have hcobit : (b.colorOccupancy.getD (getPieceColorVal p) 0).testBit sq = true := by
    rw [hcv]
    by_cases hcv0 : p / 8 = 0
    · rw [hcv0, hco0]
      have hp6 : p < 6 := by omega
      simp only [Nat.testBit_or, hbitq 0 (by omega), hbitq 1 (by omega), hbitq 2 (by omega),
        hbitq 3 (by omega), hbitq 4 (by omega), hbitq 5 (by omega)]
      interval_cases p <;> decide
    · have hcv1 : p / 8 = 1 := by omega
      rw [hcv1, hco1]
      have hp8 : 8 ≤ p := by omega
      have hp13 : p ≤ 13 := by omega
      simp only [Nat.testBit_or, hbitq 8 (by omega), hbitq 9 (by omega), hbitq 10 (by omega),
        hbitq 11 (by omega), hbitq 12 (by omega), hbitq 13 (by omega)]
      interval_cases p <;> decide
  have hocbit : b.occupied.testBit sq = true := by
    rw [hocc2, Nat.testBit_or]
    have hco := hcobit
    rw [hcv] at hco
    by_cases hcv0 : p / 8 = 0
    · rw [hcv0] at hco
      rw [hco]
      rfl
    · have hcv1 : p / 8 = 1 := by omega
      rw [hcv1] at hco
      rw [hco]
      simp
  apply boardExt
  · simp only [Board.putPiece, Board.removePiece]
    rw [show b.mailbox.getD sq pieceNone = p from hpeq]
    rw [getD_set_self _ _ _ _ (by rw [hlen]; exact hp14)]
    rw [List.set_set, xor_or_cancel_bit _ _ hbitp]
    exact set_getD_eq_self _ _ _ (by rw [hlen]; exact hp14) _ rfl
  · simp only [Board.putPiece, Board.removePiece]
    rw [show b.mailbox.getD sq pieceNone = p from hpeq]
    rw [getD_set_self _ _ _ _ (by rw [hclen]; exact hcv2)]
    rw [List.set_set, xor_or_cancel_bit _ _ hcobit]
    exact set_getD_eq_self _ _ _ (by rw [hclen]; exact hcv2) _ rfl
  · simp only [Board.putPiece, Board.removePiece]
    rw [xor_or_cancel_bit _ _ hocbit]
  · simp only [Board.putPiece, Board.removePiece]
    rw [List.set_set]
    exact set_getD_eq_self b.mailbox sq pieceNone (by rw [hmlen]; exact hsq) p hpeq

theorem xor_right_comm (a m n : Nat) : (a ^^^ m) ^^^ n = (a ^^^ n) ^^^ m := by
  rw [Nat.xor_assoc, Nat.xor_comm m n, ← Nat.xor_assoc]

set_option maxHeartbeats 1000000 in
/-- Two piece moves on four pairwise distinct squares commute. -/
theorem movePiece_comm (b : Board) (f1 t1 f2 t2 p1 p2 : Nat) (hb : BoardWF b)
    (hf1 : f1 < 64) (ht1 : t1 < 64) (hf2 : f2 < 64) (ht2 : t2 < 64)
    (h12 : f1 ≠ t1) (h13 : f1 ≠ f2) (h14 : f1 ≠ t2) (h23 : t1 ≠ f2) (h24 : t1 ≠ t2)
    (h34 : f2 ≠ t2)
    (hp1 : b.pieceAt f1 = p1) (hp2 : b.pieceAt f2 = p2)
    (hpn1 : p1 ≠ pieceNone) (hpn2 : p2 ≠ pieceNone) (hne12 : p1 ≠ p2) :
    (b.movePiece f1 t1).movePiece f2 t2 = (b.movePiece f2 t2).movePiece f1 t1 := by
  obtain ⟨hlen, hclen, hmlen, h6, h7, hbnd, hval, hcorr, hco0, hco1, hocc2⟩ := hb
  have hp114 : p1 < 14 := by
    rcases hval f1 hf1 with h | h
    · rw [hp1] at h
      exact absurd h hpn1
    · rw [hp1] at h
      exact h.1
  have hp214 : p2 < 14 := by
    rcases hval f2 hf2 with h | h
    · rw [hp2] at h
      exact absurd h hpn2
    · rw [hp2] at h
      exact h.1
  have hcv1 : getPieceColorVal p1 < 2 := cv_lt_2 p1 hp114
  have hcv2 : getPieceColorVal p2 < 2 := cv_lt_2 p2 hp214
  have hr12 : ((b.mailbox.set t1 p1).set f1 pieceNone).getD f2 pieceNone = p2 := by
    rw [getD_set_ne _ _ _ _ _ h13, getD_set_ne _ _ _ _ _ h23]
    exact hp2
  have hr21 : ((b.mailbox.set t2 p2).set f2 pieceNone).getD f1 pieceNone = p1 := by
    rw [getD_set_ne _ _ _ _ _ (fun hh => h13 hh.symm),
        getD_set_ne _ _ _ _ _ (fun hh => h14 hh.symm)]
    exact hp1
  apply boardExt
  · simp only [Board.movePiece]
    rw [show b.mailbox.getD f1 pieceNone = p1 from hp1,
        show b.mailbox.getD f2 pieceNone = p2 from hp2, hr12, hr21]
    rw [getD_set_ne _ _ _ _ _ hne12, getD_set_ne _ _ _ _ _ (fun hh => hne12 hh.symm)]
    exact List.set_comm _ _ _ hne12
  · simp only [Board.movePiece]
    rw [show b.mailbox.getD f1 pieceNone = p1 from hp1,
        show b.mailbox.getD f2 pieceNone = p2 from hp2, hr12, hr21]
    by_cases hcv : getPieceColorVal p1 = getPieceColorVal p2
    · rw [← hcv]
      rw [getD_set_self _ _ _ _ (by rw [hclen]; exact hcv1),
          getD_set_self _ _ _ _ (by rw [hclen]; exact hcv1)]
      rw [List.set_set, List.set_set]
      rw [xor_right_comm]
    · rw [getD_set_ne _ _ _ _ _ hcv, getD_set_ne _ _ _ _ _ (fun hh => hcv hh.symm)]
      exact List.set_comm _ _ _ hcv
  · simp only [Board.movePiece]
    rw [xor_right_comm]
  · simp only [Board.movePiece]
    rw [show b.mailbox.getD f1 pieceNone = p1 from hp1,
        show b.mailbox.getD f2 pieceNone = p2 from hp2, hr12, hr21]
    apply List.ext_getElem?
    intro n
    simp only [List.getElem?_set, List.length_set]
    by_cases e1 : f1 = n <;> by_cases e2 : t1 = n <;> by_cases e3 : f2 = n <;>
      by_cases e4 : t2 = n <;> simp_all

/-! Decomposition of an arbitrary 16-bit move into `mkMove` form, the
pseudolegality precondition, and the make/unmake round trip (claim C1). -/

theorem move_eq_mkMove (m : Move) (h : m.data < 2 ^ 16) :
    m = mkMove m.getFrom m.getTo m.getFlags := by
  obtain ⟨d⟩ := m
  simp only [mkMove, Move.getFrom, Move.getTo, Move.getFlags]
  congr 1
  have e1 : d &&& 63 = d % 64 := by
    have hh := land_mask_eq_mod d 6
    norm_num at hh
    exact hh
  have e2 : (d >>> 6) &&& 63 = (d / 64) % 64 := by
    have hh := land_mask_eq_mod (d >>> 6) 6
    norm_num at hh
    rw [hh, Nat.shiftRight_eq_div_pow]
  have e3 : d >>> 12 = d / 4096 := by
    rw [Nat.shiftRight_eq_div_pow]
  simp only [Move.data] at h ⊢
  rw [e1, e2, e3, Nat.lor_assoc]
  rw [Nat.shiftLeft_eq (d / 4096) 12, Nat.shiftLeft_eq (d / 64 % 64) 6]
  rw [or_mul_pow_add 6 (d / 64 % 64) (d % 64) (by norm_num; omega)]
  rw [or_mul_pow_add 12 (d / 4096) (d / 64 % 64 * 2 ^ 6 + d % 64) (by norm_num; omega)]
  norm_num
  omega

/-- Pseudolegality of a move for the side to move, as the make/unmake pair
assumes it: the moved piece exists, targets are empty or enemy-occupied as
the flag demands, en-passant and castling geometry is coherent, the flag
nibble is one the generator can produce (6 and 7 are unused). -/
def MoveOk (c : Color) (g : Game) (m : Move) : Prop :=
  g.turn = c ∧
  m.data < 2 ^ 16 ∧
  m.getFlags ≠ 6 ∧
  m.getFlags ≠ 7 ∧
  m.getFrom ≠ m.getTo ∧
  g.board.pieceAt m.getFrom ≠ pieceNone ∧
  (m.isCapture = true → m.isEnPassant = false → g.board.pieceAt m.getTo ≠ pieceNone) ∧
  (m.isCapture = false ∨ m.isEnPassant = true → g.board.pieceAt m.getTo = pieceNone) ∧
  (m.isEnPassant = true →
    m.captureDestinationSquare c < 64 ∧
    m.captureDestinationSquare c ≠ m.getFrom ∧
    m.captureDestinationSquare c ≠ m.getTo ∧
    g.board.pieceAt (m.captureDestinationSquare c) = makePiece pawnType (oppColor c)) ∧
  (m.isPromotion = true → g.board.pieceAt m.getFrom = makePiece pawnType c) ∧
  (m.isKingsideCastle = true ∨ m.isQueensideCastle = true →
    g.board.pieceAt m.getFrom = makePiece kingType c) ∧
  (m.isKingsideCastle = true →
    g.board.pieceAt (kingsideCastleRookFromSquare c) = makePiece rookType c ∧
    g.board.pieceAt (kingsideCastleRookToSquare c) = pieceNone ∧
    m.getFrom ≠ kingsideCastleRookFromSquare c ∧ m.getFrom ≠ kingsideCastleRookToSquare c ∧
    m.getTo ≠ kingsideCastleRookFromSquare c ∧ m.getTo ≠ kingsideCastleRookToSquare c) ∧
  (m.isQueensideCastle = true →
    g.board.pieceAt (queensideCastleRookFromSquare c) = makePiece rookType c ∧
    g.board.pieceAt (queensideCastleRookToSquare c) = pieceNone ∧
    m.getFrom ≠ queensideCastleRookFromSquare c ∧ m.getFrom ≠ queensideCastleRookToSquare c ∧
    m.getTo ≠ queensideCastleRookFromSquare c ∧ m.getTo ≠ queensideCastleRookToSquare c)

set_option synthInstance.maxSize 2000 in
instance (c : Color) (g : Game) (m : Move) : Decidable (MoveOk c g m) := by
  unfold MoveOk
  infer_instance

theorem make_board_eq (c : Color) (g : Game) (m : Move) :
    (Game.make c g m).1.board =
      (if m.isKingsideCastle then
        (if m.isPromotion then
          ((if m.isCapture then g.board.removePiece (m.captureDestinationSquare c)
            else g.board).removePiece m.getFrom).putPiece (m.promotionPiece c) m.getTo
         else (if m.isCapture then g.board.removePiece (m.captureDestinationSquare c)
            else g.board).movePiece m.getFrom m.getTo).movePiece
          (kingsideCastleRookFromSquare c) (kingsideCastleRookToSquare c)
       else if m.isQueensideCastle then
        (if m.isPromotion then
          ((if m.isCapture then g.board.removePiece (m.captureDestinationSquare c)
            else g.board).removePiece m.getFrom).putPiece (m.promotionPiece c) m.getTo
         else (if m.isCapture then g.board.removePiece (m.captureDestinationSquare c)
            else g.board).movePiece m.getFrom m.getTo).movePiece
          (queensideCastleRookFromSquare c) (queensideCastleRookToSquare c)
       else
        (if m.isPromotion then
          ((if m.isCapture then g.board.removePiece (m.captureDestinationSquare c)
            else g.board).removePiece m.getFrom).putPiece (m.promotionPiece c) m.getTo
         else (if m.isCapture then g.board.removePiece (m.captureDestinationSquare c)
            else g.board).movePiece m.getFrom m.getTo)) := rfl

theorem make_undo_eq (c : Color) (g : Game) (m : Move) :
    (Game.make c g m).2 =
      { halfMoveCounter := g.halfMoveCounter
        capturedPiece := m.capturedPiece c (g.board.pieceAt m.getTo)
        castlingRights := g.castlingRights
        enPassantSquare := g.enPassantSquare % 256 } := rfl

theorem unmake_board_eq (c : Color) (g1 : Game) (m : Move) (u : UndoInfo) :
    (Game.unmake c g1 m u).board =
      (if m.isCapture then
        (if m.isPromotion then
          (g1.board.removePiece m.getTo).putPiece (makePiece pawnType c) m.getFrom
         else g1.board.movePiece m.getTo m.getFrom).putPiece u.capturedPiece
          (m.captureDestinationSquare c)
       else if m.isKingsideCastle then
        (if m.isPromotion then
          (g1.board.removePiece m.getTo).putPiece (makePiece pawnType c) m.getFrom
         else g1.board.movePiece m.getTo m.getFrom).movePiece
          (kingsideCastleRookToSquare c) (kingsideCastleRookFromSquare c)
       else if m.isQueensideCastle then
        (if m.isPromotion then
          (g1.board.removePiece m.getTo).putPiece (makePiece pawnType c) m.getFrom
         else g1.board.movePiece m.getTo m.getFrom).movePiece
          (queensideCastleRookToSquare c) (queensideCastleRookFromSquare c)
       else
        (if m.isPromotion then
          (g1.board.removePiece m.getTo).putPiece (makePiece pawnType c) m.getFrom
         else g1.board.movePiece m.getTo m.getFrom)) := rfl

set_option maxHeartbeats 3000000 in
theorem unmake_make_board (c : Color) (g : Game) (m : Move) (hwf : BoardWF g.board)
    (hmk : MoveOk c g m) :
    (Game.unmake c (Game.make c g m).1 m (Game.make c g m).2).board = g.board := by
  obtain ⟨hturn, hdata, hfl6, hfl7, hnefr, hpfrom, hcapocc, hquiet, hEP, hPromo, hCK,
    hKS, hQS⟩ := hmk
  obtain ⟨f, t, fl, hf64, ht64, hfl16, rfl⟩ :
      ∃ f t fl, f < 64 ∧ t < 64 ∧ fl < 16 ∧ m = mkMove f t fl := by
    refine ⟨m.getFrom, m.getTo, m.getFlags, ?_, ?_, ?_, move_eq_mkMove m hdata⟩
    · unfold Move.getFrom
      have h := Nat.and_le_right (n := m.data >>> 6) (m := 0x3F)
      omega
    · unfold Move.getTo
      have h := Nat.and_le_right (n := m.data) (m := 0x3F)
      omega
    · unfold Move.getFlags
      rw [Nat.shiftRight_eq_div_pow]
      omega
  have hF : (mkMove f t fl).getFrom = f := getFrom_mkMove f t fl hf64 ht64 hfl16
  have hT : (mkMove f t fl).getTo = t := getTo_mkMove f t fl hf64 ht64 hfl16
  have hFL : (mkMove f t fl).getFlags = fl := getFlags_mkMove f t fl hf64 ht64 hfl16
  rw [hFL] at hfl6 hfl7
  simp only [hF, hT] at hnefr hpfrom hcapocc hquiet hEP hPromo hCK hKS hQS
  have hcap := isCapture_mkMove f t fl hf64 ht64 hfl16
  have hep := isEnPassant_mkMove f t fl hf64 ht64 hfl16
  have hprom := isPromotion_mkMove f t fl hf64 ht64 hfl16
  have hks := isKingsideCastle_mkMove f t fl hf64 ht64 hfl16
  have hqs := isQueensideCastle_mkMove f t fl hf64 ht64 hfl16
  have hmlen : g.board.mailbox.length = 64 := hwf.2.2.1
  interval_cases fl
  · -- quiet move
    have hcapv : (mkMove f t 0).isCapture = false := by rw [hcap]; decide
    have hepv : (mkMove f t 0).isEnPassant = false := by rw [hep]; decide
    have hpromv : (mkMove f t 0).isPromotion = false := by rw [hprom]; decide
    have hksv : (mkMove f t 0).isKingsideCastle = false := by rw [hks]; decide
    have hqsv : (mkMove f t 0).isQueensideCastle = false := by rw [hqs]; decide
    simp [make_board_eq, unmake_board_eq, make_undo_eq, hcapv, hepv, hpromv, hksv, hqsv,
      hF, hT]
    exact movePiece_movePiece g.board f t (g.board.pieceAt f) hwf hf64 ht64 hnefr rfl
      hpfrom (hquiet (Or.inl hcapv))
  · -- double pawn push
    have hcapv : (mkMove f t 1).isCapture = false := by rw [hcap]; decide
    have hepv : (mkMove f t 1).isEnPassant = false := by rw [hep]; decide
    have hpromv : (mkMove f t 1).isPromotion = false := by rw [hprom]; decide
    have hksv : (mkMove f t 1).isKingsideCastle = false := by rw [hks]; decide
    have hqsv : (mkMove f t 1).isQueensideCastle = false := by rw [hqs]; decide
    simp [make_board_eq, unmake_board_eq, make_undo_eq, hcapv, hepv, hpromv, hksv, hqsv,
      hF, hT]
    exact movePiece_movePiece g.board f t (g.board.pieceAt f) hwf hf64 ht64 hnefr rfl
      hpfrom (hquiet (Or.inl hcapv))
  · -- kingside castle
    have hcapv : (mkMove f t 2).isCapture = false := by rw [hcap]; decide
    have hepv : (mkMove f t 2).isEnPassant = false := by rw [hep]; decide
    have hpromv : (mkMove f t 2).isPromotion = false := by rw [hprom]; decide
    have hksv : (mkMove f t 2).isKingsideCastle = true := by rw [hks]; decide
    have hqsv : (mkMove f t 2).isQueensideCastle = false := by rw [hqs]; decide
    obtain ⟨hrkF, hrkT, hne1, hne2, hne3, hne4⟩ := hKS hksv
    have hkp : g.board.pieceAt f = makePiece kingType c := hCK (Or.inl hksv)
    have htE : g.board.pieceAt t = pieceNone := hquiet (Or.inl hcapv)
    have hrf64 : kingsideCastleRookFromSquare c < 64 := by cases c <;> decide
    have hrt64 : kingsideCastleRookToSquare c < 64 := by cases c <;> decide
    have hrfrt : kingsideCastleRookFromSquare c ≠ kingsideCastleRookToSquare c := by
      cases c <;> decide
    have hrknn : makePiece rookType c ≠ pieceNone := by cases c <;> decide
    have hkingrook : makePiece kingType c ≠ makePiece rookType c := by cases c <;> decide
    simp [make_board_eq, unmake_board_eq, make_undo_eq, hcapv, hepv, hpromv, hksv, hqsv,
      hF, hT]
    rw [movePiece_comm g.board f t (kingsideCastleRookFromSquare c)
      (kingsideCastleRookToSquare c) (makePiece kingType c) (makePiece rookType c) hwf
      hf64 ht64 hrf64 hrt64 hnefr hne1 hne2 hne3 hne4 hrfrt hkp hrkF
      (by rw [hkp] at hpfrom; exact hpfrom) hrknn hkingrook]
    have hwf2 : BoardWF (g.board.movePiece (kingsideCastleRookFromSquare c)
        (kingsideCastleRookToSquare c)) :=
      movePiece_BoardWF g.board _ _ (makePiece rookType c) hwf hrf64 hrt64 hrfrt hrkF
        hrknn hrkT
    have hB2f : (g.board.movePiece (kingsideCastleRookFromSquare c)
        (kingsideCastleRookToSquare c)).pieceAt f = g.board.pieceAt f := by
      rw [pieceAt_movePiece g.board _ _ f hmlen hrf64 hrt64 hrfrt]
      rw [if_neg (fun hh => hne1 hh.symm), if_neg (fun hh => hne2 hh.symm)]
    have hB2t : (g.board.movePiece (kingsideCastleRookFromSquare c)
        (kingsideCastleRookToSquare c)).pieceAt t = pieceNone := by
      rw [pieceAt_movePiece g.board _ _ t hmlen hrf64 hrt64 hrfrt]
      rw [if_neg (fun hh => hne3 hh.symm), if_neg (fun hh => hne4 hh.symm)]
      exact htE
    rw [movePiece_movePiece _ f t (g.board.pieceAt f) hwf2 hf64 ht64 hnefr hB2f
      hpfrom hB2t]
    exact movePiece_movePiece g.board _ _ (makePiece rookType c) hwf hrf64 hrt64 hrfrt
      hrkF hrknn hrkT
  · -- queenside castle
    have hcapv : (mkMove f t 3).isCapture = false := by rw [hcap]; decide
    have hepv : (mkMove f t 3).isEnPassant = false := by rw [hep]; decide
    have hpromv : (mkMove f t 3).isPromotion = false := by rw [hprom]; decide
    have hksv : (mkMove f t 3).isKingsideCastle = false := by rw [hks]; decide
    have hqsv : (mkMove f t 3).isQueensideCastle = true := by rw [hqs]; decide
    obtain ⟨hrkF, hrkT, hne1, hne2, hne3, hne4⟩ := hQS hqsv
    have hkp : g.board.pieceAt f = makePiece kingType c := hCK (Or.inr hqsv)
    have htE : g.board.pieceAt t = pieceNone := hquiet (Or.inl hcapv)
    have hrf64 : queensideCastleRookFromSquare c < 64 := by cases c <;> decide
    have hrt64 : queensideCastleRookToSquare c < 64 := by cases c <;> decide
    have hrfrt : queensideCastleRookFromSquare c ≠ queensideCastleRookToSquare c := by
      cases c <;> decide
    have hrknn : makePiece rookType c ≠ pieceNone := by cases c <;> decide
    have hkingrook : makePiece kingType c ≠ makePiece rookType c := by cases c <;> decide
    simp [make_board_eq, unmake_board_eq, make_undo_eq, hcapv, hepv, hpromv, hksv, hqsv,
      hF, hT]
    rw [movePiece_comm g.board f t (queensideCastleRookFromSquare c)
      (queensideCastleRookToSquare c) (makePiece kingType c) (makePiece rookType c) hwf
      hf64 ht64 hrf64 hrt64 hnefr hne1 hne2 hne3 hne4 hrfrt hkp hrkF
      (by rw [hkp] at hpfrom; exact hpfrom) hrknn hkingrook]
    have hwf2 : BoardWF (g.board.movePiece (queensideCastleRookFromSquare c)
        (queensideCastleRookToSquare c)) :=
      movePiece_BoardWF g.board _ _ (makePiece rookType c) hwf hrf64 hrt64 hrfrt hrkF
        hrknn hrkT
    have hB2f : (g.board.movePiece (queensideCastleRookFromSquare c)
        (queensideCastleRookToSquare c)).pieceAt f = g.board.pieceAt f := by
      rw [pieceAt_movePiece g.board _ _ f hmlen hrf64 hrt64 hrfrt]
      rw [if_neg (fun hh => hne1 hh.symm), if_neg (fun hh => hne2 hh.symm)]
    have hB2t : (g.board.movePiece (queensideCastleRookFromSquare c)
        (queensideCastleRookToSquare c)).pieceAt t = pieceNone := by
      rw [pieceAt_movePiece g.board _ _ t hmlen hrf64 hrt64 hrfrt]
      rw [if_neg (fun hh => hne3 hh.symm), if_neg (fun hh => hne4 hh.symm)]
      exact htE
    rw [movePiece_movePiece _ f t (g.board.pieceAt f) hwf2 hf64 ht64 hnefr hB2f
      hpfrom hB2t]
    exact movePiece_movePiece g.board _ _ (makePiece rookType c) hwf hrf64 hrt64 hrfrt
      hrkF hrknn hrkT
  · -- plain capture
    have hcapv : (mkMove f t 4).isCapture = true := by rw [hcap]; decide
    have hepv : (mkMove f t 4).isEnPassant = false := by rw [hep]; decide
    have hpromv : (mkMove f t 4).isPromotion = false := by rw [hprom]; decide
    have hksv : (mkMove f t 4).isKingsideCastle = false := by rw [hks]; decide
    have hqsv : (mkMove f t 4).isQueensideCastle = false := by rw [hqs]; decide
    have hcd : (mkMove f t 4).captureDestinationSquare c = t := by
      unfold Move.captureDestinationSquare
      rw [hepv, hT]
      simp
    have hcapP : (mkMove f t 4).capturedPiece c (g.board.pieceAt t) = g.board.pieceAt t := by
      unfold Move.capturedPiece
      rw [hepv]
      simp
    have hoccT : g.board.pieceAt t ≠ pieceNone := hcapocc hcapv hepv
    simp [make_board_eq, unmake_board_eq, make_undo_eq, hcapv, hepv, hpromv, hksv, hqsv,
      hF, hT, hcd, hcapP]
    have hwf1 : BoardWF (g.board.removePiece t) :=
      removePiece_BoardWF g.board t (g.board.pieceAt t) hwf ht64 rfl hoccT
    have hB1f : (g.board.removePiece t).pieceAt f = g.board.pieceAt f := by
      rw [pieceAt_removePiece g.board t f hmlen ht64]
      rw [if_neg (fun hh => hnefr hh.symm)]
    have hB1t : (g.board.removePiece t).pieceAt t = pieceNone := by
      rw [pieceAt_removePiece g.board t t hmlen ht64]
      rw [if_pos rfl]
    rw [movePiece_movePiece _ f t (g.board.pieceAt f) hwf1 hf64 ht64 hnefr hB1f
      hpfrom hB1t]
    exact putPiece_removePiece g.board t (g.board.pieceAt t) hwf ht64 rfl hoccT
  · -- en passant
    have hcapv : (mkMove f t 5).isCapture = true := by rw [hcap]; decide
    have hepv : (mkMove f t 5).isEnPassant = true := by rw [hep]; decide
    have hpromv : (mkMove f t 5).isPromotion = false := by rw [hprom]; decide
    have hksv : (mkMove f t 5).isKingsideCastle = false := by rw [hks]; decide
    have hqsv : (mkMove f t 5).isQueensideCastle = false := by rw [hqs]; decide
    obtain ⟨hcd64, hcdf, hcdt, hcdP⟩ := hEP hepv
    have hcapP : (mkMove f t 5).capturedPiece c (g.board.pieceAt t) =
        makePiece pawnType (oppColor c) := by
      unfold Move.capturedPiece
      rw [hepv]
      cases c <;> rfl
    have htE : g.board.pieceAt t = pieceNone := hquiet (Or.inr hepv)
    have hpnn : makePiece pawnType (oppColor c) ≠ pieceNone := by cases c <;> decide
    simp [make_board_eq, unmake_board_eq, make_undo_eq, hcapv, hepv, hpromv, hksv, hqsv,
      hF, hT, hcapP]
    have hwf1 : BoardWF (g.board.removePiece ((mkMove f t 5).captureDestinationSquare c)) :=
      removePiece_BoardWF g.board _ (makePiece pawnType (oppColor c)) hwf hcd64 hcdP hpnn
    have hB1f : (g.board.removePiece ((mkMove f t 5).captureDestinationSquare c)).pieceAt f =
        g.board.pieceAt f := by
      rw [pieceAt_removePiece g.board _ f hmlen hcd64]
      rw [if_neg hcdf]
    have hB1t : (g.board.removePiece ((mkMove f t 5).captureDestinationSquare c)).pieceAt t =
        pieceNone := by
      rw [pieceAt_removePiece g.board _ t hmlen hcd64]
      rw [if_neg hcdt]
      exact htE
    rw [movePiece_movePiece _ f t (g.board.pieceAt f) hwf1 hf64 ht64 hnefr hB1f
      hpfrom hB1t]
    rw [← hcdP]
    exact putPiece_removePiece g.board _ (g.board.pieceAt
      ((mkMove f t 5).captureDestinationSquare c)) hwf hcd64 rfl
      (by rw [hcdP]; exact hpnn)
  · -- flag 6: unused
    exact absurd rfl hfl6
  · -- flag 7: unused
    exact absurd rfl hfl7
  · -- quiet promotion, flag 8
    have hcapv : (mkMove f t 8).isCapture = false := by rw [hcap]; decide
    have hepv : (mkMove f t 8).isEnPassant = false := by rw [hep]; decide
    have hpromv : (mkMove f t 8).isPromotion = true := by rw [hprom]; decide
    have hksv : (mkMove f t 8).isKingsideCastle = false := by rw [hks]; decide
    have hqsv : (mkMove f t 8).isQueensideCastle = false := by rw [hqs]; decide
    have hpf : g.board.pieceAt f = makePiece pawnType c := hPromo hpromv
    have htE : g.board.pieceAt t = pieceNone := hquiet (Or.inl hcapv)
    have hpp : (mkMove f t 8).promotionPiece c = makePiece ((8 &&& 3) + 1) c := by
      unfold Move.promotionPiece
      rw [promotionPieceType_mkMove f t 8 hf64 ht64 (by decide)]
    have hvpp : ValidPiece (makePiece ((8 &&& 3) + 1) c) := by cases c <;> decide
    simp [make_board_eq, unmake_board_eq, make_undo_eq, hcapv, hepv, hpromv, hksv, hqsv,
      hF, hT, hpp]
    have hwf1 : BoardWF (g.board.removePiece f) :=
      removePiece_BoardWF g.board f (g.board.pieceAt f) hwf hf64 rfl hpfrom
    have hB1t : (g.board.removePiece f).pieceAt t = pieceNone := by
      rw [pieceAt_removePiece g.board f t hmlen hf64]
      rw [if_neg hnefr]
      exact htE
    rw [removePiece_putPiece (g.board.removePiece f) (makePiece ((8 &&& 3) + 1) c) t
      hwf1 hvpp ht64 hB1t]
    rw [← hpf]
    exact putPiece_removePiece g.board f (g.board.pieceAt f) hwf hf64 rfl hpfrom
  · -- quiet promotion, flag 9
    have hcapv : (mkMove f t 9).isCapture = false := by rw [hcap]; decide
    have hepv : (mkMove f t 9).isEnPassant = false := by rw [hep]; decide
    have hpromv : (mkMove f t 9).isPromotion = true := by rw [hprom]; decide
    have hksv : (mkMove f t 9).isKingsideCastle = false := by rw [hks]; decide
    have hqsv : (mkMove f t 9).isQueensideCastle = false := by rw [hqs]; decide
    have hpf : g.board.pieceAt f = makePiece pawnType c := hPromo hpromv
    have htE : g.board.pieceAt t = pieceNone := hquiet (Or.inl hcapv)
    have hpp : (mkMove f t 9).promotionPiece c = makePiece ((9 &&& 3) + 1) c := by
      unfold Move.promotionPiece
      rw [promotionPieceType_mkMove f t 9 hf64 ht64 (by decide)]
    have hvpp : ValidPiece (makePiece ((9 &&& 3) + 1) c) := by cases c <;> decide
    simp [make_board_eq, unmake_board_eq, make_undo_eq, hcapv, hepv, hpromv, hksv, hqsv,
      hF, hT, hpp]
    have hwf1 : BoardWF (g.board.removePiece f) :=
      removePiece_BoardWF g.board f (g.board.pieceAt f) hwf hf64 rfl hpfrom
    have hB1t : (g.board.removePiece f).pieceAt t = pieceNone := by
      rw [pieceAt_removePiece g.board f t hmlen hf64]
      rw [if_neg hnefr]
      exact htE
    rw [removePiece_putPiece (g.board.removePiece f) (makePiece ((9 &&& 3) + 1) c) t
      hwf1 hvpp ht64 hB1t]
    rw [← hpf]
    exact putPiece_removePiece g.board f (g.board.pieceAt f) hwf hf64 rfl hpfrom
  · -- quiet promotion, flag 10
    have hcapv : (mkMove f t 10).isCapture = false := by rw [hcap]; decide
    have hepv : (mkMove f t 10).isEnPassant = false := by rw [hep]; decide
    have hpromv : (mkMove f t 10).isPromotion = true := by rw [hprom]; decide
    have hksv : (mkMove f t 10).isKingsideCastle = false := by rw [hks]; decide
    have hqsv : (mkMove f t 10).isQueensideCastle = false := by rw [hqs]; decide
    have hpf : g.board.pieceAt f = makePiece pawnType c := hPromo hpromv
    have htE : g.board.pieceAt t = pieceNone := hquiet (Or.inl hcapv)
    have hpp : (mkMove f t 10).promotionPiece c = makePiece ((10 &&& 3) + 1) c := by
      unfold Move.promotionPiece
      rw [promotionPieceType_mkMove f t 10 hf64 ht64 (by decide)]
    have hvpp : ValidPiece (makePiece ((10 &&& 3) + 1) c) := by cases c <;> decide
    simp [make_board_eq, unmake_board_eq, make_undo_eq, hcapv, hepv, hpromv, hksv, hqsv,
      hF, hT, hpp]
    have hwf1 : BoardWF (g.board.removePiece f) :=
      removePiece_BoardWF g.board f (g.board.pieceAt f) hwf hf64 rfl hpfrom
    have hB1t : (g.board.removePiece f).pieceAt t = pieceNone := by
      rw [pieceAt_removePiece g.board f t hmlen hf64]
      rw [if_neg hnefr]
      exact htE
    rw [removePiece_putPiece (g.board.removePiece f) (makePiece ((10 &&& 3) + 1) c) t
      hwf1 hvpp ht64 hB1t]
    rw [← hpf]
    exact putPiece_removePiece g.board f (g.board.pieceAt f) hwf hf64 rfl hpfrom
  · -- quiet promotion, flag 11
    have hcapv : (mkMove f t 11).isCapture = false := by rw [hcap]; decide
    have hepv : (mkMove f t 11).isEnPassant = false := by rw [hep]; decide
    have hpromv : (mkMove f t 11).isPromotion = true := by rw [hprom]; decide
    have hksv : (mkMove f t 11).isKingsideCastle = false := by rw [hks]; decide
    have hqsv : (mkMove f t 11).isQueensideCastle = false := by rw [hqs]; decide
    have hpf : g.board.pieceAt f = makePiece pawnType c := hPromo hpromv
    have htE : g.board.pieceAt t = pieceNone := hquiet (Or.inl hcapv)
    have hpp : (mkMove f t 11).promotionPiece c = makePiece ((11 &&& 3) + 1) c := by
      unfold Move.promotionPiece
      rw [promotionPieceType_mkMove f t 11 hf64 ht64 (by decide)]
    have hvpp : ValidPiece (makePiece ((11 &&& 3) + 1) c) := by cases c <;> decide
    simp [make_board_eq, unmake_board_eq, make_undo_eq, hcapv, hepv, hpromv, hksv, hqsv,
      hF, hT, hpp]
    have hwf1 : BoardWF (g.board.removePiece f) :=
      removePiece_BoardWF g.board f (g.board.pieceAt f) hwf hf64 rfl hpfrom
    have hB1t : (g.board.removePiece f).pieceAt t = pieceNone := by
      rw [pieceAt_removePiece g.board f t hmlen hf64]
      rw [if_neg hnefr]
      exact htE
    rw [removePiece_putPiece (g.board.removePiece f) (makePiece ((11 &&& 3) + 1) c) t
      hwf1 hvpp ht64 hB1t]
    rw [← hpf]
    exact putPiece_removePiece g.board f (g.board.pieceAt f) hwf hf64 rfl hpfrom
  · -- capture promotion, flag 12
    have hcapv : (mkMove f t 12).isCapture = true := by rw [hcap]; decide
    have hepv : (mkMove f t 12).isEnPassant = false := by rw [hep]; decide
    have hpromv : (mkMove f t 12).isPromotion = true := by rw [hprom]; decide
    have hksv : (mkMove f t 12).isKingsideCastle = false := by rw [hks]; decide
    have hqsv : (mkMove f t 12).isQueensideCastle = false := by rw [hqs]; decide
    have hcd : (mkMove f t 12).captureDestinationSquare c = t := by
      unfold Move.captureDestinationSquare
      rw [hepv, hT]
      simp
    have hcapP : (mkMove f t 12).capturedPiece c (g.board.pieceAt t) =
        g.board.pieceAt t := by
      unfold Move.capturedPiece
      rw [hepv]
      simp
    have hoccT : g.board.pieceAt t ≠ pieceNone := hcapocc hcapv hepv
    have hpf : g.board.pieceAt f = makePiece pawnType c := hPromo hpromv
    have hpp : (mkMove f t 12).promotionPiece c = makePiece ((12 &&& 3) + 1) c := by
      unfold Move.promotionPiece
      rw [promotionPieceType_mkMove f t 12 hf64 ht64 (by decide)]
    have hvpp : ValidPiece (makePiece ((12 &&& 3) + 1) c) := by cases c <;> decide
    have hpawnn : makePiece pawnType c ≠ pieceNone := by cases c <;> decide
    simp [make_board_eq, unmake_board_eq, make_undo_eq, hcapv, hepv, hpromv, hksv, hqsv,
      hF, hT, hpp, hcd, hcapP]
    have hwf1 : BoardWF (g.board.removePiece t) :=
      removePiece_BoardWF g.board t (g.board.pieceAt t) hwf ht64 rfl hoccT
    have hmlen1 : (g.board.removePiece t).mailbox.length = 64 := hwf1.2.2.1
    have hB1f : (g.board.removePiece t).pieceAt f = makePiece pawnType c := by
      rw [pieceAt_removePiece g.board t f hmlen ht64]
      rw [if_neg (fun hh => hnefr hh.symm)]
      exact hpf
    have hB1fne : (g.board.removePiece t).pieceAt f ≠ pieceNone := by
      rw [hB1f]
      exact hpawnn
    have hwf2 : BoardWF ((g.board.removePiece t).removePiece f) :=
      removePiece_BoardWF (g.board.removePiece t) f ((g.board.removePiece t).pieceAt f)
        hwf1 hf64 rfl hB1fne
    have hB2t : ((g.board.removePiece t).removePiece f).pieceAt t = pieceNone := by
      rw [pieceAt_removePiece (g.board.removePiece t) f t hmlen1 hf64]
      rw [if_neg hnefr]
      rw [pieceAt_removePiece g.board t t hmlen ht64]
      rw [if_pos rfl]
    rw [removePiece_putPiece ((g.board.removePiece t).removePiece f)
      (makePiece ((12 &&& 3) + 1) c) t hwf2 hvpp ht64 hB2t]
    rw [putPiece_removePiece (g.board.removePiece t) f (makePiece pawnType c) hwf1 hf64
      hB1f hpawnn]
    exact putPiece_removePiece g.board t (g.board.pieceAt t) hwf ht64 rfl hoccT
  · -- capture promotion, flag 13
    have hcapv : (mkMove f t 13).isCapture = true := by rw [hcap]; decide
    have hepv : (mkMove f t 13).isEnPassant = false := by rw [hep]; decide
    have hpromv : (mkMove f t 13).isPromotion = true := by rw [hprom]; decide
    have hksv : (mkMove f t 13).isKingsideCastle = false := by rw [hks]; decide
    have hqsv : (mkMove f t 13).isQueensideCastle = false := by rw [hqs]; decide
    have hcd : (mkMove f t 13).captureDestinationSquare c = t := by
      unfold Move.captureDestinationSquare
      rw [hepv, hT]
      simp
    have hcapP : (mkMove f t 13).capturedPiece c (g.board.pieceAt t) =
        g.board.pieceAt t := by
      unfold Move.capturedPiece
      rw [hepv]
      simp
    have hoccT : g.board.pieceAt t ≠ pieceNone := hcapocc hcapv hepv
    have hpf : g.board.pieceAt f = makePiece pawnType c := hPromo hpromv
    have hpp : (mkMove f t 13).promotionPiece c = makePiece ((13 &&& 3) + 1) c := by
      unfold Move.promotionPiece
      rw [promotionPieceType_mkMove f t 13 hf64 ht64 (by decide)]
    have hvpp : ValidPiece (makePiece ((13 &&& 3) + 1) c) := by cases c <;> decide
    have hpawnn : makePiece pawnType c ≠ pieceNone := by cases c <;> decide
    simp [make_board_eq, unmake_board_eq, make_undo_eq, hcapv, hepv, hpromv, hksv, hqsv,
      hF, hT, hpp, hcd, hcapP]
    have hwf1 : BoardWF (g.board.removePiece t) :=
      removePiece_BoardWF g.board t (g.board.pieceAt t) hwf ht64 rfl hoccT
    have hmlen1 : (g.board.removePiece t).mailbox.length = 64 := hwf1.2.2.1
    have hB1f : (g.board.removePiece t).pieceAt f = makePiece pawnType c := by
      rw [pieceAt_removePiece g.board t f hmlen ht64]
      rw [if_neg (fun hh => hnefr hh.symm)]
      exact hpf
    have hB1fne : (g.board.removePiece t).pieceAt f ≠ pieceNone := by
      rw [hB1f]
      exact hpawnn
    have hwf2 : BoardWF ((g.board.removePiece t).removePiece f) :=
      removePiece_BoardWF (g.board.removePiece t) f ((g.board.removePiece t).pieceAt f)
        hwf1 hf64 rfl hB1fne
    have hB2t : ((g.board.removePiece t).removePiece f).pieceAt t = pieceNone := by
      rw [pieceAt_removePiece (g.board.removePiece t) f t hmlen1 hf64]
      rw [if_neg hnefr]
      rw [pieceAt_removePiece g.board t t hmlen ht64]
      rw [if_pos rfl]
    rw [removePiece_putPiece ((g.board.removePiece t).removePiece f)
      (makePiece ((13 &&& 3) + 1) c) t hwf2 hvpp ht64 hB2t]
    rw [putPiece_removePiece (g.board.removePiece t) f (makePiece pawnType c) hwf1 hf64
      hB1f hpawnn]
    exact putPiece_removePiece g.board t (g.board.pieceAt t) hwf ht64 rfl hoccT
  · -- capture promotion, flag 14
    have hcapv : (mkMove f t 14).isCapture = true := by rw [hcap]; decide
    have hepv : (mkMove f t 14).isEnPassant = false := by rw [hep]; decide
    have hpromv : (mkMove f t 14).isPromotion = true := by rw [hprom]; decide
    have hksv : (mkMove f t 14).isKingsideCastle = false := by rw [hks]; decide
    have hqsv : (mkMove f t 14).isQueensideCastle = false := by rw [hqs]; decide
    have hcd : (mkMove f t 14).captureDestinationSquare c = t := by
      unfold Move.captureDestinationSquare
      rw [hepv, hT]
      simp
    have hcapP : (mkMove f t 14).capturedPiece c (g.board.pieceAt t) =
        g.board.pieceAt t := by
      unfold Move.capturedPiece
      rw [hepv]
      simp
    have hoccT : g.board.pieceAt t ≠ pieceNone := hcapocc hcapv hepv
    have hpf : g.board.pieceAt f = makePiece pawnType c := hPromo hpromv
    have hpp : (mkMove f t 14).promotionPiece c = makePiece ((14 &&& 3) + 1) c := by
      unfold Move.promotionPiece
      rw [promotionPieceType_mkMove f t 14 hf64 ht64 (by decide)]
    have hvpp : ValidPiece (makePiece ((14 &&& 3) + 1) c) := by cases c <;> decide
    have hpawnn : makePiece pawnType c ≠ pieceNone := by cases c <;> decide
    simp [make_board_eq, unmake_board_eq, make_undo_eq, hcapv, hepv, hpromv, hksv, hqsv,
      hF, hT, hpp, hcd, hcapP]
    have hwf1 : BoardWF (g.board.removePiece t) :=
      removePiece_BoardWF g.board t (g.board.pieceAt t) hwf ht64 rfl hoccT
    have hmlen1 : (g.board.removePiece t).mailbox.length = 64 := hwf1.2.2.1
    have hB1f : (g.board.removePiece t).pieceAt f = makePiece pawnType c := by
      rw [pieceAt_removePiece g.board t f hmlen ht64]
      rw [if_neg (fun hh => hnefr hh.symm)]
      exact hpf
    have hB1fne : (g.board.removePiece t).pieceAt f ≠ pieceNone := by
      rw [hB1f]
      exact hpawnn
    have hwf2 : BoardWF ((g.board.removePiece t).removePiece f) :=
      removePiece_BoardWF (g.board.removePiece t) f ((g.board.removePiece t).pieceAt f)
        hwf1 hf64 rfl hB1fne
    have hB2t : ((g.board.removePiece t).removePiece f).pieceAt t = pieceNone := by
      rw [pieceAt_removePiece (g.board.removePiece t) f t hmlen1 hf64]
      rw [if_neg hnefr]
      rw [pieceAt_removePiece g.board t t hmlen ht64]
      rw [if_pos rfl]
    rw [removePiece_putPiece ((g.board.removePiece t).removePiece f)
      (makePiece ((14 &&& 3) + 1) c) t hwf2 hvpp ht64 hB2t]
    rw [putPiece_removePiece (g.board.removePiece t) f (makePiece pawnType c) hwf1 hf64
      hB1f hpawnn]
    exact putPiece_removePiece g.board t (g.board.pieceAt t) hwf ht64 rfl hoccT
  · -- capture promotion, flag 15
    have hcapv : (mkMove f t 15).isCapture = true := by rw [hcap]; decide
    have hepv : (mkMove f t 15).isEnPassant = false := by rw [hep]; decide
    have hpromv : (mkMove f t 15).isPromotion = true := by rw [hprom]; decide
    have hksv : (mkMove f t 15).isKingsideCastle = false := by rw [hks]; decide
    have hqsv : (mkMove f t 15).isQueensideCastle = false := by rw [hqs]; decide
    have hcd : (mkMove f t 15).captureDestinationSquare c = t := by
      unfold Move.captureDestinationSquare
      rw [hepv, hT]
      simp
    have hcapP : (mkMove f t 15).capturedPiece c (g.board.pieceAt t) =
        g.board.pieceAt t := by
      unfold Move.capturedPiece
      rw [hepv]
      simp
    have hoccT : g.board.pieceAt t ≠ pieceNone := hcapocc hcapv hepv
    have hpf : g.board.pieceAt f = makePiece pawnType c := hPromo hpromv
    have hpp : (mkMove f t 15).promotionPiece c = makePiece ((15 &&& 3) + 1) c := by
      unfold Move.promotionPiece
      rw [promotionPieceType_mkMove f t 15 hf64 ht64 (by decide)]
    have hvpp : ValidPiece (makePiece ((15 &&& 3) + 1) c) := by cases c <;> decide
    have hpawnn : makePiece pawnType c ≠ pieceNone := by cases c <;> decide
    simp [make_board_eq, unmake_board_eq, make_undo_eq, hcapv, hepv, hpromv, hksv, hqsv,
      hF, hT, hpp, hcd, hcapP]
    have hwf1 : BoardWF (g.board.removePiece t) :=
      removePiece_BoardWF g.board t (g.board.pieceAt t) hwf ht64 rfl hoccT
    have hmlen1 : (g.board.removePiece t).mailbox.length = 64 := hwf1.2.2.1
    have hB1f : (g.board.removePiece t).pieceAt f = makePiece pawnType c := by
      rw [pieceAt_removePiece g.board t f hmlen ht64]
      rw [if_neg (fun hh => hnefr hh.symm)]
      exact hpf
    have hB1fne : (g.board.removePiece t).pieceAt f ≠ pieceNone := by
      rw [hB1f]
      exact hpawnn
    have hwf2 : BoardWF ((g.board.removePiece t).removePiece f) :=
      removePiece_BoardWF (g.board.removePiece t) f ((g.board.removePiece t).pieceAt f)
        hwf1 hf64 rfl hB1fne
    have hB2t : ((g.board.removePiece t).removePiece f).pieceAt t = pieceNone := by
      rw [pieceAt_removePiece (g.board.removePiece t) f t hmlen1 hf64]
      rw [if_neg hnefr]
      rw [pieceAt_removePiece g.board t t hmlen ht64]
      rw [if_pos rfl]
    rw [removePiece_putPiece ((g.board.removePiece t).removePiece f)
      (makePiece ((15 &&& 3) + 1) c) t hwf2 hvpp ht64 hB2t]
    rw [putPiece_removePiece (g.board.removePiece t) f (makePiece pawnType c) hwf1 hf64
      hB1f hpawnn]
    exact putPiece_removePiece g.board t (g.board.pieceAt t) hwf ht64 rfl hoccT

/-- Claim C1 (amended): for a well-formed position and a pseudolegal move
of the side to move, `make` followed by `unmake` with the returned undo
token restores the board (bitboards, occupancies and mailbox), the side
to move, the castling rights, the en-passant square, the halfmove clock,
the ply, every history slot at index at most ply, and hence the Zobrist
key `zobristHash()`; the internal incremental hash accumulator `m_hash`
is the one field `unmake` does not restore. -/
theorem claim_C1_make_unmake (c : Color) (g : Game) (m : Move) (hwf : BoardWF g.board)
    (heps : g.enPassantSquare ≤ 64) (hmk : MoveOk c g m) :
    (Game.unmake c (Game.make c g m).1 m (Game.make c g m).2).board = g.board ∧
    (Game.unmake c (Game.make c g m).1 m (Game.make c g m).2).turn = g.turn ∧
    (Game.unmake c (Game.make c g m).1 m (Game.make c g m).2).castlingRights =
      g.castlingRights ∧
    (Game.unmake c (Game.make c g m).1 m (Game.make c g m).2).enPassantSquare =
      g.enPassantSquare ∧
    (Game.unmake c (Game.make c g m).1 m (Game.make c g m).2).halfMoveCounter =
      g.halfMoveCounter ∧
    (Game.unmake c (Game.make c g m).1 m (Game.make c g m).2).ply = g.ply ∧
    (∀ i, i ≤ g.ply →
      (Game.unmake c (Game.make c g m).1 m (Game.make c g m).2).history.getD i 0 =
        g.history.getD i 0) ∧
    (Game.unmake c (Game.make c g m).1 m (Game.make c g m).2).zobristHash =
      g.zobristHash := by
  have hh : (Game.unmake c (Game.make c g m).1 m (Game.make c g m).2).history =
      g.history.set (g.ply + 1) ((Game.make c g m).1.hash) := rfl
  have hply : (Game.unmake c (Game.make c g m).1 m (Game.make c g m).2).ply = g.ply := rfl
  refine ⟨unmake_make_board c g m hwf hmk, hmk.1.symm, rfl, ?_, rfl, hply, ?_, ?_⟩
  · show g.enPassantSquare % 256 = g.enPassantSquare
    exact Nat.mod_eq_of_lt (by omega)
  · intro i hi
    rw [hh]
    exact getD_set_ne _ _ _ _ _ (by omega)
  · unfold Game.zobristHash
    rw [hh, hply]
    exact getD_set_ne _ _ _ _ _ (by omega)

theorem claim_C1_make_unmake_witness :
    (Game.unmake Color.White
        (Game.make Color.White startGame (mkMove 12 28 doublePawnPushFlag)).1
        (mkMove 12 28 doublePawnPushFlag)
        (Game.make Color.White startGame (mkMove 12 28 doublePawnPushFlag)).2).board =
      startGame.board ∧
    (Game.unmake Color.White
        (Game.make Color.White startGame (mkMove 12 28 doublePawnPushFlag)).1
        (mkMove 12 28 doublePawnPushFlag)
        (Game.make Color.White startGame (mkMove 12 28 doublePawnPushFlag)).2).turn =
      startGame.turn ∧
    (Game.unmake Color.White
        (Game.make Color.White startGame (mkMove 12 28 doublePawnPushFlag)).1
        (mkMove 12 28 doublePawnPushFlag)
        (Game.make Color.White startGame (mkMove 12 28 doublePawnPushFlag)).2).castlingRights =
      startGame.castlingRights ∧
    (Game.unmake Color.White
        (Game.make Color.White startGame (mkMove 12 28 doublePawnPushFlag)).1
        (mkMove 12 28 doublePawnPushFlag)
        (Game.make Color.White startGame (mkMove 12 28 doublePawnPushFlag)).2).enPassantSquare =
      startGame.enPassantSquare ∧
    (Game.unmake Color.White
        (Game.make Color.White startGame (mkMove 12 28 doublePawnPushFlag)).1
        (mkMove 12 28 doublePawnPushFlag)
        (Game.make Color.White startGame (mkMove 12 28 doublePawnPushFlag)).2).halfMoveCounter =
      startGame.halfMoveCounter ∧
    (Game.unmake Color.White
        (Game.make Color.White startGame (mkMove 12 28 doublePawnPushFlag)).1
        (mkMove 12 28 doublePawnPushFlag)
        (Game.make Color.White startGame (mkMove 12 28 doublePawnPushFlag)).2).ply =
      startGame.ply ∧
    (∀ i, i ≤ startGame.ply →
      (Game.unmake Color.White
        (Game.make Color.White startGame (mkMove 12 28 doublePawnPushFlag)).1
        (mkMove 12 28 doublePawnPushFlag)
        (Game.make Color.White startGame (mkMove 12 28 doublePawnPushFlag)).2).history.getD
          i 0 = startGame.history.getD i 0) ∧
    (Game.unmake Color.White
        (Game.make Color.White startGame (mkMove 12 28 doublePawnPushFlag)).1
        (mkMove 12 28 doublePawnPushFlag)
        (Game.make Color.White startGame (mkMove 12 28 doublePawnPushFlag)).2).zobristHash =
      startGame.zobristHash :=
  claim_C1_make_unmake Color.White startGame (mkMove 12 28 doublePawnPushFlag)
    (by decide) (by decide) (by decide)

/-- Counterexample to the byte-for-byte restoration the spec claims: after
make/unmake of the double push e2e4 from the starting position, the
incremental hash accumulator field differs from its value before `make`
(only the observable key `zobristHash()`, read from the history slot at
the restored ply, is restored). -/
theorem claim_C1_hash_cex :
    (Game.unmake Color.White
        (Game.make Color.White startGame (mkMove 12 28 doublePawnPushFlag)).1
        (mkMove 12 28 doublePawnPushFlag)
        (Game.make Color.White startGame (mkMove 12 28 doublePawnPushFlag)).2).hash ≠
      startGame.hash ∧
    (Game.unmake Color.White
        (Game.make Color.White startGame (mkMove 12 28 doublePawnPushFlag)).1
        (mkMove 12 28 doublePawnPushFlag)
        (Game.make Color.White startGame (mkMove 12 28 doublePawnPushFlag)).2).zobristHash =
      startGame.zobristHash := by
  constructor
  · decide
  · decide

/-! ### UCI move decoding (`convertToSquare` / `convertToMove`, helper.hpp) -/

/-- `convertToSquare`: a two-character square name or `squareNone`.  The
source compares `char`s directly; code points are compared through
`Char.toNat`. -/
def convertToSquare (s : List Char) : Nat :=
  match s with
  | [letter, number] =>
    if letter.toNat < 'a'.toNat ∨ 'h'.toNat < letter.toNat ∨
        number.toNat < '1'.toNat ∨ '8'.toNat < number.toNat then squareNone
    else (number.toNat - '1'.toNat) * 8 + (letter.toNat - 'a'.toNat)
  | _ => squareNone

theorem convertToSquare_lt (s : List Char) :
    convertToSquare s = squareNone ∨ convertToSquare s < 64 := by
  unfold convertToSquare
  match s with
  | [] => exact Or.inl rfl
  | [a] => exact Or.inl rfl
  | a :: b :: d :: tl => exact Or.inl rfl
  | [letter, number] =>
    dsimp only
    by_cases h : letter.toNat < 'a'.toNat ∨ 'h'.toNat < letter.toNat ∨
        number.toNat < '1'.toNat ∨ '8'.toNat < number.toNat
    · rw [if_pos h]
      exact Or.inl rfl
    · rw [if_neg h]
      right
      push_neg at h
      have e1 : 'a'.toNat = 97 := rfl
      have e2 : 'h'.toNat = 104 := rfl
      have e3 : '1'.toNat = 49 := rfl
      have e4 : '8'.toNat = 56 := rfl
      omega

/-- The promotion / promotion-capture flag pair selected by the optional
fifth character (`MoveFlags::Zero`, i.e. 0, when absent or unrecognized). -/
def promoFlagPair (len : Nat) (ch : Char) : Nat × Nat :=
  if len = 5 then
    match ch with
    | 'q' => (queenPromotionFlag, queenPromotionCaptureFlag)
    | 'r' => (rookPromotionFlag, rookPromotionCaptureFlag)
    | 'b' => (bishopPromotionFlag, bishopPromotionCaptureFlag)
    | 'n' => (knightPromotionFlag, knightPromotionCaptureFlag)
    | _ => (quietMoveFlag, quietMoveFlag)
  else (quietMoveFlag, quietMoveFlag)

theorem promoFlagPair_lt (len : Nat) (ch : Char) :
    (promoFlagPair len ch).1 < 16 ∧ (promoFlagPair len ch).2 < 16 := by
  unfold promoFlagPair
  split
  · split <;> decide
  · decide

theorem promoFlagPair_not5 (len : Nat) (ch : Char) (h : len ≠ 5) :
    promoFlagPair len ch = (quietMoveFlag, quietMoveFlag) := by
  unfold promoFlagPair
  rw [if_neg h]

def decodeByAttack (attack startSquare endSquare : Nat) (destEmpty : Bool) : Move :=
  if attack &&& (1 <<< endSquare) ≠ 0 then
    mkMove startSquare endSquare (if destEmpty then quietMoveFlag else captureFlag)
  else nullMove

def decodePawnLast (c : Color) (g : Game) (startSquare endSquare : Nat)
    (str : List Char) : Move :=
  let startSpot := 1 <<< startSquare
  let endSpot := 1 <<< endSquare
  let destEmpty : Bool := g.board.pieceAt endSquare == pieceNone
  let pr := promoFlagPair str.length (str.getD 4 ' ')
  if forward c startSpot = endSpot ∧ destEmpty then
    mkMove startSquare endSquare pr.1
  else if leftPawnAttack c startSpot = endSpot ∧ ¬destEmpty then
    mkMove startSquare endSquare pr.2
  else if rightPawnAttack c startSpot = endSpot ∧ ¬destEmpty then
    mkMove startSquare endSquare pr.2
  else nullMove

def decodePawnNormal (c : Color) (g : Game) (startSquare endSquare : Nat) : Move :=
  let startSpot := 1 <<< startSquare
  let endSpot := 1 <<< endSquare
  let destEmpty : Bool := g.board.pieceAt endSquare == pieceNone
  if forward c startSpot = endSpot ∧ destEmpty then
    mkMove startSquare endSquare quietMoveFlag
  else if doubleForward c (startSpot &&& pawnStartingRank c) = endSpot ∧
      g.board.pieceAt (forwardSquare c startSquare) = pieceNone ∧ destEmpty then
    mkMove startSquare endSquare doublePawnPushFlag
  else if leftPawnAttack c startSpot = endSpot ∧ ¬destEmpty then
    mkMove startSquare endSquare captureFlag
  else if rightPawnAttack c startSpot = endSpot ∧ ¬destEmpty then
    mkMove startSquare endSquare captureFlag
  else if g.enPassantSquare = endSquare ∧ startSpot &&& pawnEnPassantRank c ≠ 0 then
    (if (leftPawnAttack c startSpot = 1 <<< g.enPassantSquare ∨
         rightPawnAttack c startSpot = 1 <<< g.enPassantSquare) ∧ destEmpty then
      mkMove startSquare endSquare enPassantCaptureFlag
    else nullMove)
  else nullMove

def decodePawn (c : Color) (g : Game) (startSquare endSquare : Nat)
    (str : List Char) : Move :=
  if (1 <<< startSquare) &&& pawnLastRank c ≠ 0 then
    decodePawnLast c g startSquare endSquare str
  else decodePawnNormal c g startSquare endSquare

def decodeKing (c : Color) (g : Game) (startSquare endSquare : Nat)
    (destEmpty : Bool) : Move :=
  if kingAttack startSquare &&& (1 <<< endSquare) ≠ 0 then
    mkMove startSquare endSquare (if destEmpty then quietMoveFlag else captureFlag)
  else if startSquare = initialKingSquare c ∧ endSquare = kingsideCastleKingToSquare c ∧
      g.board.occupied &&& shouldUnoccupiedKingside c = 0 then
    mkMove startSquare endSquare kingCastleFlag
  else if startSquare = initialKingSquare c ∧ endSquare = queensideCastleKingToSquare c ∧
      g.board.occupied &&& shouldUnoccupiedQueenside c = 0 then
    mkMove startSquare endSquare queenCastleFlag
  else nullMove

/-- `convertToMove`: decode a UCI move string against the position (the
source's local variables `startSquare`, `endSquare`, `pieceFrom`,
`pieceTo`, `destEmpty` are inlined). -/
def convertToMove (c : Color) (g : Game) (str : List Char) : Move :=
  if str.length ≠ 4 ∧ str.length ≠ 5 then nullMove
  else if convertToSquare (str.take 2) = squareNone ∨
      convertToSquare ((str.drop 2).take 2) = squareNone then nullMove
  else if g.board.pieceAt (convertToSquare (str.take 2)) = pieceNone ∨
      getPieceColorVal (g.board.pieceAt (convertToSquare (str.take 2))) ≠ colorVal c ∨
      (g.board.pieceAt (convertToSquare ((str.drop 2).take 2)) ≠ pieceNone ∧
       getPieceColorVal (g.board.pieceAt (convertToSquare ((str.drop 2).take 2))) =
         colorVal c) then nullMove
  else if getPieceType (g.board.pieceAt (convertToSquare (str.take 2))) = pawnType then
    decodePawn c g (convertToSquare (str.take 2)) (convertToSquare ((str.drop 2).take 2)) str
  else if getPieceType (g.board.pieceAt (convertToSquare (str.take 2))) = knightType then
    decodeByAttack (knightAttack (convertToSquare (str.take 2)))
      (convertToSquare (str.take 2)) (convertToSquare ((str.drop 2).take 2))
      (g.board.pieceAt (convertToSquare ((str.drop 2).take 2)) == pieceNone)
  else if getPieceType (g.board.pieceAt (convertToSquare (str.take 2))) = kingType then
    decodeKing c g (convertToSquare (str.take 2)) (convertToSquare ((str.drop 2).take 2))
      (g.board.pieceAt (convertToSquare ((str.drop 2).take 2)) == pieceNone)
  else if getPieceType (g.board.pieceAt (convertToSquare (str.take 2))) = bishopType then
    decodeByAttack (bishopAttack (convertToSquare (str.take 2)) g.board.occupied)
      (convertToSquare (str.take 2)) (convertToSquare ((str.drop 2).take 2))
      (g.board.pieceAt (convertToSquare ((str.drop 2).take 2)) == pieceNone)
  else if getPieceType (g.board.pieceAt (convertToSquare (str.take 2))) = rookType then
    decodeByAttack (rookAttack (convertToSquare (str.take 2)) g.board.occupied)
      (convertToSquare (str.take 2)) (convertToSquare ((str.drop 2).take 2))
      (g.board.pieceAt (convertToSquare ((str.drop 2).take 2)) == pieceNone)
  else if getPieceType (g.board.pieceAt (convertToSquare (str.take 2))) = queenType then
    decodeByAttack (queenAttack (convertToSquare (str.take 2)) g.board.occupied)
      (convertToSquare (str.take 2)) (convertToSquare ((str.drop 2).take 2))
      (g.board.pieceAt (convertToSquare ((str.drop 2).take 2)) == pieceNone)
  else nullMove

def convertToMoveStr (c : Color) (g : Game) (s : String) : Move :=
  convertToMove c g s.toList

theorem ite_flag_cases (de : Bool) (a b : Nat) :
    (if de then a else b) = a ∨ (if de then a else b) = b := by
  cases de
  · exact Or.inr rfl
  · exact Or.inl rfl

theorem decodeByAttack_spec (attack s e : Nat) (de : Bool) (hs : s < 64) (he : e < 64) :
    decodeByAttack attack s e de = nullMove ∨
    ((decodeByAttack attack s e de).getFrom = s ∧
     (decodeByAttack attack s e de).getTo = e ∧
     (decodeByAttack attack s e de).isPromotion = false) := by
  unfold decodeByAttack
  split_ifs with h1 h2
  · exact Or.inr ⟨getFrom_mkMove s e quietMoveFlag hs he (by decide),
      getTo_mkMove s e quietMoveFlag hs he (by decide),
      by rw [isPromotion_mkMove s e quietMoveFlag hs he (by decide)]; decide⟩
  · exact Or.inr ⟨getFrom_mkMove s e captureFlag hs he (by decide),
      getTo_mkMove s e captureFlag hs he (by decide),
      by rw [isPromotion_mkMove s e captureFlag hs he (by decide)]; decide⟩
  · exact Or.inl rfl

theorem decodeKing_spec (c : Color) (g : Game) (s e : Nat) (de : Bool)
    (hs : s < 64) (he : e < 64) :
    decodeKing c g s e de = nullMove ∨
    ((decodeKing c g s e de).getFrom = s ∧ (decodeKing c g s e de).getTo = e ∧
     (decodeKing c g s e de).isPromotion = false) := by
  unfold decodeKing
  split_ifs with h1 h2 h3 h4
  · exact Or.inr ⟨getFrom_mkMove s e quietMoveFlag hs he (by decide),
      getTo_mkMove s e quietMoveFlag hs he (by decide),
      by rw [isPromotion_mkMove s e quietMoveFlag hs he (by decide)]; decide⟩
  · exact Or.inr ⟨getFrom_mkMove s e captureFlag hs he (by decide),
      getTo_mkMove s e captureFlag hs he (by decide),
      by rw [isPromotion_mkMove s e captureFlag hs he (by decide)]; decide⟩
  · exact Or.inr ⟨getFrom_mkMove s e kingCastleFlag hs he (by decide),
      getTo_mkMove s e kingCastleFlag hs he (by decide),
      by rw [isPromotion_mkMove s e kingCastleFlag hs he (by decide)]; decide⟩
  · exact Or.inr ⟨getFrom_mkMove s e queenCastleFlag hs he (by decide),
      getTo_mkMove s e queenCastleFlag hs he (by decide),
      by rw [isPromotion_mkMove s e queenCastleFlag hs he (by decide)]; decide⟩
  · exact Or.inl rfl

theorem decodePawnNormal_spec (c : Color) (g : Game) (s e : Nat)
    (hs : s < 64) (he : e < 64) :
    decodePawnNormal c g s e = nullMove ∨
    ((decodePawnNormal c g s e).getFrom = s ∧ (decodePawnNormal c g s e).getTo = e ∧
     (decodePawnNormal c g s e).isPromotion = false) := by
  unfold decodePawnNormal
  dsimp only
  split_ifs with h1 h2 h3 h4 h5 h6
  · exact Or.inr ⟨getFrom_mkMove s e quietMoveFlag hs he (by decide),
      getTo_mkMove s e quietMoveFlag hs he (by decide),
      by rw [isPromotion_mkMove s e quietMoveFlag hs he (by decide)]; decide⟩
  · exact Or.inr ⟨getFrom_mkMove s e doublePawnPushFlag hs he (by decide),
      getTo_mkMove s e doublePawnPushFlag hs he (by decide),
      by rw [isPromotion_mkMove s e doublePawnPushFlag hs he (by decide)]; decide⟩
  · exact Or.inr ⟨getFrom_mkMove s e captureFlag hs he (by decide),
      getTo_mkMove s e captureFlag hs he (by decide),
      by rw [isPromotion_mkMove s e captureFlag hs he (by decide)]; decide⟩
  · exact Or.inr ⟨getFrom_mkMove s e captureFlag hs he (by decide),
      getTo_mkMove s e captureFlag hs he (by decide),
      by rw [isPromotion_mkMove s e captureFlag hs he (by decide)]; decide⟩
  · exact Or.inr ⟨getFrom_mkMove s e enPassantCaptureFlag hs he (by decide),
      getTo_mkMove s e enPassantCaptureFlag hs he (by decide),
      by rw [isPromotion_mkMove s e enPassantCaptureFlag hs he (by decide)]; decide⟩
  · exact Or.inl rfl
  · exact Or.inl rfl

theorem decodePawnLast_spec (c : Color) (g : Game) (s e : Nat) (str : List Char)
    (hs : s < 64) (he : e < 64) :
    decodePawnLast c g s e str = nullMove ∨
    ((decodePawnLast c g s e str).getFrom = s ∧ (decodePawnLast c g s e str).getTo = e ∧
     ((decodePawnLast c g s e str).isPromotion = true → str.length = 5)) := by
  have hlt := promoFlagPair_lt str.length (str.getD 4 ' ')
  unfold decodePawnLast
  dsimp only
  split_ifs with h1 h2 h3
  · refine Or.inr ⟨getFrom_mkMove s e _ hs he hlt.1, getTo_mkMove s e _ hs he hlt.1, ?_⟩
    intro hprom
    by_cases hl : str.length = 5
    · exact hl
    · rw [promoFlagPair_not5 _ _ hl] at hprom
      rw [show ((quietMoveFlag, quietMoveFlag) : Nat × Nat).1 = quietMoveFlag from rfl]
        at hprom
      rw [isPromotion_mkMove s e quietMoveFlag hs he (by decide)] at hprom
      exact absurd hprom (by decide)
  · refine Or.inr ⟨getFrom_mkMove s e _ hs he hlt.2, getTo_mkMove s e _ hs he hlt.2, ?_⟩
    intro hprom
    by_cases hl : str.length = 5
    · exact hl
    · rw [promoFlagPair_not5 _ _ hl] at hprom
      rw [show ((quietMoveFlag, quietMoveFlag) : Nat × Nat).2 = quietMoveFlag from rfl]
        at hprom
      rw [isPromotion_mkMove s e quietMoveFlag hs he (by decide)] at hprom
      exact absurd hprom (by decide)
  · refine Or.inr ⟨getFrom_mkMove s e _ hs he hlt.2, getTo_mkMove s e _ hs he hlt.2, ?_⟩
    intro hprom
    by_cases hl : str.length = 5
    · exact hl
    · rw [promoFlagPair_not5 _ _ hl] at hprom
      rw [show ((quietMoveFlag, quietMoveFlag) : Nat × Nat).2 = quietMoveFlag from rfl]
        at hprom
      rw [isPromotion_mkMove s e quietMoveFlag hs he (by decide)] at hprom
      exact absurd hprom (by decide)
  · exact Or.inl rfl

theorem decodePawn_spec (c : Color) (g : Game) (s e : Nat) (str : List Char)
    (hs : s < 64) (he : e < 64) :
    decodePawn c g s e str = nullMove ∨
    ((decodePawn c g s e str).getFrom = s ∧ (decodePawn c g s e str).getTo = e ∧
     ((decodePawn c g s e str).isPromotion = true →
        (1 <<< s) &&& pawnLastRank c ≠ 0 ∧ str.length = 5)) := by
  unfold decodePawn
  split_ifs with h1
  · rcases decodePawnLast_spec c g s e str hs he with h | ⟨hf, ht, hp⟩
    · exact Or.inl h
    · exact Or.inr ⟨hf, ht, fun hprom => ⟨h1, hp hprom⟩⟩
  · rcases decodePawnNormal_spec c g s e hs he with h | ⟨hf, ht, hp⟩
    · exact Or.inl h
    · exact Or.inr ⟨hf, ht, fun hprom => absurd hprom (by rw [hp]; decide)⟩

/-- Claim C7 (amended): for every position and input string the UCI
decoder returns either the null move or a move whose origin and
destination are the squares parsed from the string, and a
promotion-flagged move is produced only for a pawn standing on its
penultimate rank with a five-character string (promotion letter
present).  The decoder does not, however, always return the null move
when no legal interpretation exists: a four-character push of a
penultimate-rank pawn decodes to a quiet-flagged (non-promotion)
move instead of null. -/
theorem claim_C7_decoder (c : Color) (g : Game) (str : List Char) :
    convertToMove c g str = nullMove ∨
    ((convertToMove c g str).getFrom = convertToSquare (str.take 2) ∧
     (convertToMove c g str).getTo = convertToSquare ((str.drop 2).take 2) ∧
     ((convertToMove c g str).isPromotion = true →
        getPieceType (g.board.pieceAt (convertToSquare (str.take 2))) = pawnType ∧
        (1 <<< convertToSquare (str.take 2)) &&& pawnLastRank c ≠ 0 ∧
        str.length = 5)) := by
  unfold convertToMove
  split_ifs with h1 h2 h3 h4 h5 h6 h7 h8 h9
  · exact Or.inl rfl
  · exact Or.inl rfl
  · exact Or.inl rfl
  all_goals push_neg at h2
  all_goals have hs : convertToSquare (str.take 2) < 64 :=
    (convertToSquare_lt _).resolve_left h2.1
  all_goals have he : convertToSquare ((str.drop 2).take 2) < 64 :=
    (convertToSquare_lt _).resolve_left h2.2
  · rcases decodePawn_spec c g _ _ str hs he with h | ⟨hf, ht, hp⟩
    · exact Or.inl h
    · exact Or.inr ⟨hf, ht, fun hprom => ⟨h4, (hp hprom).1, (hp hprom).2⟩⟩
  · rcases decodeByAttack_spec _ _ _ _ hs he with h | ⟨hf, ht, hp⟩
    · exact Or.inl h
    · exact Or.inr ⟨hf, ht, fun hprom => absurd hprom (by rw [hp]; decide)⟩
  · rcases decodeKing_spec c g _ _ _ hs he with h | ⟨hf, ht, hp⟩
    · exact Or.inl h
    · exact Or.inr ⟨hf, ht, fun hprom => absurd hprom (by rw [hp]; decide)⟩
  · rcases decodeByAttack_spec _ _ _ _ hs he with h | ⟨hf, ht, hp⟩
    · exact Or.inl h
    · exact Or.inr ⟨hf, ht, fun hprom => absurd hprom (by rw [hp]; decide)⟩
  · rcases decodeByAttack_spec _ _ _ _ hs he with h | ⟨hf, ht, hp⟩
    · exact Or.inl h
    · exact Or.inr ⟨hf, ht, fun hprom => absurd hprom (by rw [hp]; decide)⟩
  · rcases decodeByAttack_spec _ _ _ _ hs he with h | ⟨hf, ht, hp⟩
    · exact Or.inl h
    · exact Or.inr ⟨hf, ht, fun hprom => absurd hprom (by rw [hp]; decide)⟩
  · exact Or.inl rfl

/-- Counterexample to the spec's error-handling claim: in
`4k3/P7/8/8/8/8/8/4K3 w - -` the string `a7a8` (a pawn push from the
penultimate to the last rank with no promotion letter) decodes to the
quiet-flagged move a7-a8 — neither a promotion nor the null move —
while `a7a8q` decodes to a queen promotion and `e2e4` from the start
position decodes to a double pawn push, as expected. -/
theorem claim_C7_decoder_cex :
    convertToMoveStr Color.White gamePromoQuiet "a7a8" = mkMove 48 56 quietMoveFlag ∧
    convertToMoveStr Color.White gamePromoQuiet "a7a8" ≠ nullMove ∧
    (convertToMoveStr Color.White gamePromoQuiet "a7a8").isPromotion = false ∧
    (1 <<< (48:Nat)) &&& pawnLastRank Color.White ≠ 0 ∧
    getPieceType (gamePromoQuiet.board.pieceAt 48) = pawnType ∧
    convertToMoveStr Color.White gamePromoQuiet "a7a8q" =
      mkMove 48 56 queenPromotionFlag ∧
    convertToMoveStr Color.White startGame "e2e4" = mkMove 12 28 doublePawnPushFlag :=
  ⟨by decide, by decide, by decide, by decide, by decide, by decide, by decide⟩
